import Mathlib

/-!
# Node service of the WebDAV CSI driver

A shallow embedding of `pkg/driver/client.go` and `pkg/driver/node.go`.

* Go maps (`map[string]string`) are association lists, listed in the order in
  which a `range` loop visits them.  A statement that holds for every list
  therefore holds for every visiting order the Go runtime may choose.
* `strings.ToLower` is a parameter (`lower`), so that nothing here depends on
  the Unicode case tables.  `asciiLower` is its restriction to ASCII and is
  only used to evaluate the code on concrete ASCII inputs.
* `len(s) == 0` on a Go string is written `s = ""`.
-/

namespace WebdavCsi

/-! ## Status errors (`google.golang.org/grpc/status`) -/

/-- The two gRPC codes the node service produces. -/
inductive Code where
  | InvalidArgument
  | Internal
  deriving DecidableEq, Repr

/-- A status message: either the literal passed to `status.Error`, or the
format string of `status.Errorf` / `fmt.Sprintf` together with its rendered
string arguments, left unexpanded. -/
inductive Message where
  | text (s : String)
  | format (fmt : String) (args : List String)
  deriving DecidableEq, Repr

/-- A gRPC status error. -/
structure Status where
  code : Code
  message : Message
  deriving DecidableEq, Repr

deriving instance DecidableEq for Except

/-! ## `client.go` -/

/-- A Go `map[string]string`, in `range` order. -/
abbrev GoMap := List (String × String)

/-- ASCII lower-casing, the restriction of `strings.ToLower` to ASCII text. -/
def asciiLower (s : String) : String :=
  String.mk (s.data.map Char.toLower)

/-- `ClientType` is a string type in the source. -/
abbrev ClientType := String

/-- `WebdavType ClientType = "webdav"`. -/
def WebdavType : ClientType := "webdav"

/-- `WebDAVConnectionInfo` of `client.go`. -/
structure WebDAVConnectionInfo where
  URL : String
  User : String
  Password : String
  deriving DecidableEq, Repr

/-- `NewWebDAVConnectionInfo(url, user, password)`. -/
def NewWebDAVConnectionInfo (url user password : String) : WebDAVConnectionInfo :=
  { URL := url, User := user, Password := password }

/-- `GetValidClientType`: the `switch` on the client string. -/
def GetValidClientType (client : String) (defaultClient : ClientType) : ClientType :=
  if client = WebdavType then WebdavType else defaultClient

/-- `IsValidClientType`. -/
def IsValidClientType (client : String) : Bool :=
  if client = WebdavType then true else false

/-- One `for k, v := range m` loop of `ExtractClientType`: the value of the
first visited entry whose lower-cased key is `driver` or `client` replaces
`client`, and the loop stops there (`break`). -/
def scanClient (lower : String → String) : GoMap → String → String
  | [], client => client
  | (k, v) :: rest, client =>
    if lower k = "driver" ∨ lower k = "client" then v else scanClient lower rest client

/-- The `client` string `ExtractClientType` hands to `GetValidClientType`:
the loop over `secrets` runs first, then the loop over `params`. -/
def selectedClient (lower : String → String) (params secrets : GoMap) : String :=
  scanClient lower params (scanClient lower secrets "")

/-- `ExtractClientType(params, secrets, defaultClient)`. -/
def ExtractClientType (lower : String → String) (params secrets : GoMap)
    (defaultClient : ClientType) : ClientType :=
  GetValidClientType (selectedClient lower params secrets) defaultClient

/-- The three locals `user`, `password`, `url` of
`ExtractWebDAVConnectionInfo`. -/
structure ConnVars where
  user : String
  password : String
  url : String
  deriving DecidableEq, Repr

/-- Body of the `switch strings.ToLower(k)` inside both loops of
`ExtractWebDAVConnectionInfo`. -/
def connCase (lower : String → String) (vars : ConnVars) (kv : String × String) : ConnVars :=
  if lower kv.1 = "user" then { vars with user := kv.2 }
  else if lower kv.1 = "password" then { vars with password := kv.2 }
  else if lower kv.1 = "url" then { vars with url := kv.2 }
  else vars

/-- The locals after both loops of `ExtractWebDAVConnectionInfo`: `secrets`
is ranged over first, `params` second, starting from the zero values. -/
def mergedConnVars (lower : String → String) (params secrets : GoMap) : ConnVars :=
  params.foldl (connCase lower) (secrets.foldl (connCase lower) ⟨"", "", ""⟩)

/-- The checks of `ExtractWebDAVConnectionInfo` that follow the two loops. -/
def validateConnVars (vars : ConnVars) : Except Status WebDAVConnectionInfo :=
  let user := if vars.user = "" then "anonymous" else vars.user
  if vars.password = "" ∧ user ≠ "anonymous" then
    .error ⟨.InvalidArgument, .text "Argument password is empty"⟩
  else if vars.url = "" then
    .error ⟨.InvalidArgument, .text "Argument url is empty"⟩
  else
    .ok (NewWebDAVConnectionInfo vars.url user vars.password)

/-- `ExtractWebDAVConnectionInfo(params, secrets)`. -/
def ExtractWebDAVConnectionInfo (lower : String → String) (params secrets : GoMap) :
    Except Status WebDAVConnectionInfo :=
  validateConnVars (mergedConnVars lower params secrets)

/-! ## The volume registry -/

/-- `NodeVolume`, with the five fields `node.go` fills in. -/
structure NodeVolume where
  ID : String
  StagingMountPath : String
  MountPath : String
  DynamicVolumeProvisioning : Bool
  StageVolume : Bool
  deriving DecidableEq, Repr

/-- The registry `driver.nodeVolumes`: the entries it holds. -/
abbrev Registry := List NodeVolume

/-- Modelled from the spec: `Driver.GetNodeVolume` is declared outside
`node.go`; §4.3 gives `get(id)` (read without removing). -/
def GetNodeVolume (reg : Registry) (id : String) : Option NodeVolume :=
  reg.find? (fun nv => decide (nv.ID = id))

/-- Modelled from the spec: `Driver.PopNodeVolume` is declared outside
`node.go`; §4.3 gives `pop(id)` (atomic read-and-remove).  The pair is the
entry read and the registry that is left. -/
def PopNodeVolume (reg : Registry) (id : String) : Option NodeVolume × Registry :=
  (GetNodeVolume reg id, reg.filter (fun nv => !decide (nv.ID = id)))

/-- Modelled from the spec: `Driver.PutNodeVolume` is declared outside
`node.go`; §4.3 gives `put(volume)` (insert or replace by id). -/
def PutNodeVolume (reg : Registry) (nv : NodeVolume) : Registry :=
  nv :: reg.filter (fun e => !decide (e.ID = nv.ID))

/-! ## The node: directories, mount table, Mounter -/

/-- The seven arguments of `Mounter.MountSensitive2`, in call order. -/
structure MountArgs where
  source : String
  sourceAgain : String
  target : String
  fstype : String
  options : List String
  sensitiveOptions : List String
  stdinArgs : List String
  deriving DecidableEq, Repr

/-- One line of the mount table. -/
structure MountEntry where
  source : String
  target : String
  fstype : String
  options : List String
  deriving DecidableEq, Repr

/-- What the node service can observe and change outside its own memory:
the directories that exist and the mount table. -/
structure World where
  dirs : List String
  mounts : List MountEntry
  deriving DecidableEq, Repr

/-- An `error` returned by `os.Remove`, with what `os.IsNotExist` says of it. -/
structure OsError where
  msg : String
  isNotExist : Bool
  deriving DecidableEq, Repr

/-- Modelled from the spec: the `Mounter` interface (§6), the helpers
`PathExists` and `MakeDir` and the standard library are declared outside the
two source files.  A `Host` fixes how each of these calls answers in a given
world: the errors it returns and, for the two Mounter queries, the value it
reports.  Nothing is assumed about the answers. -/
structure Host where
  ToLower : String → String
  PathExistsErr : World → String → Option String
  MakeDirErr : World → String → Option String
  RemoveErr : World → String → Option OsError
  IsLikelyNotMountPoint : World → String → Except String Bool
  MountSensitive2 : World → MountArgs → Option String
  GetDeviceName : World → String → Except String (String × Int)
  UnmountForcefully : World → String → Option String

/-- A call that leaves the process, as recorded in call order. -/
inductive Call where
  | PathExists (path : String)
  | MakeDir (path : String)
  | Remove (path : String)
  | IsLikelyNotMountPoint (path : String)
  | MountSensitive2 (args : MountArgs)
  | GetDeviceName (path : String)
  | UnmountForcefully (path : String)
  deriving DecidableEq, Repr

/-- Whether a recorded call is a mount or an unmount request. -/
def Call.isMountOrUnmount : Call → Bool
  | .MountSensitive2 _ => true
  | .UnmountForcefully _ => true
  | _ => false

/-- Whether a recorded call is a request to the Mounter. -/
def Call.isMounter : Call → Bool
  | .IsLikelyNotMountPoint _ => true
  | .MountSensitive2 _ => true
  | .GetDeviceName _ => true
  | .UnmountForcefully _ => true
  | _ => false

/-- Whether something is mounted at `path` in the mount table. -/
def World.mounted (w : World) (path : String) : Bool :=
  w.mounts.any (fun m => decide (m.target = path))

/-- Modelled from the spec: `PathExists(path)`; without an error it reports
whether the path is among the existing directories. -/
def PathExists (h : Host) (w : World) (path : String) : Except String Bool :=
  match h.PathExistsErr w path with
  | some e => .error e
  | none => .ok (decide (path ∈ w.dirs))

/-- Modelled from the spec: `MakeDir(path)`; without an error the directory
exists afterwards, with an error the world is as before. -/
def MakeDir (h : Host) (w : World) (path : String) : Option String × World :=
  match h.MakeDirErr w path with
  | some e => (some e, w)
  | none => (none, { w with dirs := if path ∈ w.dirs then w.dirs else w.dirs ++ [path] })

/-- Modelled from the spec: `os.Remove(path)`; without an error the directory
is gone afterwards, with an error the world is as before. -/
def osRemove (h : Host) (w : World) (path : String) : Option OsError × World :=
  match h.RemoveErr w path with
  | some e => (some e, w)
  | none => (none, { w with dirs := w.dirs.filter (fun p => !decide (p = path)) })

/-- Modelled from the spec: `Mounter.MountSensitive2`; without an error the
mount table gains one line, with an error the world is as before. -/
def doMount (h : Host) (w : World) (a : MountArgs) : Option String × World :=
  match h.MountSensitive2 w a with
  | some e => (some e, w)
  | none => (none, { w with mounts := w.mounts ++ [⟨a.source, a.target, a.fstype, a.options⟩] })

/-- Modelled from the spec: `Mounter.UnmountForcefully(path)`; without an
error nothing is mounted at the path afterwards, with an error the world is as
before. -/
def doUnmount (h : Host) (w : World) (path : String) : Option String × World :=
  match h.UnmountForcefully w path with
  | some e => (some e, w)
  | none => (none, { w with mounts := w.mounts.filter (fun m => !decide (m.target = path)) })

/-! ## Requests -/

/-- `csi.VolumeCapability_MountVolume`. -/
structure MountVolume where
  FsType : String
  MountFlags : List String
  deriving DecidableEq, Repr

/-- The `access_type` of a `csi.VolumeCapability`. -/
inductive AccessType where
  | Block
  | Mount (m : MountVolume)
  deriving DecidableEq, Repr

/-- `csi.VolumeCapability`; the access mode is its enum number. -/
structure VolumeCapability where
  AccessType : Option AccessType
  AccessMode : Option Nat
  deriving DecidableEq, Repr

/-- `volCap.GetMount()`: nil unless the access type is a mount. -/
def VolumeCapability.GetMount (c : VolumeCapability) : Option MountVolume :=
  match c.AccessType with
  | some (.Mount m) => some m
  | _ => none

/-- `csi.NodeStageVolumeRequest`, the fields read by `NodeStageVolume`. -/
structure NodeStageVolumeRequest where
  VolumeId : String
  StagingTargetPath : String
  VolumeCapability : Option VolumeCapability
  VolumeContext : GoMap
  Secrets : GoMap
  deriving DecidableEq, Repr

/-- `csi.NodePublishVolumeRequest`, the fields read by `NodePublishVolume`. -/
structure NodePublishVolumeRequest where
  VolumeId : String
  TargetPath : String
  StagingTargetPath : String
  VolumeCapability : Option VolumeCapability
  Readonly : Bool
  VolumeContext : GoMap
  Secrets : GoMap
  deriving DecidableEq, Repr

/-- `csi.NodeUnpublishVolumeRequest`. -/
structure NodeUnpublishVolumeRequest where
  VolumeId : String
  TargetPath : String
  deriving DecidableEq, Repr

/-- `csi.NodeUnstageVolumeRequest`. -/
structure NodeUnstageVolumeRequest where
  VolumeId : String
  StagingTargetPath : String
  deriving DecidableEq, Repr

/-- The fields of `Driver` that `node.go` reads and never writes.
`isValidVolumeCapabilities` is declared outside `node.go` and is taken as
given. -/
structure Driver where
  secrets : GoMap
  isValidVolumeCapabilities : List VolumeCapability → Bool

/-- What one handler call leaves behind: the error it returns (`none` for
nil), the registry, the world, and the outside calls it made, in order. -/
structure Outcome where
  err : Option Status
  nodeVolumes : Registry
  world : World
  calls : List Call
  deriving DecidableEq, Repr

/-! ## `node.go` -/

/-- The closure `hasOption` of `NodeStageVolume` and `NodePublishVolume`. -/
def hasOption : List String → String → Bool
  | [], _ => false
  | o :: options, opt => if o = opt then true else hasOption options opt

/-- The loop `for _, f := range m.MountFlags` with its `append`, started
from the `mountOptions` built so far. -/
def appendMountFlags (mountOptions : List String) (flags : List String) : List String :=
  flags.foldl (fun opts f => if hasOption opts f then opts else opts ++ [f]) mountOptions

/-- Lines 85-100: `mountOptions` as `NodeStageVolume` assembles it. -/
def stageMountOptions (volCap : VolumeCapability) : List String :=
  match volCap.GetMount with
  | some m => appendMountFlags [] m.MountFlags
  | none => []

/-- Lines 185-204: `mountOptions` as `NodePublishVolume` assembles it. -/
def publishMountOptions (readonly : Bool) (volCap : VolumeCapability) : List String :=
  let mountOptions := if readonly then [] ++ ["ro"] else []
  match volCap.GetMount with
  | some m => appendMountFlags mountOptions m.MountFlags
  | none => mountOptions

/-- `isDynamicVolumeProvisioningMode(volContext)`. -/
def isDynamicVolumeProvisioningMode (lower : String → String) : GoMap → Bool
  | [] => false
  | (k, v) :: rest =>
    if lower k = "provisioning_mode" then
      if lower v = "dynamic" then true else isDynamicVolumeProvisioningMode lower rest
    else isDynamicVolumeProvisioningMode lower rest

/-- The assignment `m[k] = v` on a Go map: replace the value of an existing
key, or add the key. -/
def mapSet : GoMap → String → String → GoMap
  | [], k, v => [(k, v)]
  | (k1, v1) :: rest, k, v => if k1 = k then (k1, v) :: rest else (k1, v1) :: mapSet rest k v

/-- The map `secrets` built in `NodeStageVolume` and `NodePublishVolume`:
a copy of `driver.secrets` overlaid with the request's secrets.  The new map
is listed in insertion order. -/
def mergeSecrets (driverSecrets volSecrets : GoMap) : GoMap :=
  volSecrets.foldl (fun m kv => mapSet m kv.1 kv.2)
    (driverSecrets.foldl (fun m kv => mapSet m kv.1 kv.2) [])

/-- `mountBind(sourcePath, mntOptions, targetPath)`: the error, the world
afterwards and the calls made. -/
def mountBind (h : Host) (w : World) (sourcePath : String) (mntOptions : List String)
    (targetPath : String) : Option Status × World × List Call :=
  let fsType := ""
  let mountOptions := ([] ++ mntOptions) ++ ["bind"]
  let args : MountArgs := ⟨sourcePath, sourcePath, targetPath, fsType, mountOptions, [], []⟩
  match doMount h w args with
  | (some err, w1) =>
    (some ⟨.Internal, .format "Could not mount %q (%q) at %q: %v"
      [sourcePath, fsType, targetPath, err]⟩, w1, [.MountSensitive2 args])
  | (none, w1) => (none, w1, [.MountSensitive2 args])

/-- The arguments `mountWebdav` passes to `MountSensitive2` for a resolved
connection. -/
def webdavMountArgs (conn : WebDAVConnectionInfo) (mntOptions : List String)
    (targetPath : String) : MountArgs :=
  let fsType := "davfs"
  let source := conn.URL
  let mountOptions := [] ++ mntOptions
  let withCreds : Bool := decide (conn.User ≠ "" ∧ conn.User ≠ "anonymous" ∧ conn.Password ≠ "")
  let mountSensitiveOptions := if withCreds then [] ++ ["username=" ++ conn.User] else []
  let stdinArgs := if withCreds then [] ++ [conn.Password] else []
  ⟨source, source, targetPath, fsType, mountOptions, mountSensitiveOptions, stdinArgs⟩

/-- `mountWebdav(volContext, volSecrets, mntOptions, targetPath)`: the error,
the world afterwards and the calls made. -/
def mountWebdav (h : Host) (w : World) (volContext volSecrets : GoMap)
    (mntOptions : List String) (targetPath : String) : Option Status × World × List Call :=
  match ExtractWebDAVConnectionInfo h.ToLower volContext volSecrets with
  | .error err => (some err, w, [])
  | .ok conn =>
    let args := webdavMountArgs conn mntOptions targetPath
    match doMount h w args with
    | (some err, w1) =>
      (some ⟨.Internal, .format "Could not mount %q (%q) at %q: %v"
        [args.source, args.fstype, targetPath, err]⟩, w1, [.MountSensitive2 args])
    | (none, w1) => (none, w1, [.MountSensitive2 args])

/-- Lines 102-112 and 206-216: `PathExists` and, when the path is missing,
`MakeDir`.  The result is the error to return, if any, the world afterwards
and the calls made. -/
def ensureDir (h : Host) (w : World) (targetPath : String) :
    Option Status × World × List Call :=
  match PathExists h w targetPath with
  | .error e => (some ⟨.Internal, .text e⟩, w, [.PathExists targetPath])
  | .ok pathExist =>
    if !pathExist then
      match MakeDir h w targetPath with
      | (some err, w1) =>
        (some ⟨.Internal, .format "Could not create dir %q: %v" [targetPath, err]⟩, w1,
          [.PathExists targetPath, .MakeDir targetPath])
      | (none, w1) => (none, w1, [.PathExists targetPath, .MakeDir targetPath])
    else (none, w, [.PathExists targetPath])

/-- Lines 114-121 and 218-225: the `IsLikelyNotMountPoint` check; the result
is the error to return, if any. -/
def checkNotMountPoint (h : Host) (w : World) (targetPath : String) : Option Status :=
  match h.IsLikelyNotMountPoint w targetPath with
  | .error e => some ⟨.Internal, .text e⟩
  | .ok notMountPoint =>
    if !notMountPoint then
      some ⟨.Internal, .format "Staging target path %s is already mounted" [targetPath]⟩
    else none

/-- `NodeStageVolume`. -/
def NodeStageVolume (d : Driver) (h : Host) (req : NodeStageVolumeRequest)
    (reg : Registry) (w : World) : Outcome :=
  let volID := req.VolumeId
  if volID = "" then
    ⟨some ⟨.InvalidArgument, .text "Volume ID not provided"⟩, reg, w, []⟩
  else if !isDynamicVolumeProvisioningMode h.ToLower req.VolumeContext then
    ⟨none, PutNodeVolume reg
      { ID := volID, StagingMountPath := "", MountPath := "",
        DynamicVolumeProvisioning := false, StageVolume := true }, w, []⟩
  else
    let targetPath := req.StagingTargetPath
    if targetPath = "" then
      ⟨some ⟨.InvalidArgument, .text "Staging target path not provided"⟩, reg, w, []⟩
    else
      match req.VolumeCapability with
      | none => ⟨some ⟨.InvalidArgument, .text "Volume capability not provided"⟩, reg, w, []⟩
      | some volCap =>
        if !d.isValidVolumeCapabilities [volCap] then
          ⟨some ⟨.InvalidArgument, .text "Volume capability not supported"⟩, reg, w, []⟩
        else
          let mountOptions := stageMountOptions volCap
          match ensureDir h w targetPath with
          | (some err, w1, calls1) => ⟨some err, reg, w1, calls1⟩
          | (none, w1, calls1) =>
            let calls2 := calls1 ++ [.IsLikelyNotMountPoint targetPath]
            match checkNotMountPoint h w1 targetPath with
            | some err => ⟨some err, reg, w1, calls2⟩
            | none =>
              let volContext := req.VolumeContext
              let secrets := mergeSecrets d.secrets req.Secrets
              let client := ExtractClientType h.ToLower volContext secrets WebdavType
              if client = WebdavType then
                match mountWebdav h w1 volContext secrets mountOptions targetPath with
                | (some err, w2, calls3) =>
                  ⟨some err, reg, (osRemove h w2 targetPath).2,
                    calls2 ++ calls3 ++ [.Remove targetPath]⟩
                | (none, w2, calls3) =>
                  ⟨none, PutNodeVolume reg
                    { ID := volID, StagingMountPath := targetPath, MountPath := "",
                      DynamicVolumeProvisioning := true, StageVolume := true },
                    w2, calls2 ++ calls3⟩
              else
                ⟨some ⟨.Internal, .format "unknown driver type - %v" [client]⟩, reg, w1, calls2⟩

/-- `NodePublishVolume`. -/
def NodePublishVolume (d : Driver) (h : Host) (req : NodePublishVolumeRequest)
    (reg : Registry) (w : World) : Outcome :=
  let volID := req.VolumeId
  if volID = "" then
    ⟨some ⟨.InvalidArgument, .text "Volume ID not provided"⟩, reg, w, []⟩
  else
    let targetPath := req.TargetPath
    if targetPath = "" then
      ⟨some ⟨.InvalidArgument, .text "Target path not provided"⟩, reg, w, []⟩
    else
      match req.VolumeCapability with
      | none => ⟨some ⟨.InvalidArgument, .text "Volume capability not provided"⟩, reg, w, []⟩
      | some volCap =>
        if !d.isValidVolumeCapabilities [volCap] then
          ⟨some ⟨.InvalidArgument, .text "Volume capability not supported"⟩, reg, w, []⟩
        else
          let mountOptions := publishMountOptions req.Readonly volCap
          match ensureDir h w targetPath with
          | (some err, w1, calls1) => ⟨some err, reg, w1, calls1⟩
          | (none, w1, calls1) =>
            let calls2 := calls1 ++ [.IsLikelyNotMountPoint targetPath]
            match checkNotMountPoint h w1 targetPath with
            | some err => ⟨some err, reg, w1, calls2⟩
            | none =>
              if isDynamicVolumeProvisioningMode h.ToLower req.VolumeContext then
                let stagingTargetPath := req.StagingTargetPath
                if stagingTargetPath = "" then
                  ⟨some ⟨.InvalidArgument, .text "Staging target path not provided"⟩,
                    reg, w1, calls2⟩
                else
                  match mountBind h w1 stagingTargetPath mountOptions targetPath with
                  | (some err, w2, calls3) =>
                    ⟨some err, reg, (osRemove h w2 targetPath).2,
                      calls2 ++ calls3 ++ [.Remove targetPath]⟩
                  | (none, w2, calls3) =>
                    match PopNodeVolume reg volID with
                    | (none, reg1) =>
                      ⟨some ⟨.InvalidArgument, .format "Unable to find node volume %s" [volID]⟩,
                        reg1, w2, calls2 ++ calls3⟩
                    | (some nodeVolume, reg1) =>
                      ⟨none, PutNodeVolume reg1 { nodeVolume with MountPath := targetPath },
                        w2, calls2 ++ calls3⟩
              else
                let volContext := req.VolumeContext
                let secrets := mergeSecrets d.secrets req.Secrets
                let client := ExtractClientType h.ToLower volContext secrets WebdavType
                if client = WebdavType then
                  match mountWebdav h w1 volContext secrets mountOptions targetPath with
                  | (some err, w2, calls3) =>
                    ⟨some err, reg, (osRemove h w2 targetPath).2,
                      calls2 ++ calls3 ++ [.Remove targetPath]⟩
                  | (none, w2, calls3) =>
                    match PopNodeVolume reg volID with
                    | (none, reg1) =>
                      ⟨none, PutNodeVolume reg1
                        { ID := volID, StagingMountPath := "", MountPath := targetPath,
                          DynamicVolumeProvisioning := false, StageVolume := false },
                        w2, calls2 ++ calls3⟩
                    | (some nodeVolume, reg1) =>
                      ⟨none, PutNodeVolume reg1 { nodeVolume with MountPath := targetPath },
                        w2, calls2 ++ calls3⟩
                else
                  ⟨some ⟨.Internal, .format "unknown driver type - %v" [client]⟩,
                    reg, w1, calls2⟩

/-- Lines 308-316: the registry after the lookup that opens
`NodeUnpublishVolume`. -/
def unpublishRegistry (reg : Registry) (volID : String) : Registry :=
  match GetNodeVolume reg volID with
  | none => reg
  | some nodeVolume =>
    if !nodeVolume.StageVolume then (PopNodeVolume reg volID).2 else reg

/-- `NodeUnpublishVolume`. -/
def NodeUnpublishVolume (h : Host) (req : NodeUnpublishVolumeRequest)
    (reg : Registry) (w : World) : Outcome :=
  let volID := req.VolumeId
  if volID = "" then
    ⟨some ⟨.InvalidArgument, .text "Volume ID not provided"⟩, reg, w, []⟩
  else
    let reg1 := unpublishRegistry reg volID
    let targetPath := req.TargetPath
    if targetPath = "" then
      ⟨some ⟨.InvalidArgument, .text "Target path not provided"⟩, reg1, w, []⟩
    else
      match h.GetDeviceName w targetPath with
      | .error err =>
        ⟨some ⟨.Internal, .format "failed to check if volume is mounted: %v" [err]⟩,
          reg1, w, [.GetDeviceName targetPath]⟩
      | .ok (_, refCount) =>
        if refCount = 0 then ⟨none, reg1, w, [.GetDeviceName targetPath]⟩
        else
          match doUnmount h w targetPath with
          | (some err, w1) =>
            ⟨some ⟨.Internal, .format "Could not unmount %q: %v" [targetPath, err]⟩, reg1, w1,
              [.GetDeviceName targetPath, .UnmountForcefully targetPath]⟩
          | (none, w1) =>
            let calls := [Call.GetDeviceName targetPath, .UnmountForcefully targetPath,
              .Remove targetPath]
            match osRemove h w1 targetPath with
            | (some err, w2) =>
              if !err.isNotExist then ⟨some ⟨.Internal, .text err.msg⟩, reg1, w2, calls⟩
              else ⟨none, reg1, w2, calls⟩
            | (none, w2) => ⟨none, reg1, w2, calls⟩

/-- Lines 378-407 of `NodeUnstageVolume`: the path check, the reference
count query and the unmount, run on the registry `reg1` left by the lookup. -/
def unstageUnmount (h : Host) (req : NodeUnstageVolumeRequest)
    (reg1 : Registry) (w : World) : Outcome :=
  let targetPath := req.StagingTargetPath
  if targetPath = "" then
    ⟨some ⟨.InvalidArgument, .text "Staging target path not provided"⟩, reg1, w, []⟩
  else
    match h.GetDeviceName w targetPath with
    | .error err =>
      ⟨some ⟨.Internal, .format "failed to check if volume is mounted: %v" [err]⟩,
        reg1, w, [.GetDeviceName targetPath]⟩
    | .ok (_, refCount) =>
      if refCount = 0 then ⟨none, reg1, w, [.GetDeviceName targetPath]⟩
      else
        match doUnmount h w targetPath with
        | (some err, w1) =>
          ⟨some ⟨.Internal, .format "Could not unmount %q: %v" [targetPath, err]⟩, reg1, w1,
            [.GetDeviceName targetPath, .UnmountForcefully targetPath]⟩
        | (none, w1) =>
          ⟨none, reg1, w1, [.GetDeviceName targetPath, .UnmountForcefully targetPath]⟩

/-- `NodeUnstageVolume`. -/
def NodeUnstageVolume (h : Host) (req : NodeUnstageVolumeRequest)
    (reg : Registry) (w : World) : Outcome :=
  let volID := req.VolumeId
  if volID = "" then
    ⟨some ⟨.InvalidArgument, .text "Volume ID not provided"⟩, reg, w, []⟩
  else
    match GetNodeVolume reg volID with
    | none => unstageUnmount h req reg w
    | some nodeVolume =>
      let reg1 := (PopNodeVolume reg volID).2
      if !nodeVolume.DynamicVolumeProvisioning then ⟨none, reg1, w, []⟩
      else unstageUnmount h req reg1 w

/-- A request to the node service. -/
inductive NodeRequest where
  | Stage (req : NodeStageVolumeRequest)
  | Publish (req : NodePublishVolumeRequest)
  | Unpublish (req : NodeUnpublishVolumeRequest)
  | Unstage (req : NodeUnstageVolumeRequest)
  deriving DecidableEq, Repr

/-- The server hands each request to its handler. -/
def serve (d : Driver) (h : Host) : NodeRequest → Registry → World → Outcome
  | .Stage req, reg, w => NodeStageVolume d h req reg w
  | .Publish req, reg, w => NodePublishVolume d h req reg w
  | .Unpublish req, reg, w => NodeUnpublishVolume h req reg w
  | .Unstage req, reg, w => NodeUnstageVolume h req reg w

/-- Serving a sequence of requests one after the other, each on the registry
and world the previous one left; the outcomes in order. -/
def serveAll (d : Driver) (h : Host) : List NodeRequest → Registry → World → List Outcome
  | [], _, _ => []
  | rq :: rest, reg, w =>
    (serve d h rq reg w) ::
      serveAll d h rest (serve d h rq reg w).nodeVolumes (serve d h rq reg w).world

/-! ## Concrete hosts, used to evaluate the handlers -/

/-- The device and reference count a truthful Mounter reports: the number of
lines of the mount table at that path. -/
def tableRefCount (w : World) (path : String) : String × Int :=
  ("", ((w.mounts.filter (fun m => decide (m.target = path))).length : Int))

/-- A node on which every call succeeds and the Mounter reports the mount
table truthfully. -/
def idealHost : Host where
  ToLower := asciiLower
  PathExistsErr := fun _ _ => none
  MakeDirErr := fun _ _ => none
  RemoveErr := fun _ _ => none
  IsLikelyNotMountPoint := fun w p => .ok (!w.mounted p)
  MountSensitive2 := fun _ _ => none
  GetDeviceName := fun w p => .ok (tableRefCount w p)
  UnmountForcefully := fun _ _ => none

/-- A driver without node-level secrets that accepts every capability. -/
def plainDriver : Driver where
  secrets := []
  isValidVolumeCapabilities := fun _ => true

/-- The volume context that selects dynamic provisioning and names a share. -/
def dynamicContext : GoMap := [("provisioning_mode", "dynamic"), ("url", "http://x")]

/-- A mount capability without flags. -/
def mountCap : VolumeCapability := ⟨some (.Mount ⟨"", []⟩), some 1⟩





/-! ## Definitions used to state the properties -/

/-- The value a map gives a logical key: that of the first visited entry
whose lower-cased key is `name`. -/
def lookupFold (lower : String → String) (name : String) (m : GoMap) : Option String :=
  (m.find? (fun kv => decide (lower kv.1 = name))).map Prod.snd

/-- How many entries of a map have a key equal to `name` ignoring case. -/
def occurrences (lower : String → String) (name : String) (m : GoMap) : Nat :=
  m.countP (fun kv => decide (lower kv.1 = name))

/-- Following the spec (§4.1): the ordinary parameter when present,
otherwise the secret when present, otherwise empty. -/
def layered (lower : String → String) (name : String) (params secrets : GoMap) : String :=
  match lookupFold lower name params with
  | some v => v
  | none =>
    match lookupFold lower name secrets with
    | some v => v
    | none => ""

/-- The local of `ExtractWebDAVConnectionInfo` that a logical key names. -/
def ConnVars.get (vars : ConnVars) (name : String) : String :=
  if name = "user" then vars.user else if name = "password" then vars.password else vars.url

/-- The logical keys `ExtractWebDAVConnectionInfo` reads. -/
def connKeys : List String := ["user", "password", "url"]

/-- Whether a map entry carries one of the keys `ExtractWebDAVConnectionInfo`
reads. -/
def relevantKey (lower : String → String) (kv : String × String) : Bool :=
  decide (lower kv.1 ∈ connKeys)

/-- Following the spec (§4.2, mount-flag assembly): first-occurrence
de-duplication.  The head is kept and its later copies are dropped from the
de-duplicated tail. -/
def keepFirst : List String → List String
  | [] => []
  | x :: xs => x :: (keepFirst xs).filter (fun y => decide (y ≠ x))

/-- Whether an unmount attempt at `path` ends with the path still mounted:
the reference-count query returns an error, or it reports a non-zero count
and `UnmountForcefully` returns an error. -/
def unmountAttemptFails (h : Host) (w : World) (path : String) : Bool :=
  match h.GetDeviceName w path with
  | .error _ => true
  | .ok (_, refCount) => decide (refCount ≠ 0) && (h.UnmountForcefully w path).isSome

/-- A node like `idealHost` on which every unmount fails. -/
def busyHost : Host :=
  { idealHost with UnmountForcefully := fun _ _ => some "target is busy" }

/-- A node like `idealHost` on which `os.Remove` fails because the directory
is not empty. -/
def fullDirHost : Host :=
  { idealHost with RemoveErr := fun _ _ => some ⟨"directory not empty", false⟩ }

/-- A node like `idealHost` on which every mount fails. -/
def noMountHost : Host :=
  { idealHost with MountSensitive2 := fun _ _ => some "mount failed" }

/-- What a handler leaves behind when its mount operation fails with `err` in
the world `w1` reached after the directory check: it returns `err`, keeps the
registry `reg`, its last outside call is `os.Remove` on the path, and the
world is what that removal makes of `w1` (the path is gone when the removal
succeeds, everything is as in `w1` when it fails). -/
def cleanedUpAfter (h : Host) (w1 : World) (path : String) (err : Status) (reg : Registry)
    (o : Outcome) : Prop :=
  o.err = some err ∧ o.nodeVolumes = reg ∧ o.calls.getLast? = some (.Remove path)
  ∧ o.world = (osRemove h w1 path).2
  ∧ (h.RemoveErr w1 path = none → path ∉ o.world.dirs)
  ∧ (∀ e, h.RemoveErr w1 path = some e → o.world = w1 ∧ path ∈ o.world.dirs)

/-- The Mounter assumed by the lifecycle scenario: every mount and unmount
succeeds, and the reference count reported for a path is non-zero exactly
while something is mounted there. -/
def Host.mounterWorks (h : Host) : Prop :=
  (∀ w a, h.MountSensitive2 w a = none)
  ∧ (∀ w p, h.UnmountForcefully w p = none)
  ∧ (∀ w p, ∃ dev rc, h.GetDeviceName w p = .ok (dev, rc) ∧ (rc ≠ 0 ↔ w.mounted p = true))

/-- `PathExists`, `MakeDir` and `os.Remove` never return an error. -/
def Host.dirsWork (h : Host) : Prop :=
  (∀ w p, h.PathExistsErr w p = none)
  ∧ (∀ w p, h.MakeDirErr w p = none)
  ∧ (∀ w p, h.RemoveErr w p = none)

/-- `IsLikelyNotMountPoint` answers without error that a path at which
nothing is mounted is not a mount point. -/
def Host.mountPointTruthful (h : Host) : Prop :=
  ∀ w p, w.mounted p = false → h.IsLikelyNotMountPoint w p = .ok true

/-- The messages of the checks a handler runs before it reads the registry
or makes any outside call: the volume id check in all four handlers and, in
`NodeStageVolume` and `NodePublishVolume`, the checks of the path and of the
capability that follow it. -/
def openingChecks : NodeRequest → List String
  | .Stage _ => ["Volume ID not provided", "Staging target path not provided",
      "Volume capability not provided", "Volume capability not supported"]
  | .Publish _ => ["Volume ID not provided", "Target path not provided",
      "Volume capability not provided", "Volume capability not supported"]
  | .Unpublish _ => ["Volume ID not provided"]
  | .Unstage _ => ["Volume ID not provided"]

/-- What is left untouched whenever a handler returns InvalidArgument, by
handler: `NodeStageVolume` keeps registry and mount table and asks for no
mount or unmount, `NodePublishVolume` keeps the registry, `NodeUnpublishVolume`
and `NodeUnstageVolume` keep the world and make no outside call. -/
def keptOnInvalidArgument (reg : Registry) (w : World) (o : Outcome) : NodeRequest → Prop
  | .Stage _ => o.nodeVolumes = reg ∧ o.world.mounts = w.mounts
      ∧ ∀ c ∈ o.calls, c.isMountOrUnmount = false
  | .Publish _ => o.nodeVolumes = reg
  | .Unpublish _ => o.world = w ∧ o.calls = []
  | .Unstage _ => o.world = w ∧ o.calls = []

/-- Whether a map entry carries the client type: its key is `driver` or
`client` ignoring case. -/
def clientKey (lower : String → String) (kv : String × String) : Bool :=
  decide (lower kv.1 = "driver" ∨ lower kv.1 = "client")

/-- Following the spec (§4.1, client-type selection): the params value of the
client key when params has one, otherwise the secrets value when secrets has
one, otherwise empty. -/
def layeredClient (lower : String → String) (params secrets : GoMap) : String :=
  match params.find? (clientKey lower) with
  | some kv => kv.2
  | none =>
    match secrets.find? (clientKey lower) with
    | some kv => kv.2
    | none => ""

/-- Whether a map entry is not a credential: its key is neither `user` nor
`password` ignoring case. -/
def notCredential (lower : String → String) (kv : String × String) : Bool :=
  !decide (lower kv.1 = "user" ∨ lower kv.1 = "password")

/-- A node like `idealHost` on which directories cannot be created. -/
def readOnlyHost : Host :=
  { idealHost with MakeDirErr := fun _ _ => some "read-only file system" }

/-- The volume context of a static volume that names a share. -/
def staticContext : GoMap := [("url", "http://x")]

/-- One call as the node service meets it: the answers of the host, the
world at that moment, and the request. -/
structure Step where
  host : Host
  world : World
  request : NodeRequest

/-- The registry after a sequence of calls, started from `reg`; each call may
meet any host answers and any world. -/
def registryAfter (d : Driver) : List Step → Registry → Registry
  | [], reg => reg
  | st :: rest, reg =>
    registryAfter d rest (serve d st.host st.request reg st.world).nodeVolumes

/-- Whether a recorded call undoes a publish: an unmount or a directory
removal. -/
def Call.isUnmountOrRemove : Call → Bool
  | .UnmountForcefully _ => true
  | .Remove _ => true
  | _ => false

/-! ## Lemmas on `client.go` -/

theorem connCase_get (lower : String → String) (vars : ConnVars) (kv : String × String)
    (name : String) (hn : name ∈ connKeys) :
    (connCase lower vars kv).get name = if lower kv.1 = name then kv.2 else vars.get name := by
  simp only [connKeys, List.mem_cons, List.mem_singleton, List.not_mem_nil, or_false] at hn
  rcases hn with rfl | rfl | rfl <;>
  · unfold connCase ConnVars.get
    by_cases h1 : lower kv.1 = "user" <;> by_cases h2 : lower kv.1 = "password" <;>
      by_cases h3 : lower kv.1 = "url" <;> simp_all

theorem foldl_connCase_get_of_absent (lower : String → String) (name : String)
    (hn : name ∈ connKeys) (m : GoMap) (vars : ConnVars)
    (h : ∀ kv ∈ m, lower kv.1 ≠ name) :
    (m.foldl (connCase lower) vars).get name = vars.get name := by
  induction m generalizing vars with
  | nil => rfl
  | cons kv rest ih =>
    rw [List.foldl_cons, ih _ (fun x hx => h x (List.mem_cons_of_mem _ hx)),
      connCase_get lower vars kv name hn, if_neg (h kv (List.mem_cons_self _ _))]

theorem foldl_connCase_get (lower : String → String) (name : String)
    (hn : name ∈ connKeys) (m : GoMap) (vars : ConnVars)
    (h : occurrences lower name m ≤ 1) :
    (m.foldl (connCase lower) vars).get name
      = (lookupFold lower name m).getD (vars.get name) := by
  induction m generalizing vars with
  | nil => rfl
  | cons kv rest ih =>
    by_cases hk : lower kv.1 = name
    · have hrest : ∀ x ∈ rest, lower x.1 ≠ name := by
        intro x hx hxn
        have hpos : 0 < rest.countP (fun kv => decide (lower kv.1 = name)) :=
          List.countP_pos_iff.mpr ⟨x, hx, by simpa using hxn⟩
        have hcount : occurrences lower name (kv :: rest)
            = rest.countP (fun kv => decide (lower kv.1 = name)) + 1 := by
          simp [occurrences, List.countP_cons, hk]
        omega
      rw [List.foldl_cons, foldl_connCase_get_of_absent lower name hn rest _ hrest,
        connCase_get lower vars kv name hn, if_pos hk]
      simp [lookupFold, List.find?_cons, hk]
    · have h' : occurrences lower name rest ≤ 1 := by
        simpa [occurrences, List.countP_cons, hk] using h
      rw [List.foldl_cons, ih _ h', connCase_get lower vars kv name hn, if_neg hk]
      simp [lookupFold, List.find?_cons, hk]


theorem connCase_of_irrelevant (lower : String → String) (vars : ConnVars)
    (kv : String × String) (h : relevantKey lower kv = false) : connCase lower vars kv = vars := by
  simp only [relevantKey, connKeys, List.mem_cons, List.mem_singleton, List.not_mem_nil,
    or_false, decide_eq_false_iff_not, not_or] at h
  simp [connCase, h.1, h.2.1, h.2.2]

theorem foldl_connCase_filter (lower : String → String) (m : GoMap) (vars : ConnVars) :
    (m.filter (relevantKey lower)).foldl (connCase lower) vars
      = m.foldl (connCase lower) vars := by
  induction m generalizing vars with
  | nil => rfl
  | cons kv rest ih =>
    by_cases hk : relevantKey lower kv = true
    · simp [List.filter_cons, hk, ih]
    · have hk' : relevantKey lower kv = false := by simpa using hk
      simp [List.filter_cons, hk', ih, connCase_of_irrelevant lower vars kv hk']

theorem mergedConnVars_get (lower : String → String) (params secrets : GoMap) (name : String)
    (hn : name ∈ connKeys)
    (hp : occurrences lower name params ≤ 1) (hs : occurrences lower name secrets ≤ 1) :
    (mergedConnVars lower params secrets).get name = layered lower name params secrets := by
  unfold mergedConnVars layered
  rw [foldl_connCase_get lower name hn params _ hp, foldl_connCase_get lower name hn secrets _ hs]
  have h0 : (ConnVars.mk "" "" "").get name = "" := by
    simp [ConnVars.get]
  rw [h0]
  cases lookupFold lower name params <;> cases lookupFold lower name secrets <;> rfl

/-- C7: when each of `user`, `password`, `url` occurs at most once per map
ignoring case, every merged field is the params value if params has the key
(even an empty value), else the secrets value, else empty; and entries with
any other key can be dropped from both maps without changing the result. -/
theorem extract_conn_merge_layered (lower : String → String) (params secrets : GoMap)
    (hp : ∀ name ∈ connKeys, occurrences lower name params ≤ 1)
    (hs : ∀ name ∈ connKeys, occurrences lower name secrets ≤ 1) :
    (mergedConnVars lower params secrets).user = layered lower "user" params secrets
    ∧ (mergedConnVars lower params secrets).password = layered lower "password" params secrets
    ∧ (mergedConnVars lower params secrets).url = layered lower "url" params secrets
    ∧ ExtractWebDAVConnectionInfo lower params secrets
        = validateConnVars ⟨layered lower "user" params secrets,
            layered lower "password" params secrets, layered lower "url" params secrets⟩
    ∧ ExtractWebDAVConnectionInfo lower
          (params.filter (relevantKey lower)) (secrets.filter (relevantKey lower))
        = ExtractWebDAVConnectionInfo lower params secrets := by
  have hu := mergedConnVars_get lower params secrets "user" (by decide)
    (hp _ (by decide)) (hs _ (by decide))
  have hpw := mergedConnVars_get lower params secrets "password" (by decide)
    (hp _ (by decide)) (hs _ (by decide))
  have hurl := mergedConnVars_get lower params secrets "url" (by decide)
    (hp _ (by decide)) (hs _ (by decide))
  have hu' : (mergedConnVars lower params secrets).user = layered lower "user" params secrets := by
    simpa [ConnVars.get] using hu
  have hpw' : (mergedConnVars lower params secrets).password
      = layered lower "password" params secrets := by
    simpa [ConnVars.get] using hpw
  have hurl' : (mergedConnVars lower params secrets).url = layered lower "url" params secrets := by
    simpa [ConnVars.get] using hurl
  refine ⟨hu', hpw', hurl', ?_, ?_⟩
  · unfold ExtractWebDAVConnectionInfo
    rw [← hu', ← hpw', ← hurl']
  · unfold ExtractWebDAVConnectionInfo mergedConnVars
    rw [foldl_connCase_filter, foldl_connCase_filter]

/-- Witness for C7: an empty `User` in params wins over `USER` in secrets,
and the url comes from secrets. -/
theorem extract_conn_merge_layered_witness :
    (mergedConnVars asciiLower [("User", ""), ("mode", "x")]
        [("USER", "bob"), ("Url", "http://x")]).user = ""
    ∧ (mergedConnVars asciiLower [("User", ""), ("mode", "x")]
        [("USER", "bob"), ("Url", "http://x")]).url = "http://x" := by
  have h := extract_conn_merge_layered asciiLower [("User", ""), ("mode", "x")]
    [("USER", "bob"), ("Url", "http://x")] (by decide) (by decide)
  exact ⟨h.1.trans (by decide), h.2.2.1.trans (by decide)⟩

/-- C6: `ExtractWebDAVConnectionInfo` succeeds exactly when the merged url
is non-empty and the merged user is empty or "anonymous" or the merged
password is non-empty; every failure is InvalidArgument; on success the
descriptor carries the merged url and password, and the merged user or
"anonymous" when that is empty; params `{}` with secrets `{url: "http://x"}`
give user "anonymous", password "", endpoint "http://x". -/
theorem extract_conn_contract (lower : String → String) (params secrets : GoMap) :
    ((∃ c, ExtractWebDAVConnectionInfo lower params secrets = .ok c) ↔
      ((mergedConnVars lower params secrets).url ≠ "" ∧
        ((mergedConnVars lower params secrets).user = "" ∨
         (mergedConnVars lower params secrets).user = "anonymous" ∨
         (mergedConnVars lower params secrets).password ≠ "")))
    ∧ (∀ e, ExtractWebDAVConnectionInfo lower params secrets = .error e →
        e.code = .InvalidArgument)
    ∧ (∀ c, ExtractWebDAVConnectionInfo lower params secrets = .ok c →
        c.URL = (mergedConnVars lower params secrets).url ∧
        c.Password = (mergedConnVars lower params secrets).password ∧
        c.User = (if (mergedConnVars lower params secrets).user = "" then "anonymous"
                  else (mergedConnVars lower params secrets).user))
    ∧ ExtractWebDAVConnectionInfo asciiLower [] [("url", "http://x")]
        = .ok ⟨"http://x", "anonymous", ""⟩ := by
  generalize hm : mergedConnVars lower params secrets = m
  have hE : ExtractWebDAVConnectionInfo lower params secrets = validateConnVars m := by
    rw [← hm]; rfl
  rw [hE]
  obtain ⟨u, pw, url⟩ := m
  refine ⟨?_, ?_, ?_, by decide⟩
  · unfold validateConnVars
    by_cases h1 : u = "" <;> by_cases h2 : u = "anonymous" <;> by_cases h3 : pw = "" <;>
      by_cases h4 : url = "" <;> simp_all [NewWebDAVConnectionInfo]
  · intro e
    unfold validateConnVars
    by_cases h1 : u = "" <;> by_cases h2 : u = "anonymous" <;> by_cases h3 : pw = "" <;>
      by_cases h4 : url = "" <;> simp_all [NewWebDAVConnectionInfo] <;>
      (intro he; rw [← he])
  · intro c
    unfold validateConnVars
    by_cases h1 : u = "" <;> by_cases h2 : u = "anonymous" <;> by_cases h3 : pw = "" <;>
      by_cases h4 : url = "" <;> simp_all [NewWebDAVConnectionInfo] <;>
      (intro he; rw [← he]; simp)

/-- Witness for C6: the contract of `ExtractWebDAVConnectionInfo` applied to
params `{}` and secrets `{url: "http://x"}`. -/
theorem extract_conn_contract_witness :
    ExtractWebDAVConnectionInfo asciiLower [] [("url", "http://x")]
        = .ok ⟨"http://x", "anonymous", ""⟩
    ∧ (⟨"http://x", "anonymous", ""⟩ : WebDAVConnectionInfo).URL
        = (mergedConnVars asciiLower [] [("url", "http://x")]).url :=
  ⟨by decide,
   ((extract_conn_contract asciiLower [] [("url", "http://x")]).2.2.1
      ⟨"http://x", "anonymous", ""⟩ (by decide)).1⟩

/-- C8, as stated, fails: with params `{user: "bob"}` and no secrets there is
no `url` key anywhere, yet the error names the password, not the url. -/
theorem extract_conn_without_url_counterexample :
    (∀ kv ∈ ([("user", "bob")] : GoMap), asciiLower kv.1 ≠ "url")
    ∧ (∀ kv ∈ ([] : GoMap), asciiLower kv.1 ≠ "url")
    ∧ ExtractWebDAVConnectionInfo asciiLower [("user", "bob")] []
        = .error ⟨.InvalidArgument, .text "Argument password is empty"⟩
    ∧ ExtractWebDAVConnectionInfo asciiLower [("user", "bob")] []
        ≠ .error ⟨.InvalidArgument, .text "Argument url is empty"⟩ := by
  decide

/-- C8, amended: when no key of params or secrets equals `url` ignoring case,
`ExtractWebDAVConnectionInfo` fails with InvalidArgument; the message is
"Argument url is empty" when the password check passes (merged user empty or
"anonymous", or merged password non-empty) and "Argument password is empty"
when it does not, because the password is checked first. -/
theorem extract_conn_without_url (lower : String → String) (params secrets : GoMap)
    (hp : ∀ kv ∈ params, lower kv.1 ≠ "url") (hs : ∀ kv ∈ secrets, lower kv.1 ≠ "url") :
    (∃ e, ExtractWebDAVConnectionInfo lower params secrets = .error e
        ∧ e.code = .InvalidArgument)
    ∧ (((mergedConnVars lower params secrets).user = "" ∨
        (mergedConnVars lower params secrets).user = "anonymous" ∨
        (mergedConnVars lower params secrets).password ≠ "") →
        ExtractWebDAVConnectionInfo lower params secrets
          = .error ⟨.InvalidArgument, .text "Argument url is empty"⟩)
    ∧ (¬ ((mergedConnVars lower params secrets).user = "" ∨
        (mergedConnVars lower params secrets).user = "anonymous" ∨
        (mergedConnVars lower params secrets).password ≠ "") →
        ExtractWebDAVConnectionInfo lower params secrets
          = .error ⟨.InvalidArgument, .text "Argument password is empty"⟩) := by
  have hurl : (mergedConnVars lower params secrets).url = "" := by
    have h1 := foldl_connCase_get_of_absent lower "url" (by decide) params
      (secrets.foldl (connCase lower) ⟨"", "", ""⟩) hp
    have h2 := foldl_connCase_get_of_absent lower "url" (by decide) secrets ⟨"", "", ""⟩ hs
    have h3 : (mergedConnVars lower params secrets).get "url" = "" := by
      unfold mergedConnVars
      rw [h1, h2]; rfl
    simpa [ConnVars.get] using h3
  generalize hm : mergedConnVars lower params secrets = m at hurl
  have hE : ExtractWebDAVConnectionInfo lower params secrets = validateConnVars m := by
    rw [← hm]; rfl
  rw [hE]
  obtain ⟨u, pw, url⟩ := m
  simp only at hurl
  subst hurl
  unfold validateConnVars
  by_cases h1 : u = "" <;> by_cases h2 : u = "anonymous" <;> by_cases h3 : pw = "" <;>
    simp_all

/-- Witness for C8 (amended): params `{user: "bob", password: "pw"}`. -/
theorem extract_conn_without_url_witness :
    ExtractWebDAVConnectionInfo asciiLower [("user", "bob"), ("password", "pw")] []
      = .error ⟨.InvalidArgument, .text "Argument url is empty"⟩ :=
  (extract_conn_without_url asciiLower [("user", "bob"), ("password", "pw")] []
    (by decide) (by decide)).2.1 (by decide)

/-! ## Lemmas on the mount-flag loop -/

theorem hasOption_eq_true (options : List String) (opt : String) :
    hasOption options opt = true ↔ opt ∈ options := by
  induction options with
  | nil => simp [hasOption]
  | cons o rest ih =>
    by_cases h : o = opt
    · simp [hasOption, h]
    · have h' : ¬ opt = o := fun e => h e.symm
      simp [hasOption, h, h', ih]

theorem mem_keepFirst (l : List String) (x : String) : x ∈ keepFirst l ↔ x ∈ l := by
  induction l with
  | nil => simp [keepFirst]
  | cons a t ih =>
    by_cases h : x = a
    · simp [keepFirst, h]
    · simp [keepFirst, h, List.mem_filter, ih]

theorem nodup_keepFirst (l : List String) : (keepFirst l).Nodup := by
  induction l with
  | nil => simp [keepFirst]
  | cons a t ih =>
    simp only [keepFirst, List.nodup_cons]
    exact ⟨by simp [List.mem_filter], ih.filter _⟩

theorem appendMountFlags_eq (flags acc : List String) :
    appendMountFlags acc flags
      = acc ++ (keepFirst flags).filter (fun y => decide (y ∉ acc)) := by
  induction flags generalizing acc with
  | nil => simp [appendMountFlags, keepFirst]
  | cons f t ih =>
    have hstep : appendMountFlags acc (f :: t)
        = appendMountFlags (if hasOption acc f then acc else acc ++ [f]) t := by
      simp [appendMountFlags, List.foldl_cons]
    rw [hstep]
    by_cases hf : f ∈ acc
    · rw [if_pos ((hasOption_eq_true acc f).mpr hf), ih]
      congr 1
      simp only [keepFirst, List.filter_cons, List.filter_filter]
      simp only [hf, not_true_eq_false, decide_False, Bool.false_eq_true, if_false]
      apply List.filter_congr
      intro x _
      by_cases hx : x ∈ acc
      · simp [hx]
      · have : x ≠ f := fun e => hx (e ▸ hf)
        simp [hx, this]
    · have hno : ¬ hasOption acc f = true := fun e => hf ((hasOption_eq_true acc f).mp e)
      rw [if_neg hno, ih]
      simp only [keepFirst, List.filter_cons, List.filter_filter]
      simp only [hf, not_false_eq_true, decide_True, if_true, List.append_assoc,
        List.singleton_append]
      congr 2
      apply List.filter_congr
      intro x _
      by_cases hx : x ∈ acc <;> by_cases hxf : x = f <;> simp [hx, hxf]

theorem indexOf_filter_lt (p : String → Bool) (l : List String) (x y : String)
    (hx : p x = true) (hy : p y = true) (hxl : x ∈ l) :
    ((l.filter p).indexOf x < (l.filter p).indexOf y ↔ l.indexOf x < l.indexOf y) := by
  induction l with
  | nil => simp at hxl
  | cons a t ih =>
    by_cases hax : a = x
    · subst hax
      by_cases hay : a = y
      · subst hay; simp [List.filter_cons, hx]
      · simp [List.filter_cons, hx, List.indexOf_cons_ne _ hay]
    · have hxt : x ∈ t := by
        rcases List.mem_cons.mp hxl with h | h
        · exact absurd h.symm hax
        · exact h
      by_cases hay : a = y
      · subst hay
        simp [List.filter_cons, hy, List.indexOf_cons_ne _ hax]
      · by_cases hpa : p a = true
        · simp [List.filter_cons, hpa, List.indexOf_cons_ne _ hax, List.indexOf_cons_ne _ hay,
            ih hxt]
        · simp [List.filter_cons, hpa, List.indexOf_cons_ne _ hax, List.indexOf_cons_ne _ hay,
            ih hxt]

theorem indexOf_keepFirst_lt (l : List String) (x y : String) (hx : x ∈ l) :
    ((keepFirst l).indexOf x < (keepFirst l).indexOf y ↔ l.indexOf x < l.indexOf y) := by
  induction l with
  | nil => simp at hx
  | cons a t ih =>
    by_cases hax : a = x
    · subst hax
      by_cases hay : a = y
      · subst hay; simp [keepFirst]
      · simp [keepFirst, List.indexOf_cons_ne _ hay]
    · have hxt : x ∈ t := by
        rcases List.mem_cons.mp hx with h | h
        · exact absurd h.symm hax
        · exact h
      by_cases hay : a = y
      · subst hay
        simp [keepFirst, List.indexOf_cons_ne _ hax]
      · have hxa : x ≠ a := fun e => hax e.symm
        have hya : y ≠ a := fun e => hay e.symm
        simp only [keepFirst, List.indexOf_cons_ne _ hax, List.indexOf_cons_ne _ hay,
          Nat.succ_lt_succ_iff, Nat.add_lt_add_iff_right]
        rw [indexOf_filter_lt _ _ x y (by simpa using hxa) (by simpa using hya)
          ((mem_keepFirst t x).mpr hxt)]
        exact ih hxt

theorem indexOf_keepFirst_lt_iff (l : List String) (x y : String) :
    ((keepFirst l).indexOf x < (keepFirst l).indexOf y ↔ l.indexOf x < l.indexOf y) := by
  by_cases hx : x ∈ l
  · exact indexOf_keepFirst_lt l x y hx
  · have hx' : x ∉ keepFirst l := fun h => hx ((mem_keepFirst l x).mp h)
    have h1 := List.indexOf_le_length (a := y) (l := l)
    have h2 := List.indexOf_le_length (a := y) (l := keepFirst l)
    rw [List.indexOf_of_not_mem hx, List.indexOf_of_not_mem hx']
    omega

/-- C10: the option list `NodePublishVolume` assembles for read-only flag `r`
and capability mount flags `F` is the first-occurrence de-duplication of
(`["ro"]` if `r`, else `[]`) followed by `F`: it has no repeated element, has
exactly the elements of that concatenation, and orders them by first
occurrence there; `NodeStageVolume` assembles the same for `F` alone; flags
`["ro","ro","noatime"]` give `["ro","noatime"]`. -/
theorem mount_options_first_occurrence (r : Bool) (F : List String) (fsType : String)
    (mode : Option Nat) :
    publishMountOptions r ⟨some (.Mount ⟨fsType, F⟩), mode⟩
        = keepFirst ((if r then ["ro"] else []) ++ F)
    ∧ (publishMountOptions r ⟨some (.Mount ⟨fsType, F⟩), mode⟩).Nodup
    ∧ (∀ x, x ∈ publishMountOptions r ⟨some (.Mount ⟨fsType, F⟩), mode⟩
        ↔ x ∈ (if r then ["ro"] else []) ++ F)
    ∧ (∀ x y,
        (publishMountOptions r ⟨some (.Mount ⟨fsType, F⟩), mode⟩).indexOf x
          < (publishMountOptions r ⟨some (.Mount ⟨fsType, F⟩), mode⟩).indexOf y
        ↔ ((if r then ["ro"] else []) ++ F).indexOf x
          < ((if r then ["ro"] else []) ++ F).indexOf y)
    ∧ stageMountOptions ⟨some (.Mount ⟨fsType, F⟩), mode⟩ = keepFirst F
    ∧ stageMountOptions ⟨some (.Mount ⟨fsType, F⟩), mode⟩
        = publishMountOptions false ⟨some (.Mount ⟨fsType, F⟩), mode⟩
    ∧ stageMountOptions ⟨some (.Mount ⟨"", ["ro", "ro", "noatime"]⟩), none⟩ = ["ro", "noatime"]
    ∧ publishMountOptions false ⟨some (.Mount ⟨"", ["ro", "ro", "noatime"]⟩), none⟩
        = ["ro", "noatime"] := by
  have hpub : publishMountOptions r ⟨some (.Mount ⟨fsType, F⟩), mode⟩
      = keepFirst ((if r then ["ro"] else []) ++ F) := by
    cases r
    · simp [publishMountOptions, VolumeCapability.GetMount, appendMountFlags_eq]
    · simp only [publishMountOptions, VolumeCapability.GetMount, appendMountFlags_eq,
        List.nil_append, if_true, List.singleton_append, keepFirst, List.cons.injEq, true_and]
      apply List.filter_congr
      intro x _
      simp
  have hstage : stageMountOptions ⟨some (.Mount ⟨fsType, F⟩), mode⟩ = keepFirst F := by
    simp [stageMountOptions, VolumeCapability.GetMount, appendMountFlags_eq]
  refine ⟨hpub, ?_, ?_, ?_, hstage, ?_, by decide, by decide⟩
  · rw [hpub]; exact nodup_keepFirst _
  · intro x; rw [hpub]; exact mem_keepFirst _ x
  · intro x y; rw [hpub]; exact indexOf_keepFirst_lt_iff _ x y
  · rw [hstage]
    simp [publishMountOptions, VolumeCapability.GetMount, appendMountFlags_eq]

/-! ## Lemmas on the registry -/

theorem get_after_remove (reg : Registry) (id : String) :
    GetNodeVolume (reg.filter (fun nv => !decide (nv.ID = id))) id = none := by
  simp [GetNodeVolume, List.find?_eq_none, List.mem_filter]

theorem get_after_remove_other (reg : Registry) (id other : String) (hne : other ≠ id) :
    GetNodeVolume (reg.filter (fun nv => !decide (nv.ID = id))) other = GetNodeVolume reg other := by
  induction reg with
  | nil => rfl
  | cons e rest ih =>
    simp only [GetNodeVolume] at ih ⊢
    by_cases he : e.ID = id
    · have ho : ¬ e.ID = other := fun h => hne (h.symm.trans he)
      rw [List.filter_cons_of_neg (by simp [he]), List.find?_cons_of_neg _ (by simp [ho])]
      exact ih
    · rw [List.filter_cons_of_pos (by simp [he])]
      by_cases ho : e.ID = other
      · rw [List.find?_cons_of_pos _ (by simp [ho]), List.find?_cons_of_pos _ (by simp [ho])]
      · rw [List.find?_cons_of_neg _ (by simp [ho]), List.find?_cons_of_neg _ (by simp [ho])]
        exact ih

theorem remove_of_get_none (reg : Registry) (id : String) (h : GetNodeVolume reg id = none) :
    reg.filter (fun nv => !decide (nv.ID = id)) = reg := by
  simp only [GetNodeVolume, List.find?_eq_none] at h
  rw [List.filter_eq_self]
  intro a ha
  simpa using h a ha

theorem get_some_id (reg : Registry) (id : String) (e : NodeVolume)
    (h : GetNodeVolume reg id = some e) : e.ID = id := by
  have := List.find?_some h
  simpa using this

theorem get_put_same (reg : Registry) (nv : NodeVolume) :
    GetNodeVolume (PutNodeVolume reg nv) nv.ID = some nv := by
  simp [GetNodeVolume, PutNodeVolume, List.find?_cons]

theorem get_put_other (reg : Registry) (nv : NodeVolume) (other : String) (hne : other ≠ nv.ID) :
    GetNodeVolume (PutNodeVolume reg nv) other = GetNodeVolume reg other := by
  have h := get_after_remove_other reg nv.ID other hne
  have hno : ¬ nv.ID = other := fun e => hne e.symm
  simp only [GetNodeVolume] at h ⊢
  simp only [PutNodeVolume, List.find?_cons, hno, decide_False]
  exact h

theorem unpublishRegistry_idem (reg : Registry) (id : String) :
    unpublishRegistry (unpublishRegistry reg id) id = unpublishRegistry reg id := by
  unfold unpublishRegistry
  cases hg : GetNodeVolume reg id with
  | none => simp [hg]
  | some e =>
    by_cases hs : e.StageVolume = true
    · simp [hs, hg]
    · have hs' : e.StageVolume = false := by simpa using hs
      simp only [hs', Bool.not_false, if_true, PopNodeVolume, get_after_remove]

theorem unpublishRegistry_other (reg : Registry) (id other : String) (hne : other ≠ id) :
    GetNodeVolume (unpublishRegistry reg id) other = GetNodeVolume reg other := by
  unfold unpublishRegistry
  cases hg : GetNodeVolume reg id with
  | none => rfl
  | some e =>
    by_cases hs : e.StageVolume = true
    · simp [hs]
    · have hs' : e.StageVolume = false := by simpa using hs
      simp only [hs', Bool.not_false, if_true, PopNodeVolume]
      exact get_after_remove_other reg id other hne

/-! ## Lemmas on `NodeUnpublishVolume` and `NodeUnstageVolume` -/

theorem unpublish_nodeVolumes (h : Host) (req : NodeUnpublishVolumeRequest) (reg : Registry)
    (w : World) (hv : req.VolumeId ≠ "") :
    (NodeUnpublishVolume h req reg w).nodeVolumes = unpublishRegistry reg req.VolumeId := by
  unfold NodeUnpublishVolume
  simp only [hv, if_false]
  repeat' split
  all_goals rfl

theorem unstageUnmount_nodeVolumes (h : Host) (req : NodeUnstageVolumeRequest) (reg1 : Registry)
    (w : World) : (unstageUnmount h req reg1 w).nodeVolumes = reg1 := by
  unfold unstageUnmount
  dsimp only
  repeat' split
  all_goals rfl

theorem unstage_nodeVolumes (h : Host) (req : NodeUnstageVolumeRequest) (reg : Registry)
    (w : World) (hv : req.VolumeId ≠ "") :
    (NodeUnstageVolume h req reg w).nodeVolumes
      = reg.filter (fun nv => !decide (nv.ID = req.VolumeId)) := by
  unfold NodeUnstageVolume
  simp only [hv, if_false]
  cases hg : GetNodeVolume reg req.VolumeId with
  | none => simp only [unstageUnmount_nodeVolumes, remove_of_get_none reg _ hg]
  | some e =>
    simp only [PopNodeVolume]
    split
    · rfl
    · exact unstageUnmount_nodeVolumes _ _ _ _

theorem unpublish_of_refCount_zero (h : Host) (req : NodeUnpublishVolumeRequest) (reg : Registry)
    (w : World) (dev : String) (hv : req.VolumeId ≠ "") (hp : req.TargetPath ≠ "")
    (hq : h.GetDeviceName w req.TargetPath = .ok (dev, 0)) :
    NodeUnpublishVolume h req reg w
      = ⟨none, unpublishRegistry reg req.VolumeId, w, [.GetDeviceName req.TargetPath]⟩ := by
  unfold NodeUnpublishVolume
  simp only [hv, hp, if_false, hq, if_true]

theorem unstageUnmount_of_refCount_zero (h : Host) (req : NodeUnstageVolumeRequest)
    (reg1 : Registry) (w : World) (dev : String) (hp : req.StagingTargetPath ≠ "")
    (hq : h.GetDeviceName w req.StagingTargetPath = .ok (dev, 0)) :
    unstageUnmount h req reg1 w = ⟨none, reg1, w, [.GetDeviceName req.StagingTargetPath]⟩ := by
  unfold unstageUnmount
  simp only [hp, if_false, hq, if_true]

/-- C4: for a non-empty volume id and path, when a first `NodeUnpublishVolume`
(resp. `NodeUnstageVolume`) call succeeds and the Mounter then reports
reference count 0 for the path, a second identical call succeeds, makes no
outside call except the reference-count query (so neither `UnmountForcefully`
nor directory removal), and leaves the registry and the world as the first
call left them; no registry entry is required. -/
theorem unpublish_unstage_second_call_noop :
    (∀ (h1 h2 : Host) (req : NodeUnpublishVolumeRequest) (reg : Registry) (w : World)
        (dev : String),
        req.VolumeId ≠ "" → req.TargetPath ≠ "" →
        (NodeUnpublishVolume h1 req reg w).err = none →
        h2.GetDeviceName (NodeUnpublishVolume h1 req reg w).world req.TargetPath
          = .ok (dev, 0) →
        NodeUnpublishVolume h2 req (NodeUnpublishVolume h1 req reg w).nodeVolumes
            (NodeUnpublishVolume h1 req reg w).world
          = ⟨none, (NodeUnpublishVolume h1 req reg w).nodeVolumes,
              (NodeUnpublishVolume h1 req reg w).world, [.GetDeviceName req.TargetPath]⟩)
    ∧ (∀ (h1 h2 : Host) (req : NodeUnstageVolumeRequest) (reg : Registry) (w : World)
        (dev : String),
        req.VolumeId ≠ "" → req.StagingTargetPath ≠ "" →
        (NodeUnstageVolume h1 req reg w).err = none →
        h2.GetDeviceName (NodeUnstageVolume h1 req reg w).world req.StagingTargetPath
          = .ok (dev, 0) →
        NodeUnstageVolume h2 req (NodeUnstageVolume h1 req reg w).nodeVolumes
            (NodeUnstageVolume h1 req reg w).world
          = ⟨none, (NodeUnstageVolume h1 req reg w).nodeVolumes,
              (NodeUnstageVolume h1 req reg w).world,
              [.GetDeviceName req.StagingTargetPath]⟩) := by
  constructor
  · intro h1 h2 req reg w dev hv hp _ hq
    rw [unpublish_of_refCount_zero h2 req _ _ dev hv hp hq, unpublish_nodeVolumes h1 req reg w hv,
      unpublishRegistry_idem]
  · intro h1 h2 req reg w dev hv hp _ hq
    have hreg := unstage_nodeVolumes h1 req reg w hv
    generalize NodeUnstageVolume h1 req reg w = o1 at hq hreg ⊢
    unfold NodeUnstageVolume
    simp only [hv, if_false, hreg, get_after_remove]
    rw [unstageUnmount_of_refCount_zero h2 req _ _ dev hp hq]

/-- Witness for C4: unpublishing `/t` and unstaging `/s` twice on a node that
works. -/
theorem unpublish_unstage_second_call_noop_witness :
    NodeUnpublishVolume idealHost ⟨"v", "/t"⟩
        (NodeUnpublishVolume idealHost ⟨"v", "/t"⟩ [⟨"v", "", "/t", false, false⟩]
          ⟨["/t"], [⟨"http://x", "/t", "davfs", []⟩]⟩).nodeVolumes
        (NodeUnpublishVolume idealHost ⟨"v", "/t"⟩ [⟨"v", "", "/t", false, false⟩]
          ⟨["/t"], [⟨"http://x", "/t", "davfs", []⟩]⟩).world
      = ⟨none, (NodeUnpublishVolume idealHost ⟨"v", "/t"⟩ [⟨"v", "", "/t", false, false⟩]
          ⟨["/t"], [⟨"http://x", "/t", "davfs", []⟩]⟩).nodeVolumes,
          (NodeUnpublishVolume idealHost ⟨"v", "/t"⟩ [⟨"v", "", "/t", false, false⟩]
          ⟨["/t"], [⟨"http://x", "/t", "davfs", []⟩]⟩).world, [.GetDeviceName "/t"]⟩
    ∧ NodeUnstageVolume idealHost ⟨"v", "/s"⟩
        (NodeUnstageVolume idealHost ⟨"v", "/s"⟩ [⟨"v", "/s", "", true, true⟩]
          ⟨["/s"], [⟨"http://x", "/s", "davfs", []⟩]⟩).nodeVolumes
        (NodeUnstageVolume idealHost ⟨"v", "/s"⟩ [⟨"v", "/s", "", true, true⟩]
          ⟨["/s"], [⟨"http://x", "/s", "davfs", []⟩]⟩).world
      = ⟨none, (NodeUnstageVolume idealHost ⟨"v", "/s"⟩ [⟨"v", "/s", "", true, true⟩]
          ⟨["/s"], [⟨"http://x", "/s", "davfs", []⟩]⟩).nodeVolumes,
          (NodeUnstageVolume idealHost ⟨"v", "/s"⟩ [⟨"v", "/s", "", true, true⟩]
          ⟨["/s"], [⟨"http://x", "/s", "davfs", []⟩]⟩).world, [.GetDeviceName "/s"]⟩ :=
  ⟨unpublish_unstage_second_call_noop.1 idealHost idealHost ⟨"v", "/t"⟩
      [⟨"v", "", "/t", false, false⟩] ⟨["/t"], [⟨"http://x", "/t", "davfs", []⟩]⟩ ""
      (by decide) (by decide) (by decide) (by decide),
   unpublish_unstage_second_call_noop.2 idealHost idealHost ⟨"v", "/s"⟩
      [⟨"v", "/s", "", true, true⟩] ⟨["/s"], [⟨"http://x", "/s", "davfs", []⟩]⟩ ""
      (by decide) (by decide) (by decide) (by decide)⟩

theorem unpublish_of_unmount_failure (h : Host) (req : NodeUnpublishVolumeRequest)
    (reg : Registry) (w : World) (hv : req.VolumeId ≠ "") (hp : req.TargetPath ≠ "")
    (hf : unmountAttemptFails h w req.TargetPath = true) :
    (∃ m, (NodeUnpublishVolume h req reg w).err = some ⟨.Internal, m⟩)
    ∧ (NodeUnpublishVolume h req reg w).world = w := by
  unfold unmountAttemptFails at hf
  unfold NodeUnpublishVolume doUnmount
  simp only [hv, hp, if_false]
  cases hq : h.GetDeviceName w req.TargetPath with
  | error e => exact ⟨⟨_, rfl⟩, rfl⟩
  | ok r =>
    obtain ⟨dev, rc⟩ := r
    simp only [hq, Bool.and_eq_true, decide_eq_true_eq, Option.isSome_iff_exists] at hf
    obtain ⟨hrc, err, hu⟩ := hf
    simp only [hrc, if_false, hu]
    exact ⟨⟨_, rfl⟩, trivial⟩

theorem unstageUnmount_of_unmount_failure (h : Host) (req : NodeUnstageVolumeRequest)
    (reg1 : Registry) (w : World) (hp : req.StagingTargetPath ≠ "")
    (hf : unmountAttemptFails h w req.StagingTargetPath = true) :
    (∃ m, (unstageUnmount h req reg1 w).err = some ⟨.Internal, m⟩)
    ∧ (unstageUnmount h req reg1 w).world = w := by
  unfold unmountAttemptFails at hf
  unfold unstageUnmount doUnmount
  simp only [hp, if_false]
  cases hq : h.GetDeviceName w req.StagingTargetPath with
  | error e => exact ⟨⟨_, rfl⟩, rfl⟩
  | ok r =>
    obtain ⟨dev, rc⟩ := r
    simp only [hq, Bool.and_eq_true, decide_eq_true_eq, Option.isSome_iff_exists] at hf
    obtain ⟨hrc, err, hu⟩ := hf
    simp only [hrc, if_false, hu]
    exact ⟨⟨_, rfl⟩, trivial⟩

/-- C2, as stated, fails: on a node where unmounting fails, `NodeUnstageVolume`
for a staged dynamic volume mounted at `/s` returns an Internal error and
leaves `/s` mounted, yet the registry entry of the volume is gone. -/
theorem registry_entry_kept_counterexample :
    GetNodeVolume [⟨"v", "/s", "", true, true⟩] "v" = some ⟨"v", "/s", "", true, true⟩
    ∧ busyHost.GetDeviceName ⟨["/s"], [⟨"http://x", "/s", "davfs", []⟩]⟩ "/s" = .ok ("", 1)
    ∧ (NodeUnstageVolume busyHost ⟨"v", "/s"⟩ [⟨"v", "/s", "", true, true⟩]
        ⟨["/s"], [⟨"http://x", "/s", "davfs", []⟩]⟩).err
        = some ⟨.Internal, .format "Could not unmount %q: %v" ["/s", "target is busy"]⟩
    ∧ (NodeUnstageVolume busyHost ⟨"v", "/s"⟩ [⟨"v", "/s", "", true, true⟩]
        ⟨["/s"], [⟨"http://x", "/s", "davfs", []⟩]⟩).world.mounted "/s" = true
    ∧ GetNodeVolume (NodeUnstageVolume busyHost ⟨"v", "/s"⟩ [⟨"v", "/s", "", true, true⟩]
        ⟨["/s"], [⟨"http://x", "/s", "davfs", []⟩]⟩).nodeVolumes "v" = none := by
  decide

/-- C2, amended: the registry is updated before the unmount is attempted.
When the reference-count query fails, or reports a non-zero count and
`UnmountForcefully` fails, the call returns an Internal error and the world is
unchanged; after `NodeUnpublishVolume` the entry held for the volume id is
still there if its `StageVolume` is true and has been removed if it is false;
after `NodeUnstageVolume` of a dynamic entry the entry has been removed; entries
of other ids are unchanged. -/
theorem registry_update_precedes_unmount :
    (∀ (h : Host) (req : NodeUnpublishVolumeRequest) (reg : Registry) (w : World)
        (e : NodeVolume),
        req.VolumeId ≠ "" → req.TargetPath ≠ "" →
        GetNodeVolume reg req.VolumeId = some e →
        unmountAttemptFails h w req.TargetPath = true →
        (∃ m, (NodeUnpublishVolume h req reg w).err = some ⟨.Internal, m⟩)
        ∧ (NodeUnpublishVolume h req reg w).world = w
        ∧ GetNodeVolume (NodeUnpublishVolume h req reg w).nodeVolumes req.VolumeId
            = (if e.StageVolume then some e else none)
        ∧ (∀ other, other ≠ req.VolumeId →
            GetNodeVolume (NodeUnpublishVolume h req reg w).nodeVolumes other
              = GetNodeVolume reg other))
    ∧ (∀ (h : Host) (req : NodeUnstageVolumeRequest) (reg : Registry) (w : World)
        (e : NodeVolume),
        req.VolumeId ≠ "" → req.StagingTargetPath ≠ "" →
        GetNodeVolume reg req.VolumeId = some e → e.DynamicVolumeProvisioning = true →
        unmountAttemptFails h w req.StagingTargetPath = true →
        (∃ m, (NodeUnstageVolume h req reg w).err = some ⟨.Internal, m⟩)
        ∧ (NodeUnstageVolume h req reg w).world = w
        ∧ GetNodeVolume (NodeUnstageVolume h req reg w).nodeVolumes req.VolumeId = none
        ∧ (∀ other, other ≠ req.VolumeId →
            GetNodeVolume (NodeUnstageVolume h req reg w).nodeVolumes other
              = GetNodeVolume reg other)) := by
  constructor
  · intro h req reg w e hv hp hg hf
    obtain ⟨herr, hw⟩ := unpublish_of_unmount_failure h req reg w hv hp hf
    refine ⟨herr, hw, ?_, ?_⟩
    · rw [unpublish_nodeVolumes h req reg w hv]
      unfold unpublishRegistry
      simp only [hg]
      cases hs : e.StageVolume
      · simp only [Bool.not_false, if_true, PopNodeVolume, get_after_remove]
        rfl
      · simp only [Bool.not_true, Bool.false_eq_true, if_false, hg, if_true]
    · intro other hne
      rw [unpublish_nodeVolumes h req reg w hv]
      exact unpublishRegistry_other reg _ other hne
  · intro h req reg w e hv hp hg hd hf
    have hreg := unstage_nodeVolumes h req reg w hv
    refine ⟨?_, ?_, ?_, ?_⟩
    · unfold NodeUnstageVolume
      simp only [hv, if_false, hg, hd, Bool.not_true, Bool.false_eq_true]
      exact (unstageUnmount_of_unmount_failure h req _ w hp hf).1
    · unfold NodeUnstageVolume
      simp only [hv, if_false, hg, hd, Bool.not_true, Bool.false_eq_true]
      exact (unstageUnmount_of_unmount_failure h req _ w hp hf).2
    · rw [hreg]; exact get_after_remove reg _
    · intro other hne
      rw [hreg]; exact get_after_remove_other reg _ other hne

/-- Witness for C2 (amended): a failing unmount during Unpublish of a staged
volume and during Unstage of a dynamic volume. -/
theorem registry_update_precedes_unmount_witness :
    GetNodeVolume (NodeUnpublishVolume busyHost ⟨"v", "/t"⟩ [⟨"v", "/s", "/t", true, true⟩]
        ⟨["/t"], [⟨"/s", "/t", "", ["bind"]⟩]⟩).nodeVolumes "v"
      = some ⟨"v", "/s", "/t", true, true⟩
    ∧ GetNodeVolume (NodeUnstageVolume busyHost ⟨"v", "/s"⟩ [⟨"v", "/s", "", true, true⟩]
        ⟨["/s"], [⟨"http://x", "/s", "davfs", []⟩]⟩).nodeVolumes "v" = none :=
  ⟨(registry_update_precedes_unmount.1 busyHost ⟨"v", "/t"⟩ [⟨"v", "/s", "/t", true, true⟩]
      ⟨["/t"], [⟨"/s", "/t", "", ["bind"]⟩]⟩ ⟨"v", "/s", "/t", true, true⟩
      (by decide) (by decide) (by decide) (by decide)).2.2.1,
   (registry_update_precedes_unmount.2 busyHost ⟨"v", "/s"⟩ [⟨"v", "/s", "", true, true⟩]
      ⟨["/s"], [⟨"http://x", "/s", "davfs", []⟩]⟩ ⟨"v", "/s", "", true, true⟩
      (by decide) (by decide) (by decide) (by decide) (by decide)).2.2.1⟩

/-! ## Lemmas on `NodeStageVolume` and `NodePublishVolume` -/

theorem ensureDir_frame (h : Host) (w : World) (p : String) :
    (∀ e, (ensureDir h w p).1 = some e → e.code = .Internal)
    ∧ (ensureDir h w p).2.1.mounts = w.mounts
    ∧ (∀ c ∈ (ensureDir h w p).2.2, c.isMountOrUnmount = false) := by
  unfold ensureDir PathExists MakeDir
  cases h.PathExistsErr w p with
  | some e => simp [Call.isMountOrUnmount]
  | none =>
    by_cases hin : p ∈ w.dirs
    · simp [hin, Call.isMountOrUnmount]
    · cases h.MakeDirErr w p with
      | some e => simp [hin, Call.isMountOrUnmount]
      | none => simp [hin, Call.isMountOrUnmount]

theorem checkNotMountPoint_of_mounted (h : Host) (w : World) (p : String)
    (hm : h.IsLikelyNotMountPoint w p = .ok false) :
    checkNotMountPoint h w p
      = some ⟨.Internal, .format "Staging target path %s is already mounted" [p]⟩ := by
  simp [checkNotMountPoint, hm]

/-- C5: for a `NodePublishVolume` request (static or dynamic) and for a
dynamic-mode `NodeStageVolume` request with non-empty volume id, non-empty
path and supported capability, if `IsLikelyNotMountPoint`, asked in the world
left by the directory check, reports that the path is a mount point, the call
returns an Internal error, asks for no mount or unmount, leaves the mount
table as it was and leaves the registry unchanged. -/
theorem already_mounted_is_rejected :
    (∀ (d : Driver) (h : Host) (req : NodePublishVolumeRequest) (reg : Registry) (w : World)
        (volCap : VolumeCapability),
        req.VolumeId ≠ "" → req.TargetPath ≠ "" →
        req.VolumeCapability = some volCap → d.isValidVolumeCapabilities [volCap] = true →
        h.IsLikelyNotMountPoint (ensureDir h w req.TargetPath).2.1 req.TargetPath = .ok false →
        (∃ m, (NodePublishVolume d h req reg w).err = some ⟨.Internal, m⟩)
        ∧ (NodePublishVolume d h req reg w).nodeVolumes = reg
        ∧ (NodePublishVolume d h req reg w).world.mounts = w.mounts
        ∧ (∀ c ∈ (NodePublishVolume d h req reg w).calls, c.isMountOrUnmount = false))
    ∧ (∀ (d : Driver) (h : Host) (req : NodeStageVolumeRequest) (reg : Registry) (w : World)
        (volCap : VolumeCapability),
        req.VolumeId ≠ "" → req.StagingTargetPath ≠ "" →
        isDynamicVolumeProvisioningMode h.ToLower req.VolumeContext = true →
        req.VolumeCapability = some volCap → d.isValidVolumeCapabilities [volCap] = true →
        h.IsLikelyNotMountPoint (ensureDir h w req.StagingTargetPath).2.1 req.StagingTargetPath
          = .ok false →
        (∃ m, (NodeStageVolume d h req reg w).err = some ⟨.Internal, m⟩)
        ∧ (NodeStageVolume d h req reg w).nodeVolumes = reg
        ∧ (NodeStageVolume d h req reg w).world.mounts = w.mounts
        ∧ (∀ c ∈ (NodeStageVolume d h req reg w).calls, c.isMountOrUnmount = false)) := by
  constructor
  · intro d h req reg w volCap hv hp hc hvalid hm
    obtain ⟨hcode, hmounts, hcalls⟩ := ensureDir_frame h w req.TargetPath
    unfold NodePublishVolume
    simp only [hv, hp, if_false, hc, hvalid, Bool.not_true, Bool.false_eq_true]
    rcases hE : ensureDir h w req.TargetPath with ⟨err, w1, calls1⟩
    rw [hE] at hcode hmounts hcalls hm
    cases err with
    | some e =>
      have := hcode e rfl
      obtain ⟨code, m⟩ := e
      simp only at this
      subst this
      exact ⟨⟨m, rfl⟩, rfl, hmounts, hcalls⟩
    | none =>
      simp only [checkNotMountPoint_of_mounted h w1 _ hm]
      refine ⟨⟨_, rfl⟩, trivial, hmounts, ?_⟩
      intro c hc'
      rcases List.mem_append.mp hc' with h1 | h1
      · exact hcalls c h1
      · simp only [List.mem_singleton] at h1
        subst h1; rfl
  · intro d h req reg w volCap hv hp hdyn hc hvalid hm
    obtain ⟨hcode, hmounts, hcalls⟩ := ensureDir_frame h w req.StagingTargetPath
    unfold NodeStageVolume
    simp only [hv, hp, if_false, hc, hvalid, hdyn, Bool.not_true, Bool.false_eq_true]
    rcases hE : ensureDir h w req.StagingTargetPath with ⟨err, w1, calls1⟩
    rw [hE] at hcode hmounts hcalls hm
    cases err with
    | some e =>
      have := hcode e rfl
      obtain ⟨code, m⟩ := e
      simp only at this
      subst this
      exact ⟨⟨m, rfl⟩, rfl, hmounts, hcalls⟩
    | none =>
      simp only [checkNotMountPoint_of_mounted h w1 _ hm]
      refine ⟨⟨_, rfl⟩, trivial, hmounts, ?_⟩
      intro c hc'
      rcases List.mem_append.mp hc' with h1 | h1
      · exact hcalls c h1
      · simp only [List.mem_singleton] at h1
        subst h1; rfl

/-- Witness for C5: publishing and staging onto a path that is already in the
mount table of a truthful node. -/
theorem already_mounted_is_rejected_witness :
    (NodePublishVolume plainDriver idealHost ⟨"v", "/t", "/s", some mountCap, false,
        dynamicContext, []⟩ [⟨"v", "/s", "", true, true⟩]
        ⟨["/t"], [⟨"/s", "/t", "", ["bind"]⟩]⟩).nodeVolumes = [⟨"v", "/s", "", true, true⟩]
    ∧ (NodeStageVolume plainDriver idealHost ⟨"v", "/s", some mountCap, dynamicContext, []⟩
        [] ⟨["/s"], [⟨"http://x", "/s", "davfs", []⟩]⟩).nodeVolumes = [] :=
  ⟨(already_mounted_is_rejected.1 plainDriver idealHost ⟨"v", "/t", "/s", some mountCap, false,
        dynamicContext, []⟩ [⟨"v", "/s", "", true, true⟩]
        ⟨["/t"], [⟨"/s", "/t", "", ["bind"]⟩]⟩ mountCap
        (by decide) (by decide) rfl rfl (by decide)).2.1,
   (already_mounted_is_rejected.2 plainDriver idealHost
        ⟨"v", "/s", some mountCap, dynamicContext, []⟩
        [] ⟨["/s"], [⟨"http://x", "/s", "davfs", []⟩]⟩ mountCap
        (by decide) (by decide) (by decide) rfl rfl (by decide)).2.1⟩

theorem extractClientType_webdav (lower : String → String) (params secrets : GoMap) :
    ExtractClientType lower params secrets WebdavType = WebdavType := by
  unfold ExtractClientType GetValidClientType
  split <;> rfl

theorem ensureDir_exists (h : Host) (w w1 : World) (p : String) (calls1 : List Call)
    (hE : ensureDir h w p = (none, w1, calls1)) : p ∈ w1.dirs := by
  unfold ensureDir PathExists MakeDir at hE
  cases hpe : h.PathExistsErr w p with
  | some e => simp [hpe] at hE
  | none =>
    by_cases hin : p ∈ w.dirs
    · simp only [hpe, hin, decide_True, Bool.not_true, Bool.false_eq_true, if_false,
        Prod.mk.injEq, true_and] at hE
      rw [← hE.1]; exact hin
    · cases hmd : h.MakeDirErr w p with
      | some e => simp [hpe, hin, hmd] at hE
      | none =>
        simp only [hpe, hin, decide_False, Bool.not_false, if_true, hmd, if_false,
          Prod.mk.injEq, true_and] at hE
        rw [← hE.1]; simp

theorem doMount_failure (h : Host) (w w1 : World) (a : MountArgs) (e : String)
    (hd : doMount h w a = (some e, w1)) : w1 = w := by
  unfold doMount at hd
  cases hm : h.MountSensitive2 w a with
  | some e' =>
    simp only [hm, Prod.mk.injEq] at hd
    exact hd.2.symm
  | none => simp [hm] at hd

theorem mountWebdav_failure_world (h : Host) (w : World) (ctx secrets : GoMap)
    (opts : List String) (p : String) (err : Status)
    (hf : (mountWebdav h w ctx secrets opts p).1 = some err) :
    (mountWebdav h w ctx secrets opts p).2.1 = w := by
  unfold mountWebdav at hf ⊢
  cases hx : ExtractWebDAVConnectionInfo h.ToLower ctx secrets with
  | error e => rfl
  | ok conn =>
    rw [hx] at hf
    dsimp only at hf ⊢
    generalize hd : doMount h w (webdavMountArgs conn opts p) = r at hf ⊢
    obtain ⟨e, w1⟩ := r
    cases e with
    | some e => exact doMount_failure h w w1 _ e hd
    | none => simp at hf

theorem mountBind_failure_world (h : Host) (w : World) (s : String)
    (opts : List String) (p : String) (err : Status)
    (hf : (mountBind h w s opts p).1 = some err) :
    (mountBind h w s opts p).2.1 = w := by
  unfold mountBind at hf ⊢
  dsimp only at hf ⊢
  generalize hd : doMount h w _ = r at hf ⊢
  obtain ⟨e, w1⟩ := r
  cases e with
  | some e => exact doMount_failure h w w1 _ e hd
  | none => simp at hf

theorem cleanedUpAfter_intro (h : Host) (w1 : World) (p : String) (err : Status)
    (reg : Registry) (calls : List Call) (hp : p ∈ w1.dirs) :
    cleanedUpAfter h w1 p err reg
      ⟨some err, reg, (osRemove h w1 p).2, calls ++ [.Remove p]⟩ := by
  refine ⟨rfl, rfl, by simp, rfl, ?_, ?_⟩
  · intro hr
    simp [osRemove, hr, List.mem_filter]
  · intro e hr
    simp [osRemove, hr, hp]

/-- C9, as stated, fails: `/t` exists before a dynamic `NodePublishVolume`
whose bind mount fails; the handler still calls `os.Remove("/t")` and the
directory is gone afterwards. -/
theorem preexisting_dir_kept_counterexample :
    "/t" ∈ (World.mk ["/s", "/t"] [⟨"http://x", "/s", "davfs", []⟩]).dirs
    ∧ (NodePublishVolume plainDriver noMountHost ⟨"v", "/t", "/s", some mountCap, false,
        dynamicContext, []⟩ [⟨"v", "/s", "", true, true⟩]
        ⟨["/s", "/t"], [⟨"http://x", "/s", "davfs", []⟩]⟩).err
        = some ⟨.Internal, .format "Could not mount %q (%q) at %q: %v"
            ["/s", "", "/t", "mount failed"]⟩
    ∧ Call.Remove "/t" ∈ (NodePublishVolume plainDriver noMountHost
        ⟨"v", "/t", "/s", some mountCap, false, dynamicContext, []⟩
        [⟨"v", "/s", "", true, true⟩]
        ⟨["/s", "/t"], [⟨"http://x", "/s", "davfs", []⟩]⟩).calls
    ∧ "/t" ∉ (NodePublishVolume plainDriver noMountHost ⟨"v", "/t", "/s", some mountCap, false,
        dynamicContext, []⟩ [⟨"v", "/s", "", true, true⟩]
        ⟨["/s", "/t"], [⟨"http://x", "/s", "davfs", []⟩]⟩).world.dirs := by
  decide

/-- C9, amended: in a dynamic-mode `NodeStageVolume` call and in a
`NodePublishVolume` call whose mount operation (`mountWebdav` or `mountBind`)
fails, the handler calls `os.Remove` on the staging/target path as its last
outside call, whether the directory was created by the call or existed
before, ignores the result and returns the mount error with the registry
unchanged: the directory does not exist afterwards when the removal succeeds,
and the world is as the directory check left it when the removal fails. -/
theorem failed_mount_cleanup :
    (∀ (d : Driver) (h : Host) (req : NodeStageVolumeRequest) (reg : Registry) (w w1 : World)
        (volCap : VolumeCapability) (calls1 : List Call) (err : Status),
        req.VolumeId ≠ "" → req.StagingTargetPath ≠ "" →
        isDynamicVolumeProvisioningMode h.ToLower req.VolumeContext = true →
        req.VolumeCapability = some volCap → d.isValidVolumeCapabilities [volCap] = true →
        ensureDir h w req.StagingTargetPath = (none, w1, calls1) →
        checkNotMountPoint h w1 req.StagingTargetPath = none →
        (mountWebdav h w1 req.VolumeContext (mergeSecrets d.secrets req.Secrets)
          (stageMountOptions volCap) req.StagingTargetPath).1 = some err →
        cleanedUpAfter h w1 req.StagingTargetPath err reg (NodeStageVolume d h req reg w))
    ∧ (∀ (d : Driver) (h : Host) (req : NodePublishVolumeRequest) (reg : Registry)
        (w w1 : World) (volCap : VolumeCapability) (calls1 : List Call) (err : Status),
        req.VolumeId ≠ "" → req.TargetPath ≠ "" →
        req.VolumeCapability = some volCap → d.isValidVolumeCapabilities [volCap] = true →
        ensureDir h w req.TargetPath = (none, w1, calls1) →
        checkNotMountPoint h w1 req.TargetPath = none →
        isDynamicVolumeProvisioningMode h.ToLower req.VolumeContext = true →
        req.StagingTargetPath ≠ "" →
        (mountBind h w1 req.StagingTargetPath (publishMountOptions req.Readonly volCap)
          req.TargetPath).1 = some err →
        cleanedUpAfter h w1 req.TargetPath err reg (NodePublishVolume d h req reg w))
    ∧ (∀ (d : Driver) (h : Host) (req : NodePublishVolumeRequest) (reg : Registry)
        (w w1 : World) (volCap : VolumeCapability) (calls1 : List Call) (err : Status),
        req.VolumeId ≠ "" → req.TargetPath ≠ "" →
        req.VolumeCapability = some volCap → d.isValidVolumeCapabilities [volCap] = true →
        ensureDir h w req.TargetPath = (none, w1, calls1) →
        checkNotMountPoint h w1 req.TargetPath = none →
        isDynamicVolumeProvisioningMode h.ToLower req.VolumeContext = false →
        (mountWebdav h w1 req.VolumeContext (mergeSecrets d.secrets req.Secrets)
          (publishMountOptions req.Readonly volCap) req.TargetPath).1 = some err →
        cleanedUpAfter h w1 req.TargetPath err reg (NodePublishVolume d h req reg w)) := by
  refine ⟨?_, ?_, ?_⟩
  · intro d h req reg w w1 volCap calls1 err hv hp hdyn hc hvalid hE hN hf
    have hw := mountWebdav_failure_world _ _ _ _ _ _ _ hf
    have hin := ensureDir_exists h w w1 _ calls1 hE
    unfold NodeStageVolume
    simp only [hv, hp, if_false, hdyn, hc, hvalid, Bool.not_true, Bool.false_eq_true, hE, hN,
      extractClientType_webdav, if_true]
    generalize mountWebdav h w1 req.VolumeContext (mergeSecrets d.secrets req.Secrets)
      (stageMountOptions volCap) req.StagingTargetPath = r at hf hw
    obtain ⟨e, w2, calls3⟩ := r
    simp only at hf hw
    subst hf hw
    exact cleanedUpAfter_intro h _ _ err reg _ hin
  · intro d h req reg w w1 volCap calls1 err hv hp hc hvalid hE hN hdyn hs hf
    have hw := mountBind_failure_world _ _ _ _ _ _ hf
    have hin := ensureDir_exists h w w1 _ calls1 hE
    unfold NodePublishVolume
    simp only [hv, hp, if_false, hdyn, hc, hvalid, Bool.not_true, Bool.false_eq_true, hE, hN,
      if_true, hs]
    generalize mountBind h w1 req.StagingTargetPath (publishMountOptions req.Readonly volCap)
      req.TargetPath = r at hf hw
    obtain ⟨e, w2, calls3⟩ := r
    simp only at hf hw
    subst hf hw
    exact cleanedUpAfter_intro h _ _ err reg _ hin
  · intro d h req reg w w1 volCap calls1 err hv hp hc hvalid hE hN hdyn hf
    have hw := mountWebdav_failure_world _ _ _ _ _ _ _ hf
    have hin := ensureDir_exists h w w1 _ calls1 hE
    unfold NodePublishVolume
    simp only [hv, hp, if_false, hdyn, hc, hvalid, Bool.not_true, Bool.false_eq_true, hE, hN,
      extractClientType_webdav, if_true]
    generalize mountWebdav h w1 req.VolumeContext (mergeSecrets d.secrets req.Secrets)
      (publishMountOptions req.Readonly volCap) req.TargetPath = r at hf hw
    obtain ⟨e, w2, calls3⟩ := r
    simp only at hf hw
    subst hf hw
    exact cleanedUpAfter_intro h _ _ err reg _ hin

/-- Witness for C9 (amended): a failing WebDAV mount in Stage on a fresh
directory, a failing bind mount in Publish on an existing directory, and
unresolvable connection parameters in a static Publish. -/
theorem failed_mount_cleanup_witness :
    cleanedUpAfter noMountHost ⟨["/s"], []⟩ "/s"
        ⟨.Internal, .format "Could not mount %q (%q) at %q: %v"
          ["http://x", "davfs", "/s", "mount failed"]⟩ []
        (NodeStageVolume plainDriver noMountHost ⟨"v", "/s", some mountCap, dynamicContext, []⟩
          [] ⟨[], []⟩)
    ∧ cleanedUpAfter noMountHost ⟨["/s", "/t"], [⟨"http://x", "/s", "davfs", []⟩]⟩ "/t"
        ⟨.Internal, .format "Could not mount %q (%q) at %q: %v"
          ["/s", "", "/t", "mount failed"]⟩ [⟨"v", "/s", "", true, true⟩]
        (NodePublishVolume plainDriver noMountHost ⟨"v", "/t", "/s", some mountCap, false,
          dynamicContext, []⟩ [⟨"v", "/s", "", true, true⟩]
          ⟨["/s", "/t"], [⟨"http://x", "/s", "davfs", []⟩]⟩)
    ∧ cleanedUpAfter idealHost ⟨["/t"], []⟩ "/t"
        ⟨.InvalidArgument, .text "Argument url is empty"⟩ []
        (NodePublishVolume plainDriver idealHost ⟨"v", "/t", "", some mountCap, false, [], []⟩
          [] ⟨[], []⟩) :=
  ⟨failed_mount_cleanup.1 plainDriver noMountHost
      ⟨"v", "/s", some mountCap, dynamicContext, []⟩ [] ⟨[], []⟩ ⟨["/s"], []⟩ mountCap
      [.PathExists "/s", .MakeDir "/s"] _
      (by decide) (by decide) (by decide) rfl rfl (by decide) (by decide) (by decide),
   failed_mount_cleanup.2.1 plainDriver noMountHost
      ⟨"v", "/t", "/s", some mountCap, false, dynamicContext, []⟩ [⟨"v", "/s", "", true, true⟩]
      ⟨["/s", "/t"], [⟨"http://x", "/s", "davfs", []⟩]⟩
      ⟨["/s", "/t"], [⟨"http://x", "/s", "davfs", []⟩]⟩ mountCap [.PathExists "/t"] _
      (by decide) (by decide) rfl rfl (by decide) (by decide) (by decide) (by decide)
      (by decide),
   failed_mount_cleanup.2.2 plainDriver idealHost
      ⟨"v", "/t", "", some mountCap, false, [], []⟩ [] ⟨[], []⟩ ⟨["/t"], []⟩ mountCap
      [.PathExists "/t", .MakeDir "/t"] _
      (by decide) (by decide) rfl rfl (by decide) (by decide) (by decide) (by decide)⟩

/-! ## The dynamic lifecycle -/

theorem tableRefCount_ne_zero (w : World) (p : String) :
    (tableRefCount w p).2 ≠ 0 ↔ w.mounted p = true := by
  unfold tableRefCount World.mounted
  simp only [ne_eq, Int.natCast_eq_zero, List.length_eq_zero, List.any_eq_true,
    decide_eq_true_eq]
  rw [List.filter_eq_nil_iff]
  simp

theorem idealHost_mounterWorks : idealHost.mounterWorks :=
  ⟨fun _ _ => rfl, fun _ _ => rfl,
    fun w p => ⟨(tableRefCount w p).1, (tableRefCount w p).2, rfl, tableRefCount_ne_zero w p⟩⟩

theorem fullDirHost_mounterWorks : fullDirHost.mounterWorks :=
  ⟨fun _ _ => rfl, fun _ _ => rfl,
    fun w p => ⟨(tableRefCount w p).1, (tableRefCount w p).2, rfl, tableRefCount_ne_zero w p⟩⟩

theorem idealHost_dirsWork : idealHost.dirsWork :=
  ⟨fun _ _ => rfl, fun _ _ => rfl, fun _ _ => rfl⟩

theorem idealHost_mountPointTruthful : idealHost.mountPointTruthful := by
  intro w p hm
  show Except.ok (!w.mounted p) = Except.ok true
  rw [hm]; rfl

theorem ensureDir_of_dirsWork (h : Host) (hD : h.dirsWork) (w : World) (p : String) :
    ∃ w1 calls1, ensureDir h w p = (none, w1, calls1) ∧ w1.mounts = w.mounts := by
  obtain ⟨h1, h2, _⟩ := hD
  unfold ensureDir PathExists MakeDir
  simp only [h1, h2]
  by_cases hin : p ∈ w.dirs
  · simp [hin]
  · simp [hin]

theorem mounted_eq_false_iff (w : World) (p : String) :
    w.mounted p = false ↔ ∀ m ∈ w.mounts, m.target ≠ p := by
  unfold World.mounted
  rw [Bool.eq_false_iff]
  simp

theorem mounted_of_mounts_eq (w w1 : World) (p : String) (hm : w1.mounts = w.mounts) :
    w1.mounted p = w.mounted p := by
  unfold World.mounted; rw [hm]

theorem stage_dynamic_success (d : Driver) (h : Host) (req : NodeStageVolumeRequest)
    (reg : Registry) (w : World) (volCap : VolumeCapability) (conn : WebDAVConnectionInfo)
    (hv : req.VolumeId ≠ "") (hp : req.StagingTargetPath ≠ "")
    (hdyn : isDynamicVolumeProvisioningMode h.ToLower req.VolumeContext = true)
    (hc : req.VolumeCapability = some volCap) (hvalid : d.isValidVolumeCapabilities [volCap] = true)
    (hD : h.dirsWork) (hT : h.mountPointTruthful) (hM : ∀ w a, h.MountSensitive2 w a = none)
    (hm : w.mounted req.StagingTargetPath = false)
    (hconn : ExtractWebDAVConnectionInfo h.ToLower req.VolumeContext
      (mergeSecrets d.secrets req.Secrets) = .ok conn) :
    (NodeStageVolume d h req reg w).err = none
    ∧ (NodeStageVolume d h req reg w).nodeVolumes
        = PutNodeVolume reg ⟨req.VolumeId, req.StagingTargetPath, "", true, true⟩
    ∧ (NodeStageVolume d h req reg w).world.mounts
        = w.mounts ++ [⟨conn.URL, req.StagingTargetPath, "davfs", stageMountOptions volCap⟩] := by
  obtain ⟨w1, calls1, hE, hw1⟩ := ensureDir_of_dirsWork h hD w req.StagingTargetPath
  have hN : checkNotMountPoint h w1 req.StagingTargetPath = none := by
    unfold checkNotMountPoint
    rw [hT w1 _ ((mounted_of_mounts_eq w w1 _ hw1).trans hm)]
    rfl
  unfold NodeStageVolume
  simp only [hv, hp, if_false, hdyn, hc, hvalid, Bool.not_true, Bool.false_eq_true, hE, hN,
    extractClientType_webdav, if_true, mountWebdav, hconn, doMount, hM, hw1]
  simp [webdavMountArgs]

theorem publish_dynamic_success (d : Driver) (h : Host) (req : NodePublishVolumeRequest)
    (reg : Registry) (w : World) (volCap : VolumeCapability) (e : NodeVolume)
    (hv : req.VolumeId ≠ "") (hp : req.TargetPath ≠ "") (hs : req.StagingTargetPath ≠ "")
    (hdyn : isDynamicVolumeProvisioningMode h.ToLower req.VolumeContext = true)
    (hc : req.VolumeCapability = some volCap) (hvalid : d.isValidVolumeCapabilities [volCap] = true)
    (hD : h.dirsWork) (hT : h.mountPointTruthful) (hM : ∀ w a, h.MountSensitive2 w a = none)
    (hm : w.mounted req.TargetPath = false)
    (hg : GetNodeVolume reg req.VolumeId = some e) :
    (NodePublishVolume d h req reg w).err = none
    ∧ (NodePublishVolume d h req reg w).nodeVolumes
        = PutNodeVolume (reg.filter (fun nv => !decide (nv.ID = req.VolumeId)))
            { e with MountPath := req.TargetPath }
    ∧ (NodePublishVolume d h req reg w).world.mounts
        = w.mounts ++ [⟨req.StagingTargetPath, req.TargetPath, "",
            publishMountOptions req.Readonly volCap ++ ["bind"]⟩] := by
  obtain ⟨w1, calls1, hE, hw1⟩ := ensureDir_of_dirsWork h hD w req.TargetPath
  have hN : checkNotMountPoint h w1 req.TargetPath = none := by
    unfold checkNotMountPoint
    rw [hT w1 _ ((mounted_of_mounts_eq w w1 _ hw1).trans hm)]
    rfl
  unfold NodePublishVolume
  simp only [hv, hp, hs, if_false, hdyn, hc, hvalid, Bool.not_true, Bool.false_eq_true, hE, hN,
    if_true, mountBind, doMount, hM, hw1, PopNodeVolume, hg]
  simp

theorem unpublish_success (h : Host) (req : NodeUnpublishVolumeRequest) (reg : Registry)
    (w : World) (hv : req.VolumeId ≠ "") (hp : req.TargetPath ≠ "")
    (hM : h.mounterWorks) (hD : h.dirsWork) (hm : w.mounted req.TargetPath = true) :
    (NodeUnpublishVolume h req reg w).err = none
    ∧ (NodeUnpublishVolume h req reg w).nodeVolumes = unpublishRegistry reg req.VolumeId
    ∧ (NodeUnpublishVolume h req reg w).world.mounts
        = w.mounts.filter (fun m => !decide (m.target = req.TargetPath)) := by
  obtain ⟨_, hU, hQ⟩ := hM
  obtain ⟨dev, rc, hq, hrc⟩ := hQ w req.TargetPath
  have hrc' : rc ≠ 0 := hrc.mpr hm
  unfold NodeUnpublishVolume
  simp only [hv, hp, if_false, hq, hrc', doUnmount, hU, osRemove, hD.2.2]
  simp

theorem unstage_dynamic_success (h : Host) (req : NodeUnstageVolumeRequest) (reg : Registry)
    (w : World) (e : NodeVolume) (hv : req.VolumeId ≠ "") (hp : req.StagingTargetPath ≠ "")
    (hg : GetNodeVolume reg req.VolumeId = some e) (hd : e.DynamicVolumeProvisioning = true)
    (hM : h.mounterWorks) (hm : w.mounted req.StagingTargetPath = true) :
    (NodeUnstageVolume h req reg w).err = none
    ∧ (NodeUnstageVolume h req reg w).nodeVolumes
        = reg.filter (fun nv => !decide (nv.ID = req.VolumeId))
    ∧ (NodeUnstageVolume h req reg w).world.mounts
        = w.mounts.filter (fun m => !decide (m.target = req.StagingTargetPath)) := by
  obtain ⟨_, hU, hQ⟩ := hM
  obtain ⟨dev, rc, hq, hrc⟩ := hQ w req.StagingTargetPath
  have hrc' : rc ≠ 0 := hrc.mpr hm
  unfold NodeUnstageVolume unstageUnmount
  simp only [hv, hp, if_false, hg, hd, Bool.not_true, Bool.false_eq_true, PopNodeVolume, hq,
    hrc', doUnmount, hU]
  simp

theorem filter_mounts_of_not_mounted (w : World) (p : String) (hm : w.mounted p = false) :
    w.mounts.filter (fun m => !decide (m.target = p)) = w.mounts := by
  rw [List.filter_eq_self]
  intro m hmem
  have := (mounted_eq_false_iff w p).mp hm m hmem
  simp [this]

theorem mounted_of_mem (w : World) (p : String) (m : MountEntry) (hmem : m ∈ w.mounts)
    (ht : m.target = p) : w.mounted p = true := by
  unfold World.mounted
  simp only [List.any_eq_true, decide_eq_true_eq]
  exact ⟨m, hmem, ht⟩

/-- C3, as stated, fails: with a Mounter whose mounts and unmounts succeed and
whose reference count is truthful, Stage and Publish succeed, but
`NodeUnpublishVolume` returns an Internal error when `os.Remove` of the target
directory fails. -/
theorem dynamic_lifecycle_counterexample :
    fullDirHost.mounterWorks
    ∧ GetNodeVolume [] "v" = none
    ∧ (World.mk ["/t"] []).mounted "/s" = false ∧ (World.mk ["/t"] []).mounted "/t" = false
    ∧ (serveAll plainDriver fullDirHost
        [.Stage ⟨"v", "/s", some mountCap, dynamicContext, []⟩,
         .Publish ⟨"v", "/t", "/s", some mountCap, false, dynamicContext, []⟩,
         .Unpublish ⟨"v", "/t"⟩,
         .Unstage ⟨"v", "/s"⟩] [] ⟨["/t"], []⟩).map (fun o => o.err)
        = [none, none, some ⟨.Internal, .text "directory not empty"⟩, none] :=
  ⟨fullDirHost_mounterWorks, by decide, by decide, by decide, by decide⟩

/-- C3, amended: let volume id `v`, staging path `s` and target path `t` be
non-empty with `s ≠ t`, the registry hold no entry for `v`, nothing be mounted
at `s` or `t`, the Mounter's mounts and unmounts succeed with a reference count
that is non-zero exactly while a path is mounted, and in addition let
`PathExists`, `MakeDir` and `os.Remove` succeed and `IsLikelyNotMountPoint`
report an unmounted path as not a mount point.  Then dynamic Stage, dynamic
Publish, Unpublish and Unstage, with resolvable connection parameters and
supported capabilities, all succeed, the registry ends as it started (no entry
for `v`) and the mount table ends as it started (nothing at `s` or `t`). -/
theorem dynamic_lifecycle_roundtrip (d : Driver) (h : Host) (reg : Registry) (w : World)
    (v s t : String) (cap1 cap2 : VolumeCapability) (ctx1 sec1 ctx2 sec2 : GoMap) (r : Bool)
    (conn : WebDAVConnectionInfo)
    (hv : v ≠ "") (hs : s ≠ "") (ht : t ≠ "") (hst : s ≠ t)
    (hreg : GetNodeVolume reg v = none)
    (hms : w.mounted s = false) (hmt : w.mounted t = false)
    (hM : h.mounterWorks) (hD : h.dirsWork) (hT : h.mountPointTruthful)
    (hdyn1 : isDynamicVolumeProvisioningMode h.ToLower ctx1 = true)
    (hdyn2 : isDynamicVolumeProvisioningMode h.ToLower ctx2 = true)
    (hcap1 : d.isValidVolumeCapabilities [cap1] = true)
    (hcap2 : d.isValidVolumeCapabilities [cap2] = true)
    (hconn : ExtractWebDAVConnectionInfo h.ToLower ctx1 (mergeSecrets d.secrets sec1)
      = .ok conn) :
    ∃ o1 o2 o3 o4,
      serveAll d h
        [.Stage ⟨v, s, some cap1, ctx1, sec1⟩,
         .Publish ⟨v, t, s, some cap2, r, ctx2, sec2⟩,
         .Unpublish ⟨v, t⟩,
         .Unstage ⟨v, s⟩] reg w = [o1, o2, o3, o4]
      ∧ o1.err = none ∧ o2.err = none ∧ o3.err = none ∧ o4.err = none
      ∧ o4.nodeVolumes = reg ∧ GetNodeVolume o4.nodeVolumes v = none
      ∧ o4.world.mounts = w.mounts
      ∧ o4.world.mounted s = false ∧ o4.world.mounted t = false := by
  refine ⟨_, _, _, _, rfl, ?_⟩
  simp only [serve]
  -- Stage
  obtain ⟨e1, n1, m1⟩ := stage_dynamic_success d h ⟨v, s, some cap1, ctx1, sec1⟩ reg w cap1 conn
    hv hs hdyn1 rfl hcap1 hD hT hM.1 hms hconn
  generalize NodeStageVolume d h ⟨v, s, some cap1, ctx1, sec1⟩ reg w = o1 at e1 n1 m1 ⊢
  simp only at n1 m1
  have hg1 : GetNodeVolume o1.nodeVolumes v = some ⟨v, s, "", true, true⟩ := by
    rw [n1]; exact get_put_same reg ⟨v, s, "", true, true⟩
  have hmt1 : o1.world.mounted t = false := by
    rw [mounted_eq_false_iff, m1]
    intro m hm
    rcases List.mem_append.mp hm with hm | hm
    · exact (mounted_eq_false_iff w t).mp hmt m hm
    · simp only [List.mem_singleton] at hm
      subst hm; exact hst
  -- Publish
  obtain ⟨e2, n2, m2⟩ := publish_dynamic_success d h ⟨v, t, s, some cap2, r, ctx2, sec2⟩
    o1.nodeVolumes o1.world cap2 _ hv ht hs hdyn2 rfl hcap2 hD hT hM.1 hmt1 hg1
  generalize NodePublishVolume d h ⟨v, t, s, some cap2, r, ctx2, sec2⟩ o1.nodeVolumes o1.world
    = o2 at e2 n2 m2 ⊢
  simp only at n2 m2
  have hg2 : GetNodeVolume o2.nodeVolumes v = some ⟨v, s, t, true, true⟩ := by
    rw [n2]
    exact get_put_same _ ⟨v, s, t, true, true⟩
  have hmt2 : o2.world.mounted t = true :=
    mounted_of_mem o2.world t ⟨s, t, "", publishMountOptions r cap2 ++ ["bind"]⟩
      (by rw [m2]; simp) rfl
  -- Unpublish
  obtain ⟨e3, n3, m3⟩ := unpublish_success h ⟨v, t⟩ o2.nodeVolumes o2.world hv ht hM hD hmt2
  generalize NodeUnpublishVolume h ⟨v, t⟩ o2.nodeVolumes o2.world = o3 at e3 n3 m3 ⊢
  simp only at n3 m3
  have hn3 : o3.nodeVolumes = o2.nodeVolumes := by
    rw [n3]; unfold unpublishRegistry; rw [hg2]; rfl
  have hm3 : o3.world.mounts = w.mounts ++ [⟨conn.URL, s, "davfs", stageMountOptions cap1⟩] := by
    rw [m3, m2, m1]
    have hts : ¬ s = t := hst
    simp [List.filter_append, filter_mounts_of_not_mounted w t hmt, hts]
  have hg3 : GetNodeVolume o3.nodeVolumes v = some ⟨v, s, t, true, true⟩ := by
    rw [hn3]; exact hg2
  have hms3 : o3.world.mounted s = true :=
    mounted_of_mem o3.world s ⟨conn.URL, s, "davfs", stageMountOptions cap1⟩
      (by rw [hm3]; simp) rfl
  -- Unstage
  obtain ⟨e4, n4, m4⟩ := unstage_dynamic_success h ⟨v, s⟩ o3.nodeVolumes o3.world _ hv hs hg3 rfl
    hM hms3
  generalize NodeUnstageVolume h ⟨v, s⟩ o3.nodeVolumes o3.world = o4 at e4 n4 m4 ⊢
  simp only at n4 m4
  have hn4 : o4.nodeVolumes = reg := by
    rw [n4, hn3, n2, n1]
    simp [PutNodeVolume, List.filter_cons, List.filter_filter, remove_of_get_none reg v hreg]
  have hm4 : o4.world.mounts = w.mounts := by
    rw [m4, hm3]
    simp [List.filter_append, filter_mounts_of_not_mounted w s hms]
  refine ⟨e1, e2, e3, e4, hn4, by rw [hn4]; exact hreg, hm4, ?_, ?_⟩
  · rw [mounted_of_mounts_eq w o4.world s hm4]; exact hms
  · rw [mounted_of_mounts_eq w o4.world t hm4]; exact hmt

/-- Witness for C3 (amended): the scenario on a node that works. -/
theorem dynamic_lifecycle_roundtrip_witness :
    ∃ o1 o2 o3 o4,
      serveAll plainDriver idealHost
        [.Stage ⟨"v", "/s", some mountCap, dynamicContext, []⟩,
         .Publish ⟨"v", "/t", "/s", some mountCap, false, dynamicContext, []⟩,
         .Unpublish ⟨"v", "/t"⟩,
         .Unstage ⟨"v", "/s"⟩] [] ⟨[], []⟩ = [o1, o2, o3, o4]
      ∧ o1.err = none ∧ o2.err = none ∧ o3.err = none ∧ o4.err = none
      ∧ o4.nodeVolumes = [] ∧ GetNodeVolume o4.nodeVolumes "v" = none
      ∧ o4.world.mounts = (World.mk [] []).mounts
      ∧ o4.world.mounted "/s" = false ∧ o4.world.mounted "/t" = false :=
  dynamic_lifecycle_roundtrip plainDriver idealHost [] ⟨[], []⟩ "v" "/s" "/t" mountCap mountCap
    dynamicContext [] dynamicContext [] false ⟨"http://x", "anonymous", ""⟩
    (by decide) (by decide) (by decide) (by decide) (by decide) (by decide) (by decide)
    idealHost_mounterWorks idealHost_dirsWork idealHost_mountPointTruthful
    (by decide) (by decide) rfl rfl (by decide)

/-! ## InvalidArgument returns -/

theorem validateConnVars_error (m : ConnVars) (e : Status) (he : validateConnVars m = .error e) :
    e = ⟨.InvalidArgument, .text "Argument password is empty"⟩
    ∨ e = ⟨.InvalidArgument, .text "Argument url is empty"⟩ := by
  unfold validateConnVars at he
  by_cases h1 : m.user = "" <;> by_cases h2 : m.user = "anonymous" <;>
    by_cases h3 : m.password = "" <;> by_cases h4 : m.url = "" <;>
    simp_all [NewWebDAVConnectionInfo]

theorem mountWebdav_invalidArgument (h : Host) (w w2 : World) (ctx secrets : GoMap)
    (opts : List String) (p : String) (msg : Message) (calls3 : List Call)
    (hr : mountWebdav h w ctx secrets opts p = (some ⟨.InvalidArgument, msg⟩, w2, calls3)) :
    (msg = .text "Argument password is empty" ∨ msg = .text "Argument url is empty")
    ∧ w2 = w ∧ calls3 = [] := by
  unfold mountWebdav at hr
  cases hx : ExtractWebDAVConnectionInfo h.ToLower ctx secrets with
  | error e =>
    rw [hx] at hr
    simp only [Prod.mk.injEq, Option.some.injEq] at hr
    obtain ⟨he, hw, hc⟩ := hr
    refine ⟨?_, hw.symm, hc.symm⟩
    rcases validateConnVars_error _ e hx with h1 | h1
    · rw [h1] at he; left; injection he with _ hm; exact hm.symm
    · rw [h1] at he; right; injection he with _ hm; exact hm.symm
  | ok conn =>
    rw [hx] at hr
    dsimp only at hr
    generalize doMount h w (webdavMountArgs conn opts p) = r at hr
    obtain ⟨e, w1⟩ := r
    cases e with
    | some e => simp at hr
    | none => simp at hr

theorem mountBind_error_code (h : Host) (w : World) (s : String) (opts : List String)
    (p : String) (e : Status) (hf : (mountBind h w s opts p).1 = some e) :
    e.code = .Internal := by
  unfold mountBind at hf
  dsimp only at hf
  generalize doMount h w _ = r at hf
  obtain ⟨e', w1⟩ := r
  cases e' with
  | some e' =>
    simp only [Option.some.injEq] at hf
    rw [← hf]
  | none => simp at hf

theorem checkNotMountPoint_code (h : Host) (w : World) (p : String) (e : Status)
    (hN : checkNotMountPoint h w p = some e) : e.code = .Internal := by
  unfold checkNotMountPoint at hN
  split at hN
  · simp only [Option.some.injEq] at hN; rw [← hN]
  · split at hN
    · simp only [Option.some.injEq] at hN; rw [← hN]
    · cases hN

theorem osRemove_mounts (h : Host) (w : World) (p : String) :
    (osRemove h w p).2.mounts = w.mounts := by
  unfold osRemove
  split <;> rfl

theorem unpublish_invalidArgument (h : Host) (req : NodeUnpublishVolumeRequest)
    (reg : Registry) (w : World) (msg : Message)
    (herr : (NodeUnpublishVolume h req reg w).err = some ⟨.InvalidArgument, msg⟩) :
    (msg = .text "Volume ID not provided" → (NodeUnpublishVolume h req reg w).nodeVolumes = reg)
    ∧ (NodeUnpublishVolume h req reg w).world = w
    ∧ (NodeUnpublishVolume h req reg w).calls = [] := by
  unfold NodeUnpublishVolume at herr ⊢
  by_cases hv : req.VolumeId = ""
  · simp [hv]
  · by_cases hp : req.TargetPath = ""
    · simp only [hv, hp, if_false, if_true, Option.some.injEq, Status.mk.injEq, true_and] at herr ⊢
      subst herr
      simp
    · simp only [hv, hp, if_false] at herr ⊢
      exfalso
      revert herr
      unfold doUnmount osRemove
      repeat' split
      all_goals simp


theorem unstageUnmount_invalidArgument (h : Host) (req : NodeUnstageVolumeRequest)
    (reg1 : Registry) (w : World) (msg : Message)
    (herr : (unstageUnmount h req reg1 w).err = some ⟨.InvalidArgument, msg⟩) :
    msg = .text "Staging target path not provided"
    ∧ (unstageUnmount h req reg1 w).world = w ∧ (unstageUnmount h req reg1 w).calls = [] := by
  unfold unstageUnmount at herr ⊢
  by_cases hp : req.StagingTargetPath = ""
  · simp only [hp, if_true] at herr ⊢
    simp only [Option.some.injEq, Status.mk.injEq, true_and] at herr
    refine ⟨herr.symm, ?_, ?_⟩ <;> trivial
  · simp only [hp, if_false] at herr ⊢
    exfalso
    revert herr
    unfold doUnmount
    repeat' split
    all_goals simp

theorem unstage_invalidArgument (h : Host) (req : NodeUnstageVolumeRequest)
    (reg : Registry) (w : World) (msg : Message)
    (herr : (NodeUnstageVolume h req reg w).err = some ⟨.InvalidArgument, msg⟩) :
    (msg = .text "Volume ID not provided" → (NodeUnstageVolume h req reg w).nodeVolumes = reg)
    ∧ (NodeUnstageVolume h req reg w).world = w
    ∧ (NodeUnstageVolume h req reg w).calls = [] := by
  unfold NodeUnstageVolume at herr ⊢
  by_cases hv : req.VolumeId = ""
  · simp [hv]
  · simp only [hv, if_false] at herr ⊢
    cases hg : GetNodeVolume reg req.VolumeId with
    | none =>
      simp only [hg] at herr ⊢
      obtain ⟨hm, hw, hc⟩ := unstageUnmount_invalidArgument h req _ w msg herr
      refine ⟨?_, hw, hc⟩
      intro hmsg
      rw [hm] at hmsg
      exact absurd hmsg (by decide)
    | some e =>
      simp only [hg] at herr ⊢
      by_cases hd : e.DynamicVolumeProvisioning = true
      · simp only [hd, Bool.not_true, Bool.false_eq_true, if_false] at herr ⊢
        obtain ⟨hm, hw, hc⟩ := unstageUnmount_invalidArgument h req _ w msg herr
        refine ⟨?_, hw, hc⟩
        intro hmsg
        rw [hm] at hmsg
        exact absurd hmsg (by decide)
      · simp [hd] at herr

theorem stage_invalidArgument (d : Driver) (h : Host) (req : NodeStageVolumeRequest)
    (reg : Registry) (w : World) (msg : Message)
    (herr : (NodeStageVolume d h req reg w).err = some ⟨.InvalidArgument, msg⟩) :
    ((∃ m ∈ openingChecks (.Stage req), msg = .text m) →
        (NodeStageVolume d h req reg w).world = w ∧ (NodeStageVolume d h req reg w).calls = [])
    ∧ (NodeStageVolume d h req reg w).nodeVolumes = reg
    ∧ (NodeStageVolume d h req reg w).world.mounts = w.mounts
    ∧ (∀ c ∈ (NodeStageVolume d h req reg w).calls, c.isMountOrUnmount = false) := by
  unfold NodeStageVolume at herr ⊢
  by_cases hv : req.VolumeId = ""
  · simp [hv]
  by_cases hdyn : isDynamicVolumeProvisioningMode h.ToLower req.VolumeContext = true
  swap
  · simp [hv, hdyn] at herr
  by_cases hp : req.StagingTargetPath = ""
  · simp [hv, hdyn, hp]
  cases hc : req.VolumeCapability with
  | none => simp [hv, hdyn, hp, hc]
  | some volCap =>
    by_cases hvalid : d.isValidVolumeCapabilities [volCap] = true
    swap
    · simp [hv, hdyn, hp, hc, hvalid]
    simp only [hv, hdyn, hp, hc, hvalid, if_false, Bool.not_true, Bool.false_eq_true,
      extractClientType_webdav, if_true] at herr ⊢
    obtain ⟨hcode, hmounts, hcalls⟩ := ensureDir_frame h w req.StagingTargetPath
    rcases hE : ensureDir h w req.StagingTargetPath with ⟨e1, w1, calls1⟩
    rw [hE] at hcode hmounts hcalls herr
    cases e1 with
    | some e1 =>
      simp only [Option.some.injEq] at herr
      have := hcode e1 rfl
      rw [herr] at this
      cases this
    | none =>
      simp only at herr hmounts hcalls ⊢
      cases hN : checkNotMountPoint h w1 req.StagingTargetPath with
      | some e2 =>
        rw [hN] at herr
        simp only [Option.some.injEq] at herr
        have := checkNotMountPoint_code h w1 _ e2 hN
        rw [herr] at this
        cases this
      | none =>
        rw [hN] at herr
        simp only at herr ⊢
        rcases hW : mountWebdav h w1 req.VolumeContext (mergeSecrets d.secrets req.Secrets)
          (stageMountOptions volCap) req.StagingTargetPath with ⟨e3, w2, calls3⟩
        rw [hW] at herr
        cases e3 with
        | none => simp at herr
        | some e3 =>
          simp only [Option.some.injEq] at herr ⊢
          subst herr
          obtain ⟨hmsg, hw2, hc3⟩ := mountWebdav_invalidArgument _ _ _ _ _ _ _ _ _ hW
          subst hw2 hc3
          refine ⟨?_, trivial, ?_, ?_⟩
          · rintro ⟨m, hm, rfl⟩
            exfalso
            simp only [openingChecks, List.mem_cons, List.mem_singleton, List.not_mem_nil,
              or_false] at hm
            rcases hmsg with hmsg | hmsg <;> injection hmsg with hmsg <;>
              rcases hm with hm | hm | hm | hm <;> rw [hm] at hmsg <;>
              exact absurd hmsg (by decide)
          · rw [osRemove_mounts]; exact hmounts
          · intro c hc'
            simp only [List.append_nil, List.mem_append, List.mem_singleton] at hc'
            rcases hc' with (hc' | hc') | hc'
            · exact hcalls c hc'
            · subst hc'; rfl
            · subst hc'; rfl

theorem publish_invalidArgument (d : Driver) (h : Host) (req : NodePublishVolumeRequest)
    (reg : Registry) (w : World) (msg : Message)
    (herr : (NodePublishVolume d h req reg w).err = some ⟨.InvalidArgument, msg⟩) :
    ((∃ m ∈ openingChecks (.Publish req), msg = .text m) →
        (NodePublishVolume d h req reg w).world = w ∧ (NodePublishVolume d h req reg w).calls = [])
    ∧ (NodePublishVolume d h req reg w).nodeVolumes = reg := by
  unfold NodePublishVolume at herr ⊢
  by_cases hv : req.VolumeId = ""
  · simp [hv]
  by_cases hp : req.TargetPath = ""
  · simp [hv, hp]
  cases hc : req.VolumeCapability with
  | none => simp [hv, hp, hc]
  | some volCap =>
    by_cases hvalid : d.isValidVolumeCapabilities [volCap] = true
    swap
    · simp [hv, hp, hc, hvalid]
    simp only [hv, hp, hc, hvalid, if_false, Bool.not_true, Bool.false_eq_true,
      extractClientType_webdav, if_true] at herr ⊢
    obtain ⟨hcode, -, -⟩ := ensureDir_frame h w req.TargetPath
    rcases hE : ensureDir h w req.TargetPath with ⟨e1, w1, calls1⟩
    rw [hE] at hcode herr
    cases e1 with
    | some e1 =>
      simp only [Option.some.injEq] at herr
      have := hcode e1 rfl
      rw [herr] at this
      cases this
    | none =>
      simp only at herr ⊢
      cases hN : checkNotMountPoint h w1 req.TargetPath with
      | some e2 =>
        rw [hN] at herr
        simp only [Option.some.injEq] at herr
        have := checkNotMountPoint_code h w1 _ e2 hN
        rw [herr] at this
        cases this
      | none =>
        rw [hN] at herr
        simp only at herr ⊢
        by_cases hdyn : isDynamicVolumeProvisioningMode h.ToLower req.VolumeContext = true
        · simp only [hdyn, if_true] at herr ⊢
          by_cases hs : req.StagingTargetPath = ""
          · simp only [hs, if_true, Option.some.injEq, Status.mk.injEq, true_and] at herr ⊢
            subst herr
            refine ⟨?_, trivial⟩
            rintro ⟨m, hm, hmsg⟩
            exfalso
            simp only [openingChecks, List.mem_cons, List.mem_singleton, List.not_mem_nil,
              or_false] at hm
            injection hmsg with hmsg
            rcases hm with hm | hm | hm | hm <;> rw [hm] at hmsg <;>
              exact absurd hmsg (by decide)
          · simp only [hs, if_false] at herr ⊢
            rcases hB : mountBind h w1 req.StagingTargetPath
              (publishMountOptions req.Readonly volCap) req.TargetPath with ⟨e3, w2, calls3⟩
            rw [hB] at herr
            cases e3 with
            | some e3 =>
              simp only [Option.some.injEq] at herr
              have := mountBind_error_code h w1 _ _ _ e3 (by rw [hB])
              rw [herr] at this
              cases this
            | none =>
              simp only [PopNodeVolume] at herr ⊢
              cases hg : GetNodeVolume reg req.VolumeId with
              | some e => rw [hg] at herr; simp at herr
              | none =>
                rw [hg] at herr
                simp only [Option.some.injEq, Status.mk.injEq, true_and] at herr ⊢
                subst herr
                refine ⟨?_, remove_of_get_none reg _ hg⟩
                rintro ⟨m, -, hmsg⟩
                cases hmsg
        · have hdyn' : isDynamicVolumeProvisioningMode h.ToLower req.VolumeContext = false := by
            simpa using hdyn
          simp only [hdyn', Bool.false_eq_true, if_false] at herr ⊢
          rcases hW : mountWebdav h w1 req.VolumeContext (mergeSecrets d.secrets req.Secrets)
            (publishMountOptions req.Readonly volCap) req.TargetPath with ⟨e3, w2, calls3⟩
          rw [hW] at herr
          cases e3 with
          | none =>
            simp only [PopNodeVolume] at herr
            cases hg : GetNodeVolume reg req.VolumeId <;> rw [hg] at herr <;> simp at herr
          | some e3 =>
            simp only [Option.some.injEq] at herr ⊢
            subst herr
            obtain ⟨hmsg, hw2, hc3⟩ := mountWebdav_invalidArgument _ _ _ _ _ _ _ _ _ hW
            refine ⟨?_, trivial⟩
            rintro ⟨m, hm, rfl⟩
            exfalso
            simp only [openingChecks, List.mem_cons, List.mem_singleton, List.not_mem_nil,
              or_false] at hm
            rcases hmsg with hmsg | hmsg <;> injection hmsg with hmsg <;>
              rcases hm with hm | hm | hm | hm <;> rw [hm] at hmsg <;>
              exact absurd hmsg (by decide)

/-- C1, as stated, fails: `NodeUnpublishVolume` with a volume id but no target
path returns InvalidArgument after it has removed the registry entry of a
volume that was published without staging. -/
theorem invalid_argument_counterexample :
    (serve plainDriver idealHost (.Unpublish ⟨"v", ""⟩) [⟨"v", "", "/t", false, false⟩]
        ⟨["/t"], [⟨"http://x", "/t", "davfs", []⟩]⟩).err
      = some ⟨.InvalidArgument, .text "Target path not provided"⟩
    ∧ (serve plainDriver idealHost (.Unpublish ⟨"v", ""⟩) [⟨"v", "", "/t", false, false⟩]
        ⟨["/t"], [⟨"http://x", "/t", "davfs", []⟩]⟩).nodeVolumes
      ≠ [⟨"v", "", "/t", false, false⟩] := by
  decide

/-- C1, amended: when a handler returns the InvalidArgument error of one of
its opening checks (missing volume id in all four handlers; in
`NodeStageVolume` and `NodePublishVolume` also the missing staging/target path
and the missing or unsupported capability), the registry and the world are
exactly what they were and no outside call was made.  For every InvalidArgument
return, `NodeStageVolume` leaves the registry and the mount table unchanged and
asks for no mount or unmount, `NodePublishVolume` leaves the registry
unchanged, and `NodeUnpublishVolume` and `NodeUnstageVolume` leave the world
unchanged and make no outside call. -/
theorem invalid_argument_frame (d : Driver) (h : Host) (rq : NodeRequest) (reg : Registry)
    (w : World) (msg : Message)
    (herr : (serve d h rq reg w).err = some ⟨.InvalidArgument, msg⟩) :
    ((∃ m ∈ openingChecks rq, msg = .text m) →
        (serve d h rq reg w).nodeVolumes = reg ∧ (serve d h rq reg w).world = w
        ∧ (serve d h rq reg w).calls = [])
    ∧ keptOnInvalidArgument reg w (serve d h rq reg w) rq := by
  cases rq with
  | Stage req =>
    obtain ⟨hA, hreg, hm, hc⟩ := stage_invalidArgument d h req reg w msg herr
    exact ⟨fun hopen => ⟨hreg, (hA hopen).1, (hA hopen).2⟩, hreg, hm, hc⟩
  | Publish req =>
    obtain ⟨hA, hreg⟩ := publish_invalidArgument d h req reg w msg herr
    exact ⟨fun hopen => ⟨hreg, (hA hopen).1, (hA hopen).2⟩, hreg⟩
  | Unpublish req =>
    obtain ⟨hA, hw, hc⟩ := unpublish_invalidArgument h req reg w msg herr
    refine ⟨?_, hw, hc⟩
    rintro ⟨m, hm, rfl⟩
    simp only [openingChecks, List.mem_singleton] at hm
    subst hm
    exact ⟨hA rfl, hw, hc⟩
  | Unstage req =>
    obtain ⟨hA, hw, hc⟩ := unstage_invalidArgument h req reg w msg herr
    refine ⟨?_, hw, hc⟩
    rintro ⟨m, hm, rfl⟩
    simp only [openingChecks, List.mem_singleton] at hm
    subst hm
    exact ⟨hA rfl, hw, hc⟩

/-- Witness for C1 (amended): a Publish request without a capability, and an
Unpublish request without a target path. -/
theorem invalid_argument_frame_witness :
    ((serve plainDriver idealHost (.Publish ⟨"v", "/t", "/s", none, false, dynamicContext, []⟩)
        [⟨"v", "/s", "", true, true⟩] ⟨["/s"], [⟨"http://x", "/s", "davfs", []⟩]⟩).nodeVolumes
        = [⟨"v", "/s", "", true, true⟩]
      ∧ (serve plainDriver idealHost
          (.Publish ⟨"v", "/t", "/s", none, false, dynamicContext, []⟩)
          [⟨"v", "/s", "", true, true⟩] ⟨["/s"], [⟨"http://x", "/s", "davfs", []⟩]⟩).world
        = ⟨["/s"], [⟨"http://x", "/s", "davfs", []⟩]⟩
      ∧ (serve plainDriver idealHost
          (.Publish ⟨"v", "/t", "/s", none, false, dynamicContext, []⟩)
          [⟨"v", "/s", "", true, true⟩] ⟨["/s"], [⟨"http://x", "/s", "davfs", []⟩]⟩).calls = [])
    ∧ keptOnInvalidArgument [⟨"v", "", "/t", false, false⟩]
        ⟨["/t"], [⟨"http://x", "/t", "davfs", []⟩]⟩
        (serve plainDriver idealHost (.Unpublish ⟨"v", ""⟩) [⟨"v", "", "/t", false, false⟩]
          ⟨["/t"], [⟨"http://x", "/t", "davfs", []⟩]⟩) (.Unpublish ⟨"v", ""⟩) :=
  ⟨(invalid_argument_frame plainDriver idealHost
      (.Publish ⟨"v", "/t", "/s", none, false, dynamicContext, []⟩)
      [⟨"v", "/s", "", true, true⟩] ⟨["/s"], [⟨"http://x", "/s", "davfs", []⟩]⟩
      (.text "Volume capability not provided") (by decide)).1
      ⟨"Volume capability not provided", by decide, rfl⟩,
   (invalid_argument_frame plainDriver idealHost (.Unpublish ⟨"v", ""⟩)
      [⟨"v", "", "/t", false, false⟩] ⟨["/t"], [⟨"http://x", "/t", "davfs", []⟩]⟩
      (.text "Target path not provided") (by decide)).2⟩

/-! ## Registry effects of single calls -/

/-- C14: for a `NodeUnpublishVolume` call with a non-empty volume id `v`,
whatever the call returns: an entry held for `v` with `StageVolume = false` is
gone after the call, an entry with `StageVolume = true` is still the entry
held after the call, and the entries of every other volume id are unchanged. -/
theorem unpublish_registry_effect (h : Host) (req : NodeUnpublishVolumeRequest)
    (reg : Registry) (w : World) (e : NodeVolume)
    (hv : req.VolumeId ≠ "") (hg : GetNodeVolume reg req.VolumeId = some e) :
    (e.StageVolume = false →
        GetNodeVolume (NodeUnpublishVolume h req reg w).nodeVolumes req.VolumeId = none)
    ∧ (e.StageVolume = true →
        GetNodeVolume (NodeUnpublishVolume h req reg w).nodeVolumes req.VolumeId = some e
        ∧ (NodeUnpublishVolume h req reg w).nodeVolumes = reg)
    ∧ (∀ other, other ≠ req.VolumeId →
        GetNodeVolume (NodeUnpublishVolume h req reg w).nodeVolumes other
          = GetNodeVolume reg other) := by
  rw [unpublish_nodeVolumes h req reg w hv]
  refine ⟨?_, ?_, ?_⟩
  · intro hs
    unfold unpublishRegistry
    simp only [hg, hs, Bool.not_false, if_true, PopNodeVolume]
    exact get_after_remove reg _
  · intro hs
    unfold unpublishRegistry
    simp only [hg, hs, Bool.not_true, Bool.false_eq_true, if_false, and_self]
  · intro other hne
    exact unpublishRegistry_other reg _ other hne

/-- Witness for C14: unpublishing a volume that was published without
staging, next to another volume. -/
theorem unpublish_registry_effect_witness :
    GetNodeVolume (NodeUnpublishVolume idealHost ⟨"v", "/t"⟩
        [⟨"v", "", "/t", false, false⟩, ⟨"u", "/s", "", true, true⟩]
        ⟨["/t"], [⟨"http://x", "/t", "davfs", []⟩]⟩).nodeVolumes "v" = none :=
  (unpublish_registry_effect idealHost ⟨"v", "/t"⟩
    [⟨"v", "", "/t", false, false⟩, ⟨"u", "/s", "", true, true⟩]
    ⟨["/t"], [⟨"http://x", "/t", "davfs", []⟩]⟩ ⟨"v", "", "/t", false, false⟩
    (by decide) (by decide)).1 rfl

/-- C19: for a `NodeUnstageVolume` call with a non-empty volume id `v`,
whatever the call returns, the registry has no entry for `v` afterwards and the
entries of other ids are unchanged; when the entry held for `v` was
non-dynamic, the call returns success with the world unchanged and without any
outside call (no query, no unmount), whatever the staging path, empty
included. -/
theorem unstage_registry_effect (h : Host) (req : NodeUnstageVolumeRequest)
    (reg : Registry) (w : World) (hv : req.VolumeId ≠ "") :
    GetNodeVolume (NodeUnstageVolume h req reg w).nodeVolumes req.VolumeId = none
    ∧ (∀ other, other ≠ req.VolumeId →
        GetNodeVolume (NodeUnstageVolume h req reg w).nodeVolumes other
          = GetNodeVolume reg other)
    ∧ (∀ e, GetNodeVolume reg req.VolumeId = some e → e.DynamicVolumeProvisioning = false →
        (NodeUnstageVolume h req reg w).err = none
        ∧ (NodeUnstageVolume h req reg w).world = w
        ∧ (NodeUnstageVolume h req reg w).calls = []) := by
  refine ⟨?_, ?_, ?_⟩
  · rw [unstage_nodeVolumes h req reg w hv]
    exact get_after_remove reg _
  · intro other hne
    rw [unstage_nodeVolumes h req reg w hv]
    exact get_after_remove_other reg _ other hne
  · intro e hg hd
    unfold NodeUnstageVolume
    simp only [hv, if_false, hg, hd, Bool.not_false, if_true, and_self]

/-- Witness for C19: unstaging a static volume without a staging path. -/
theorem unstage_registry_effect_witness :
    (NodeUnstageVolume busyHost ⟨"v", ""⟩ [⟨"v", "", "", false, true⟩]
        ⟨[], []⟩).err = none
    ∧ (NodeUnstageVolume busyHost ⟨"v", ""⟩ [⟨"v", "", "", false, true⟩]
        ⟨[], []⟩).world = ⟨[], []⟩
    ∧ (NodeUnstageVolume busyHost ⟨"v", ""⟩ [⟨"v", "", "", false, true⟩]
        ⟨[], []⟩).calls = [] :=
  (unstage_registry_effect busyHost ⟨"v", ""⟩ [⟨"v", "", "", false, true⟩] ⟨[], []⟩
    (by decide)).2.2 ⟨"v", "", "", false, true⟩ (by decide) rfl

/-- C20: a static-mode `NodeStageVolume` request with a non-empty volume id
`v`, whatever its staging path and capability, succeeds, makes no outside call
and leaves the world unchanged; afterwards the registry holds for `v` the entry
with empty `StagingMountPath`, empty `MountPath`, `DynamicVolumeProvisioning =
false` and `StageVolume = true`, in place of any entry held before, and the
entries of other ids are unchanged. -/
theorem stage_static_effect (d : Driver) (h : Host) (req : NodeStageVolumeRequest)
    (reg : Registry) (w : World) (hv : req.VolumeId ≠ "")
    (hstatic : isDynamicVolumeProvisioningMode h.ToLower req.VolumeContext = false) :
    (NodeStageVolume d h req reg w).err = none
    ∧ (NodeStageVolume d h req reg w).world = w
    ∧ (NodeStageVolume d h req reg w).calls = []
    ∧ GetNodeVolume (NodeStageVolume d h req reg w).nodeVolumes req.VolumeId
        = some ⟨req.VolumeId, "", "", false, true⟩
    ∧ ((NodeStageVolume d h req reg w).nodeVolumes.filter
          (fun nv => decide (nv.ID = req.VolumeId))
        = [⟨req.VolumeId, "", "", false, true⟩])
    ∧ (∀ other, other ≠ req.VolumeId →
        GetNodeVolume (NodeStageVolume d h req reg w).nodeVolumes other
          = GetNodeVolume reg other) := by
  have hout : NodeStageVolume d h req reg w
      = ⟨none, PutNodeVolume reg ⟨req.VolumeId, "", "", false, true⟩, w, []⟩ := by
    unfold NodeStageVolume
    simp only [hv, if_false, hstatic, Bool.not_false, if_true]
  rw [hout]
  refine ⟨rfl, rfl, rfl, get_put_same reg ⟨req.VolumeId, "", "", false, true⟩, ?_, ?_⟩
  · simp [PutNodeVolume, List.filter_cons, List.filter_filter]
  · intro other hne
    exact get_put_other reg ⟨req.VolumeId, "", "", false, true⟩ other hne

/-- Witness for C20: a static Stage that replaces a stale dynamic entry. -/
theorem stage_static_effect_witness :
    GetNodeVolume (NodeStageVolume plainDriver busyHost ⟨"v", "", none, [], []⟩
        [⟨"v", "/s", "/t", true, true⟩] ⟨[], []⟩).nodeVolumes "v"
      = some ⟨"v", "", "", false, true⟩ :=
  (stage_static_effect plainDriver busyHost ⟨"v", "", none, [], []⟩
    [⟨"v", "/s", "/t", true, true⟩] ⟨[], []⟩ (by decide) (by decide)).2.2.2.1

/-! ## Provisioning mode and client type -/

theorem isDynamic_eq_true_iff (lower : String → String) (c : GoMap) :
    isDynamicVolumeProvisioningMode lower c = true
      ↔ ∃ kv ∈ c, lower kv.1 = "provisioning_mode" ∧ lower kv.2 = "dynamic" := by
  induction c with
  | nil => simp [isDynamicVolumeProvisioningMode]
  | cons kv rest ih =>
    obtain ⟨k, v⟩ := kv
    unfold isDynamicVolumeProvisioningMode
    by_cases hk : lower k = "provisioning_mode"
    · by_cases hd : lower v = "dynamic"
      · simp [hk, hd]
      · simp [hk, hd, ih]
    · simp [hk, ih]

/-- C16: `isDynamicVolumeProvisioningMode(c)` is true exactly when `c` has a
key whose lower-cased form is "provisioning_mode" with a value whose
lower-cased form is "dynamic"; it is false for the empty map, for a map
without that key, and when every value of that key is something else. -/
theorem dynamic_mode_iff (lower : String → String) (c : GoMap) :
    (isDynamicVolumeProvisioningMode lower c = true
      ↔ ∃ kv ∈ c, lower kv.1 = "provisioning_mode" ∧ lower kv.2 = "dynamic")
    ∧ isDynamicVolumeProvisioningMode lower [] = false
    ∧ ((∀ kv ∈ c, lower kv.1 ≠ "provisioning_mode") →
        isDynamicVolumeProvisioningMode lower c = false)
    ∧ ((∀ kv ∈ c, lower kv.1 = "provisioning_mode" → lower kv.2 ≠ "dynamic") →
        isDynamicVolumeProvisioningMode lower c = false) := by
  refine ⟨isDynamic_eq_true_iff lower c, rfl, ?_, ?_⟩
  · intro hno
    rw [← Bool.not_eq_true, isDynamic_eq_true_iff]
    rintro ⟨kv, hmem, hk, -⟩
    exact hno kv hmem hk
  · intro hno
    rw [← Bool.not_eq_true, isDynamic_eq_true_iff]
    rintro ⟨kv, hmem, hk, hd⟩
    exact hno kv hmem hk hd

/-- Witness for C16: a context whose mode is `Static`, and one without the
key. -/
theorem dynamic_mode_iff_witness :
    isDynamicVolumeProvisioningMode asciiLower [("Provisioning_Mode", "Static")] = false
    ∧ isDynamicVolumeProvisioningMode asciiLower [("url", "dynamic")] = false :=
  ⟨(dynamic_mode_iff asciiLower [("Provisioning_Mode", "Static")]).2.2.2 (by decide),
   (dynamic_mode_iff asciiLower [("url", "dynamic")]).2.2.1 (by decide)⟩

theorem scanClient_eq (lower : String → String) (m : GoMap) (client : String) :
    scanClient lower m client
      = match m.find? (clientKey lower) with
        | some kv => kv.2
        | none => client := by
  induction m with
  | nil => rfl
  | cons kv rest ih =>
    obtain ⟨k, v⟩ := kv
    unfold scanClient
    by_cases hk : lower k = "driver" ∨ lower k = "client"
    · simp [hk, List.find?_cons, clientKey]
    · rw [if_neg hk, ih]
      simp [List.find?_cons, clientKey, hk]

theorem find?_of_unique {α : Type} (p : α → Bool) (l : List α) (x : α)
    (hc : l.countP p ≤ 1) (hx : x ∈ l) (hp : p x = true) : l.find? p = some x := by
  induction l with
  | nil => simp at hx
  | cons a t ih =>
    by_cases ha : p a = true
    · have ht : t.countP p = 0 := by
        rw [List.countP_cons_of_pos _ _ ha] at hc
        omega
      rcases List.mem_cons.mp hx with rfl | hxt
      · simp [List.find?_cons, ha]
      · exfalso
        have : 0 < t.countP p := List.countP_pos_iff.mpr ⟨x, hxt, hp⟩
        omega
    · have hc' : t.countP p ≤ 1 := by
        rw [List.countP_cons_of_neg _ _ ha] at hc
        exact hc
      rcases List.mem_cons.mp hx with rfl | hxt
      · exact absurd hp ha
      · have ha' : p a = false := by simpa using ha
        simp [List.find?_cons, ha', ih hc' hxt]

theorem find?_perm_of_unique {α : Type} (p : α → Bool) (l l' : List α)
    (hperm : l'.Perm l) (hc : l.countP p ≤ 1) : l'.find? p = l.find? p := by
  have hc' : l'.countP p ≤ 1 := by rw [hperm.countP_eq]; exact hc
  cases hf : l.find? p with
  | some x =>
    have hx : x ∈ l := List.mem_of_find?_eq_some hf
    have hp : p x = true := List.find?_some hf
    exact find?_of_unique p l' x hc' (hperm.mem_iff.mpr hx) hp
  | none =>
    rw [List.find?_eq_none] at hf ⊢
    intro x hx
    exact hf x (hperm.mem_iff.mp hx)

/-- C17: when at most one key per map is `driver` or `client` ignoring case,
`ExtractClientType` (a total function, it has no error result) selects the
params value of that key when params has one, otherwise the secrets value when
secrets has one, otherwise the empty string; it returns `WebdavType` when the
selected string is a recognized client type and the default `d` otherwise, so
the result is `WebdavType` or `d`; and the result does not depend on the order
in which the maps are visited. -/
theorem extract_client_type (lower : String → String) (params secrets : GoMap)
    (d : ClientType)
    (hp : params.countP (clientKey lower) ≤ 1) (hs : secrets.countP (clientKey lower) ≤ 1) :
    selectedClient lower params secrets = layeredClient lower params secrets
    ∧ ExtractClientType lower params secrets d
        = (if IsValidClientType (layeredClient lower params secrets) = true then WebdavType
           else d)
    ∧ (ExtractClientType lower params secrets d = WebdavType
        ∨ ExtractClientType lower params secrets d = d)
    ∧ (∀ params' secrets', params'.Perm params → secrets'.Perm secrets →
        ExtractClientType lower params' secrets' d = ExtractClientType lower params secrets d) := by
  have hsel : ∀ ps ss, selectedClient lower ps ss = layeredClient lower ps ss := by
    intro ps ss
    unfold selectedClient layeredClient
    rw [scanClient_eq, scanClient_eq]
  refine ⟨hsel params secrets, ?_, ?_, ?_⟩
  · unfold ExtractClientType GetValidClientType IsValidClientType
    rw [hsel]
    by_cases hw : layeredClient lower params secrets = WebdavType <;> simp [hw]
  · unfold ExtractClientType GetValidClientType
    by_cases hw : selectedClient lower params secrets = WebdavType
    · left; rw [if_pos hw]
    · right; rw [if_neg hw]
  · intro params' secrets' hpp hps
    unfold ExtractClientType
    rw [hsel, hsel]
    unfold layeredClient
    rw [find?_perm_of_unique _ params params' hpp hp,
      find?_perm_of_unique _ secrets secrets' hps hs]

/-- Witness for C17: `Driver` in params wins over `client` in secrets, and an
unrecognized value falls back to the default. -/
theorem extract_client_type_witness :
    ExtractClientType asciiLower [("Driver", "nfs")] [("client", "webdav")] "fallback"
      = "fallback" :=
  (extract_client_type asciiLower [("Driver", "nfs")] [("client", "webdav")] "fallback"
    (by decide) (by decide)).2.1.trans (by decide)

/-! ## Arguments of the WebDAV mount -/

theorem validateConnVars_ok (m : ConnVars) (conn : WebDAVConnectionInfo)
    (hok : validateConnVars m = .ok conn) :
    conn.URL = m.url ∧ conn.User ≠ "" := by
  obtain ⟨u, pw, url⟩ := m
  unfold validateConnVars at hok
  by_cases h1 : u = "" <;> by_cases h3 : pw = "" <;> by_cases h4 : url = "" <;>
    simp [h1, h3, h4, NewWebDAVConnectionInfo] at hok <;>
    (try split at hok) <;> (try simp at hok) <;>
    (rw [← hok]; simp [h1])

theorem foldl_connCase_url_filter (lower : String → String) (m : GoMap) (vars vars' : ConnVars)
    (hu : vars.url = vars'.url) :
    (m.foldl (connCase lower) vars).url
      = ((m.filter (notCredential lower)).foldl (connCase lower) vars').url := by
  induction m generalizing vars vars' with
  | nil => exact hu
  | cons kv rest ih =>
    have hstep : ∀ v : ConnVars, (connCase lower v kv).url
        = if lower kv.1 = "url" then kv.2 else v.url := by
      intro v
      have := connCase_get lower v kv "url" (by decide)
      simpa [ConnVars.get] using this
    by_cases hc : notCredential lower kv = true
    · rw [List.filter_cons_of_pos hc, List.foldl_cons, List.foldl_cons]
      apply ih
      rw [hstep, hstep, hu]
    · rw [List.filter_cons_of_neg hc, List.foldl_cons]
      apply ih
      rw [hstep]
      have hcred : lower kv.1 = "user" ∨ lower kv.1 = "password" := by
        by_contra hn
        apply hc
        simp [notCredential, hn]
      have hnurl : ¬ lower kv.1 = "url" := by
        rcases hcred with h1 | h1 <;> rw [h1] <;> decide
      rw [if_neg hnurl]
      exact hu

theorem mergedConnVars_url_filter (lower : String → String) (params secrets : GoMap) :
    (mergedConnVars lower params secrets).url
      = (mergedConnVars lower (params.filter (notCredential lower))
          (secrets.filter (notCredential lower))).url := by
  unfold mergedConnVars
  apply foldl_connCase_url_filter
  apply foldl_connCase_url_filter
  rfl

/-- C18: when the connection parameters resolve, `mountWebdav` makes exactly
one outside call, `MountSensitive2`, with the resolved url as source (both
source arguments), "davfs" as filesystem type, the given target and the
caller's `mntOptions` unchanged as options; the sensitive options are
`["username=<user>"]` and the stdin data `[password]` when the user is not
"anonymous" and the password is non-empty, and both are empty otherwise.
Two calls whose maps differ only in entries keyed `user` or `password` pass the
same source, filesystem type, target and non-sensitive options. -/
theorem mount_webdav_arguments (h : Host) (w : World) (ctx secrets : GoMap)
    (mntOptions : List String) (targetPath : String) (conn : WebDAVConnectionInfo)
    (hconn : ExtractWebDAVConnectionInfo h.ToLower ctx secrets = .ok conn) :
    (mountWebdav h w ctx secrets mntOptions targetPath).2.2
        = [.MountSensitive2 (webdavMountArgs conn mntOptions targetPath)]
    ∧ (webdavMountArgs conn mntOptions targetPath).source = conn.URL
    ∧ (webdavMountArgs conn mntOptions targetPath).sourceAgain = conn.URL
    ∧ (webdavMountArgs conn mntOptions targetPath).target = targetPath
    ∧ (webdavMountArgs conn mntOptions targetPath).fstype = "davfs"
    ∧ (webdavMountArgs conn mntOptions targetPath).options = mntOptions
    ∧ ((conn.User ≠ "anonymous" ∧ conn.Password ≠ "") →
        (webdavMountArgs conn mntOptions targetPath).sensitiveOptions
          = ["username=" ++ conn.User]
        ∧ (webdavMountArgs conn mntOptions targetPath).stdinArgs = [conn.Password])
    ∧ (¬ (conn.User ≠ "anonymous" ∧ conn.Password ≠ "") →
        (webdavMountArgs conn mntOptions targetPath).sensitiveOptions = []
        ∧ (webdavMountArgs conn mntOptions targetPath).stdinArgs = [])
    ∧ (∀ (w2 : World) (ctx2 secrets2 : GoMap) (conn2 : WebDAVConnectionInfo),
        ExtractWebDAVConnectionInfo h.ToLower ctx2 secrets2 = .ok conn2 →
        ctx2.filter (notCredential h.ToLower) = ctx.filter (notCredential h.ToLower) →
        secrets2.filter (notCredential h.ToLower) = secrets.filter (notCredential h.ToLower) →
        (mountWebdav h w2 ctx2 secrets2 mntOptions targetPath).2.2
            = [.MountSensitive2 (webdavMountArgs conn2 mntOptions targetPath)]
        ∧ (webdavMountArgs conn2 mntOptions targetPath).source
            = (webdavMountArgs conn mntOptions targetPath).source
        ∧ (webdavMountArgs conn2 mntOptions targetPath).sourceAgain
            = (webdavMountArgs conn mntOptions targetPath).sourceAgain
        ∧ (webdavMountArgs conn2 mntOptions targetPath).fstype
            = (webdavMountArgs conn mntOptions targetPath).fstype
        ∧ (webdavMountArgs conn2 mntOptions targetPath).target
            = (webdavMountArgs conn mntOptions targetPath).target
        ∧ (webdavMountArgs conn2 mntOptions targetPath).options
            = (webdavMountArgs conn mntOptions targetPath).options) := by
  have hcalls : ∀ (w' : World) (c s : GoMap) (cn : WebDAVConnectionInfo),
      ExtractWebDAVConnectionInfo h.ToLower c s = .ok cn →
      (mountWebdav h w' c s mntOptions targetPath).2.2
        = [.MountSensitive2 (webdavMountArgs cn mntOptions targetPath)] := by
    intro w' c s cn hcn
    unfold mountWebdav
    rw [hcn]
    dsimp only
    generalize doMount h w' (webdavMountArgs cn mntOptions targetPath) = r
    obtain ⟨e, w1⟩ := r
    cases e <;> rfl
  obtain ⟨hurl, huser⟩ := validateConnVars_ok _ conn hconn
  refine ⟨hcalls w ctx secrets conn hconn, rfl, rfl, rfl, rfl, by simp [webdavMountArgs],
    ?_, ?_, ?_⟩
  · rintro ⟨h1, h2⟩
    simp [webdavMountArgs, huser, h1, h2]
  · intro hno
    have : ¬ (conn.User ≠ "" ∧ conn.User ≠ "anonymous" ∧ conn.Password ≠ "") :=
      fun hc => hno ⟨hc.2.1, hc.2.2⟩
    simp only [webdavMountArgs, this, decide_False, Bool.false_eq_true, if_false, and_self]
  · intro w2 ctx2 secrets2 conn2 hconn2 hctx hsec
    obtain ⟨hurl2, -⟩ := validateConnVars_ok _ conn2 hconn2
    have hsame : conn2.URL = conn.URL := by
      rw [hurl2, hurl, mergedConnVars_url_filter h.ToLower ctx2 secrets2,
        mergedConnVars_url_filter h.ToLower ctx secrets, hctx, hsec]
    refine ⟨hcalls w2 ctx2 secrets2 conn2 hconn2, ?_, ?_, rfl, rfl, ?_⟩
    · simp [webdavMountArgs, hsame]
    · simp [webdavMountArgs, hsame]
    · simp [webdavMountArgs]

/-- Witness for C18: user `bob` with password `pw`, against an anonymous
mount of the same share. -/
theorem mount_webdav_arguments_witness :
    (mountWebdav idealHost ⟨["/t"], []⟩ [("url", "http://x")]
        [("user", "bob"), ("password", "pw")] ["ro"] "/t").2.2
      = [.MountSensitive2 ⟨"http://x", "http://x", "/t", "davfs", ["ro"],
          ["username=bob"], ["pw"]⟩]
    ∧ (mountWebdav idealHost ⟨["/t"], []⟩ [("url", "http://x")] [] ["ro"] "/t").2.2
      = [.MountSensitive2 ⟨"http://x", "http://x", "/t", "davfs", ["ro"], [], []⟩] :=
  ⟨(mount_webdav_arguments idealHost ⟨["/t"], []⟩ [("url", "http://x")]
      [("user", "bob"), ("password", "pw")] ["ro"] "/t" ⟨"http://x", "bob", "pw"⟩
      (by decide)).1.trans (by decide),
   ((mount_webdav_arguments idealHost ⟨["/t"], []⟩ [("url", "http://x")]
      [("user", "bob"), ("password", "pw")] ["ro"] "/t" ⟨"http://x", "bob", "pw"⟩
      (by decide)).2.2.2.2.2.2.2.2 ⟨["/t"], []⟩ [("url", "http://x")] []
      ⟨"http://x", "anonymous", ""⟩ (by decide) (by decide) (by decide)).1.trans (by decide)⟩

/-! ## Successful `NodePublishVolume` -/

theorem checkNotMountPoint_of_ok (h : Host) (w : World) (p : String)
    (hN : h.IsLikelyNotMountPoint w p = .ok true) : checkNotMountPoint h w p = none := by
  simp [checkNotMountPoint, hN]

theorem ensureDir_calls_filter (h : Host) (w w1 : World) (p : String) (calls1 : List Call)
    (hE : ensureDir h w p = (none, w1, calls1)) :
    calls1.filter Call.isMountOrUnmount = [] := by
  have hf := (ensureDir_frame h w p).2.2
  rw [hE] at hf
  rw [List.filter_eq_nil_iff]
  intro c hc
  simp [hf c hc]

theorem publish_dynamic_outcome (d : Driver) (h : Host) (req : NodePublishVolumeRequest)
    (reg : Registry) (w w1 : World) (volCap : VolumeCapability) (e : NodeVolume)
    (calls1 : List Call)
    (hv : req.VolumeId ≠ "") (hp : req.TargetPath ≠ "") (hs : req.StagingTargetPath ≠ "")
    (hdyn : isDynamicVolumeProvisioningMode h.ToLower req.VolumeContext = true)
    (hc : req.VolumeCapability = some volCap) (hvalid : d.isValidVolumeCapabilities [volCap] = true)
    (hE : ensureDir h w req.TargetPath = (none, w1, calls1))
    (hN : h.IsLikelyNotMountPoint w1 req.TargetPath = .ok true)
    (hM : h.MountSensitive2 w1 ⟨req.StagingTargetPath, req.StagingTargetPath, req.TargetPath, "",
      publishMountOptions req.Readonly volCap ++ ["bind"], [], []⟩ = none)
    (hg : GetNodeVolume reg req.VolumeId = some e) :
    NodePublishVolume d h req reg w
      = ⟨none,
          PutNodeVolume (reg.filter (fun nv => !decide (nv.ID = req.VolumeId)))
            { e with MountPath := req.TargetPath },
          { w1 with mounts := w1.mounts ++ [⟨req.StagingTargetPath, req.TargetPath, "",
              publishMountOptions req.Readonly volCap ++ ["bind"]⟩] },
          calls1 ++ [.IsLikelyNotMountPoint req.TargetPath] ++
            [.MountSensitive2 ⟨req.StagingTargetPath, req.StagingTargetPath, req.TargetPath, "",
              publishMountOptions req.Readonly volCap ++ ["bind"], [], []⟩]⟩ := by
  unfold NodePublishVolume
  simp only [hv, hp, hs, if_false, hdyn, hc, hvalid, Bool.not_true, Bool.false_eq_true, hE,
    checkNotMountPoint_of_ok h w1 _ hN, if_true, mountBind, doMount, List.nil_append, hM,
    PopNodeVolume, hg]

theorem publish_static_outcome (d : Driver) (h : Host) (req : NodePublishVolumeRequest)
    (reg : Registry) (w w1 : World) (volCap : VolumeCapability) (conn : WebDAVConnectionInfo)
    (calls1 : List Call)
    (hv : req.VolumeId ≠ "") (hp : req.TargetPath ≠ "")
    (hstatic : isDynamicVolumeProvisioningMode h.ToLower req.VolumeContext = false)
    (hc : req.VolumeCapability = some volCap) (hvalid : d.isValidVolumeCapabilities [volCap] = true)
    (hE : ensureDir h w req.TargetPath = (none, w1, calls1))
    (hN : h.IsLikelyNotMountPoint w1 req.TargetPath = .ok true)
    (hconn : ExtractWebDAVConnectionInfo h.ToLower req.VolumeContext
      (mergeSecrets d.secrets req.Secrets) = .ok conn)
    (hM : h.MountSensitive2 w1
      (webdavMountArgs conn (publishMountOptions req.Readonly volCap) req.TargetPath) = none)
    (hg : GetNodeVolume reg req.VolumeId = none) :
    NodePublishVolume d h req reg w
      = ⟨none,
          PutNodeVolume (reg.filter (fun nv => !decide (nv.ID = req.VolumeId)))
            ⟨req.VolumeId, "", req.TargetPath, false, false⟩,
          { w1 with mounts := w1.mounts ++ [⟨conn.URL, req.TargetPath, "davfs",
              publishMountOptions req.Readonly volCap⟩] },
          calls1 ++ [.IsLikelyNotMountPoint req.TargetPath] ++
            [.MountSensitive2
              (webdavMountArgs conn (publishMountOptions req.Readonly volCap) req.TargetPath)]⟩ := by
  unfold NodePublishVolume
  simp only [hv, hp, if_false, hstatic, hc, hvalid, Bool.not_true, Bool.false_eq_true, hE,
    checkNotMountPoint_of_ok h w1 _ hN, extractClientType_webdav, if_true, mountWebdav, hconn,
    doMount, hM, PopNodeVolume, hg]
  simp [webdavMountArgs]

/-- C12, as stated, fails: the registry holds an entry for `v`, nothing is
mounted at `/t`, the Mounter reports `/t` as not a mount point and its mounts
succeed, yet the dynamic `NodePublishVolume` returns an Internal error because
the target directory is missing and cannot be created. -/
theorem publish_dynamic_counterexample :
    GetNodeVolume [⟨"v", "/s", "", true, true⟩] "v" = some ⟨"v", "/s", "", true, true⟩
    ∧ readOnlyHost.IsLikelyNotMountPoint ⟨["/s"], [⟨"http://x", "/s", "davfs", []⟩]⟩ "/t"
        = .ok true
    ∧ readOnlyHost.MountSensitive2 ⟨["/s"], [⟨"http://x", "/s", "davfs", []⟩]⟩
        ⟨"/s", "/s", "/t", "", ["bind"], [], []⟩ = none
    ∧ (NodePublishVolume plainDriver readOnlyHost
        ⟨"v", "/t", "/s", some mountCap, false, dynamicContext, []⟩
        [⟨"v", "/s", "", true, true⟩] ⟨["/s"], [⟨"http://x", "/s", "davfs", []⟩]⟩).err
      = some ⟨.Internal, .format "Could not create dir %q: %v"
          ["/t", "read-only file system"]⟩ := by
  decide

/-- C12, amended: for a dynamic-mode `NodePublishVolume` request with
non-empty volume id `v`, target path `t`, staging path `s` and a supported
capability, where the registry holds an entry `e` for `v`, the directory check
succeeds (`PathExists` and, for a missing directory, `MakeDir` return no
error), `IsLikelyNotMountPoint` reports `t` as not a mount point and the mount
succeeds: the call succeeds; the only mount or unmount it asks for is one
`MountSensitive2` with source `s`, target `t`, empty filesystem type, no
sensitive options, no stdin data and the assembled flags followed by "bind";
afterwards the entry for `v` is `e` with only `MountPath` changed to `t`, and
the entries of other ids are unchanged. -/
theorem publish_dynamic_effect (d : Driver) (h : Host) (req : NodePublishVolumeRequest)
    (reg : Registry) (w w1 : World) (volCap : VolumeCapability) (e : NodeVolume)
    (calls1 : List Call)
    (hv : req.VolumeId ≠ "") (hp : req.TargetPath ≠ "") (hs : req.StagingTargetPath ≠ "")
    (hdyn : isDynamicVolumeProvisioningMode h.ToLower req.VolumeContext = true)
    (hc : req.VolumeCapability = some volCap) (hvalid : d.isValidVolumeCapabilities [volCap] = true)
    (hg : GetNodeVolume reg req.VolumeId = some e)
    (hE : ensureDir h w req.TargetPath = (none, w1, calls1))
    (hN : h.IsLikelyNotMountPoint w1 req.TargetPath = .ok true)
    (hM : h.MountSensitive2 w1 ⟨req.StagingTargetPath, req.StagingTargetPath, req.TargetPath, "",
      publishMountOptions req.Readonly volCap ++ ["bind"], [], []⟩ = none) :
    (NodePublishVolume d h req reg w).err = none
    ∧ (NodePublishVolume d h req reg w).calls.filter Call.isMountOrUnmount
        = [.MountSensitive2 ⟨req.StagingTargetPath, req.StagingTargetPath, req.TargetPath, "",
            publishMountOptions req.Readonly volCap ++ ["bind"], [], []⟩]
    ∧ GetNodeVolume (NodePublishVolume d h req reg w).nodeVolumes req.VolumeId
        = some { e with MountPath := req.TargetPath }
    ∧ (∀ other, other ≠ req.VolumeId →
        GetNodeVolume (NodePublishVolume d h req reg w).nodeVolumes other
          = GetNodeVolume reg other) := by
  have hid : e.ID = req.VolumeId := get_some_id reg _ e hg
  rw [publish_dynamic_outcome d h req reg w w1 volCap e calls1 hv hp hs hdyn hc hvalid hE hN hM hg]
  refine ⟨rfl, ?_, ?_, ?_⟩
  · simp [List.filter_append, ensureDir_calls_filter h w w1 _ calls1 hE, List.filter_cons,
      Call.isMountOrUnmount]
  · show GetNodeVolume (PutNodeVolume _ { e with MountPath := req.TargetPath }) req.VolumeId
      = some { e with MountPath := req.TargetPath }
    rw [← hid]
    exact get_put_same _ { e with MountPath := req.TargetPath }
  · intro other hne
    show GetNodeVolume (PutNodeVolume _ { e with MountPath := req.TargetPath }) other
      = GetNodeVolume reg other
    rw [get_put_other _ { e with MountPath := req.TargetPath } other
      (fun hh => hne (hh.trans hid))]
    exact get_after_remove_other reg _ other hne

/-- Witness for C12 (amended): publishing a staged dynamic volume read-only
at a fresh target. -/
theorem publish_dynamic_effect_witness :
    (NodePublishVolume plainDriver idealHost
        ⟨"v", "/t", "/s", some mountCap, true, dynamicContext, []⟩
        [⟨"v", "/s", "", true, true⟩] ⟨["/s"], [⟨"http://x", "/s", "davfs", []⟩]⟩).err = none
    ∧ (NodePublishVolume plainDriver idealHost
        ⟨"v", "/t", "/s", some mountCap, true, dynamicContext, []⟩
        [⟨"v", "/s", "", true, true⟩]
        ⟨["/s"], [⟨"http://x", "/s", "davfs", []⟩]⟩).calls.filter Call.isMountOrUnmount
        = [.MountSensitive2 ⟨"/s", "/s", "/t", "", ["ro", "bind"], [], []⟩]
    ∧ GetNodeVolume (NodePublishVolume plainDriver idealHost
        ⟨"v", "/t", "/s", some mountCap, true, dynamicContext, []⟩
        [⟨"v", "/s", "", true, true⟩]
        ⟨["/s"], [⟨"http://x", "/s", "davfs", []⟩]⟩).nodeVolumes "v"
        = some ⟨"v", "/s", "/t", true, true⟩ :=
  have hw := publish_dynamic_effect plainDriver idealHost
    ⟨"v", "/t", "/s", some mountCap, true, dynamicContext, []⟩
    [⟨"v", "/s", "", true, true⟩] ⟨["/s"], [⟨"http://x", "/s", "davfs", []⟩]⟩
    ⟨["/s", "/t"], [⟨"http://x", "/s", "davfs", []⟩]⟩ mountCap ⟨"v", "/s", "", true, true⟩
    [.PathExists "/t", .MakeDir "/t"]
    (by decide) (by decide) (by decide) (by decide) rfl rfl (by decide) (by decide) (by decide)
    rfl
  ⟨hw.1, hw.2.1, hw.2.2.1⟩

/-- C13, as stated, fails: no entry for `v`, nothing mounted at `/t`, the
Mounter reports `/t` as not a mount point, the connection parameters resolve
and mounts succeed, yet the static `NodePublishVolume` returns an Internal
error because the target directory is missing and cannot be created; the
registry still has no entry for `v`. -/
theorem publish_static_counterexample :
    GetNodeVolume [] "v" = none
    ∧ readOnlyHost.IsLikelyNotMountPoint ⟨[], []⟩ "/t" = .ok true
    ∧ ExtractWebDAVConnectionInfo readOnlyHost.ToLower staticContext
        (mergeSecrets plainDriver.secrets []) = .ok ⟨"http://x", "anonymous", ""⟩
    ∧ readOnlyHost.MountSensitive2 ⟨[], []⟩
        ⟨"http://x", "http://x", "/t", "davfs", [], [], []⟩ = none
    ∧ (NodePublishVolume plainDriver readOnlyHost
        ⟨"v", "/t", "", some mountCap, false, staticContext, []⟩ [] ⟨[], []⟩).err
      = some ⟨.Internal, .format "Could not create dir %q: %v"
          ["/t", "read-only file system"]⟩
    ∧ GetNodeVolume (NodePublishVolume plainDriver readOnlyHost
        ⟨"v", "/t", "", some mountCap, false, staticContext, []⟩ [] ⟨[], []⟩).nodeVolumes "v"
      = none := by
  decide

/-- C13, amended: for a static-mode `NodePublishVolume` request with
non-empty volume id `v`, target path `t` and a supported capability, issued
when the registry has no entry for `v`, the directory check succeeds
(`PathExists` and, for a missing directory, `MakeDir` return no error),
`IsLikelyNotMountPoint` reports `t` as not a mount point, the connection
parameters resolve and the mount succeeds: the call succeeds and the registry
afterwards holds exactly one entry for `v`, with `MountPath = t`,
`StagingMountPath` empty, `DynamicVolumeProvisioning = false` and `StageVolume =
false`; the entries of other ids are unchanged. -/
theorem publish_static_effect (d : Driver) (h : Host) (req : NodePublishVolumeRequest)
    (reg : Registry) (w w1 : World) (volCap : VolumeCapability) (conn : WebDAVConnectionInfo)
    (calls1 : List Call)
    (hv : req.VolumeId ≠ "") (hp : req.TargetPath ≠ "")
    (hstatic : isDynamicVolumeProvisioningMode h.ToLower req.VolumeContext = false)
    (hc : req.VolumeCapability = some volCap) (hvalid : d.isValidVolumeCapabilities [volCap] = true)
    (hg : GetNodeVolume reg req.VolumeId = none)
    (hE : ensureDir h w req.TargetPath = (none, w1, calls1))
    (hN : h.IsLikelyNotMountPoint w1 req.TargetPath = .ok true)
    (hconn : ExtractWebDAVConnectionInfo h.ToLower req.VolumeContext
      (mergeSecrets d.secrets req.Secrets) = .ok conn)
    (hM : h.MountSensitive2 w1
      (webdavMountArgs conn (publishMountOptions req.Readonly volCap) req.TargetPath) = none) :
    (NodePublishVolume d h req reg w).err = none
    ∧ GetNodeVolume (NodePublishVolume d h req reg w).nodeVolumes req.VolumeId
        = some ⟨req.VolumeId, "", req.TargetPath, false, false⟩
    ∧ (NodePublishVolume d h req reg w).nodeVolumes.filter
          (fun nv => decide (nv.ID = req.VolumeId))
        = [⟨req.VolumeId, "", req.TargetPath, false, false⟩]
    ∧ (∀ other, other ≠ req.VolumeId →
        GetNodeVolume (NodePublishVolume d h req reg w).nodeVolumes other
          = GetNodeVolume reg other) := by
  rw [publish_static_outcome d h req reg w w1 volCap conn calls1 hv hp hstatic hc hvalid hE hN
    hconn hM hg]
  refine ⟨rfl, get_put_same _ ⟨req.VolumeId, "", req.TargetPath, false, false⟩, ?_, ?_⟩
  · simp [PutNodeVolume, List.filter_cons, List.filter_filter]
  · intro other hne
    rw [get_put_other _ ⟨req.VolumeId, "", req.TargetPath, false, false⟩ other hne]
    exact get_after_remove_other reg _ other hne

/-- Witness for C13 (amended): a static Publish without a prior Stage. -/
theorem publish_static_effect_witness :
    (NodePublishVolume plainDriver idealHost
        ⟨"v", "/t", "", some mountCap, false, staticContext, []⟩ [] ⟨[], []⟩).err = none
    ∧ GetNodeVolume (NodePublishVolume plainDriver idealHost
        ⟨"v", "/t", "", some mountCap, false, staticContext, []⟩ [] ⟨[], []⟩).nodeVolumes "v"
        = some ⟨"v", "", "/t", false, false⟩ :=
  have hw := publish_static_effect plainDriver idealHost
    ⟨"v", "/t", "", some mountCap, false, staticContext, []⟩ [] ⟨[], []⟩ ⟨["/t"], []⟩ mountCap
    ⟨"http://x", "anonymous", ""⟩ [.PathExists "/t", .MakeDir "/t"]
    (by decide) (by decide) (by decide) rfl rfl (by decide) (by decide) (by decide) (by decide)
    rfl
  ⟨hw.1, hw.2.1⟩

/-! ## Reachable registries -/

theorem stage_registry_cases (d : Driver) (h : Host) (req : NodeStageVolumeRequest)
    (reg : Registry) (w : World) :
    (NodeStageVolume d h req reg w).nodeVolumes = reg
    ∨ ∃ nv, (NodeStageVolume d h req reg w).nodeVolumes = PutNodeVolume reg nv
        ∧ nv.ID = req.VolumeId ∧ nv.MountPath = "" ∧ nv.StageVolume = true
        ∧ (nv.StagingMountPath ≠ "" → nv.DynamicVolumeProvisioning = true) := by
  unfold NodeStageVolume
  dsimp only
  repeat' split
  all_goals first
    | exact Or.inl rfl
    | exact Or.inr ⟨_, rfl, rfl, rfl, rfl, by simp⟩

theorem publish_registry_cases (d : Driver) (h : Host) (req : NodePublishVolumeRequest)
    (reg : Registry) (w : World) :
    (NodePublishVolume d h req reg w).nodeVolumes = reg
    ∨ ((NodePublishVolume d h req reg w).err = none
        ∧ ((∃ e, GetNodeVolume reg req.VolumeId = some e
              ∧ (NodePublishVolume d h req reg w).nodeVolumes
                  = PutNodeVolume (reg.filter (fun nv => !decide (nv.ID = req.VolumeId)))
                      { e with MountPath := req.TargetPath })
          ∨ (NodePublishVolume d h req reg w).nodeVolumes
              = PutNodeVolume (reg.filter (fun nv => !decide (nv.ID = req.VolumeId)))
                  ⟨req.VolumeId, "", req.TargetPath, false, false⟩)) := by
  unfold NodePublishVolume
  dsimp only
  repeat' split
  all_goals first
    | exact Or.inl rfl
    | (rename_i hpop
       simp only [PopNodeVolume, Prod.mk.injEq] at hpop
       obtain ⟨hg, hreg1⟩ := hpop
       subst hreg1
       first
         | exact Or.inl (remove_of_get_none reg _ hg)
         | exact Or.inr ⟨rfl, Or.inl ⟨_, hg, rfl⟩⟩
         | exact Or.inr ⟨rfl, Or.inr rfl⟩)

theorem unpublish_registry_cases (h : Host) (req : NodeUnpublishVolumeRequest)
    (reg : Registry) (w : World) :
    (NodeUnpublishVolume h req reg w).nodeVolumes = reg
    ∨ (NodeUnpublishVolume h req reg w).nodeVolumes
        = reg.filter (fun nv => !decide (nv.ID = req.VolumeId)) := by
  by_cases hv : req.VolumeId = ""
  · left
    unfold NodeUnpublishVolume
    simp only [hv, if_true]
  · rw [unpublish_nodeVolumes h req reg w hv]
    unfold unpublishRegistry
    split
    · exact Or.inl rfl
    · split
      · exact Or.inr rfl
      · exact Or.inl rfl

theorem unstage_registry_cases (h : Host) (req : NodeUnstageVolumeRequest)
    (reg : Registry) (w : World) :
    (NodeUnstageVolume h req reg w).nodeVolumes = reg
    ∨ (NodeUnstageVolume h req reg w).nodeVolumes
        = reg.filter (fun nv => !decide (nv.ID = req.VolumeId)) := by
  by_cases hv : req.VolumeId = ""
  · left
    unfold NodeUnstageVolume
    simp only [hv, if_true]
  · exact Or.inr (unstage_nodeVolumes h req reg w hv)

theorem mem_put (reg : Registry) (nv e : NodeVolume) (he : e ∈ PutNodeVolume reg nv) :
    e = nv ∨ e ∈ reg := by
  unfold PutNodeVolume at he
  rcases List.mem_cons.mp he with h1 | h1
  · exact Or.inl h1
  · exact Or.inr (List.mem_of_mem_filter h1)

theorem serve_preserves_staging (d : Driver) (h : Host) (rq : NodeRequest) (reg : Registry)
    (w : World)
    (hinv : ∀ e ∈ reg, e.StagingMountPath ≠ "" →
      e.DynamicVolumeProvisioning = true ∧ e.StageVolume = true) :
    ∀ e ∈ (serve d h rq reg w).nodeVolumes, e.StagingMountPath ≠ "" →
      e.DynamicVolumeProvisioning = true ∧ e.StageVolume = true := by
  have hfilter : ∀ (p : NodeVolume → Bool), ∀ e ∈ reg.filter p, e.StagingMountPath ≠ "" →
      e.DynamicVolumeProvisioning = true ∧ e.StageVolume = true :=
    fun p e he => hinv e (List.mem_of_mem_filter he)
  cases rq with
  | Stage req =>
    show ∀ e ∈ (NodeStageVolume d h req reg w).nodeVolumes, _
    rcases stage_registry_cases d h req reg w with hr | ⟨nv, hr, -, -, hstaged, hdyn⟩
    · rw [hr]; exact hinv
    · rw [hr]
      intro e he hs
      rcases mem_put reg nv e he with rfl | hmem
      · exact ⟨hdyn hs, hstaged⟩
      · exact hinv e hmem hs
  | Publish req =>
    show ∀ e ∈ (NodePublishVolume d h req reg w).nodeVolumes, _
    rcases publish_registry_cases d h req reg w with hr | ⟨-, ⟨e0, hg, hr⟩ | hr⟩
    · rw [hr]; exact hinv
    · rw [hr]
      intro e he hs
      rcases mem_put _ _ e he with rfl | hmem
      · exact hinv e0 (List.mem_of_find?_eq_some hg) hs
      · exact hfilter _ e hmem hs
    · rw [hr]
      intro e he hs
      rcases mem_put _ _ e he with rfl | hmem
      · exact absurd rfl hs
      · exact hfilter _ e hmem hs
  | Unpublish req =>
    show ∀ e ∈ (NodeUnpublishVolume h req reg w).nodeVolumes, _
    rcases unpublish_registry_cases h req reg w with hr | hr
    · rw [hr]; exact hinv
    · rw [hr]; exact hfilter _
  | Unstage req =>
    show ∀ e ∈ (NodeUnstageVolume h req reg w).nodeVolumes, _
    rcases unstage_registry_cases h req reg w with hr | hr
    · rw [hr]; exact hinv
    · rw [hr]; exact hfilter _

theorem registryAfter_preserves_staging (d : Driver) (steps : List Step) (reg : Registry)
    (hinv : ∀ e ∈ reg, e.StagingMountPath ≠ "" →
      e.DynamicVolumeProvisioning = true ∧ e.StageVolume = true) :
    ∀ e ∈ registryAfter d steps reg, e.StagingMountPath ≠ "" →
      e.DynamicVolumeProvisioning = true ∧ e.StageVolume = true := by
  induction steps generalizing reg with
  | nil => exact hinv
  | cons st rest ih =>
    exact ih _ (serve_preserves_staging d st.host st.request reg st.world hinv)

/-- C15: in every registry reached from the empty registry by any sequence
of `NodeStageVolume`, `NodePublishVolume`, `NodeUnpublishVolume` and
`NodeUnstageVolume` calls, with any arguments, any worlds and any answers of
the Mounter and the filesystem, every entry whose `StagingMountPath` is
non-empty has `DynamicVolumeProvisioning = true` and `StageVolume = true`. -/
theorem staging_path_invariant (d : Driver) (steps : List Step) :
    ∀ e ∈ registryAfter d steps [], e.StagingMountPath ≠ "" →
      e.DynamicVolumeProvisioning = true ∧ e.StageVolume = true :=
  registryAfter_preserves_staging d steps [] (fun e he => absurd he (List.not_mem_nil e))

/-- Witness for C15: the entry left by a dynamic Stage followed by a dynamic
Publish. -/
theorem staging_path_invariant_witness :
    (⟨"v", "/s", "/t", true, true⟩ : NodeVolume).DynamicVolumeProvisioning = true
    ∧ (⟨"v", "/s", "/t", true, true⟩ : NodeVolume).StageVolume = true :=
  staging_path_invariant plainDriver
    [⟨idealHost, ⟨[], []⟩, .Stage ⟨"v", "/s", some mountCap, dynamicContext, []⟩⟩,
     ⟨idealHost, ⟨["/s"], [⟨"http://x", "/s", "davfs", []⟩]⟩,
       .Publish ⟨"v", "/t", "/s", some mountCap, false, dynamicContext, []⟩⟩]
    ⟨"v", "/s", "/t", true, true⟩ (by decide) (by decide)

/-! ## The `MountPath` of a registry entry -/

theorem get_put (reg : Registry) (nv : NodeVolume) (id : String) :
    GetNodeVolume (PutNodeVolume reg nv) id
      = if id = nv.ID then some nv else GetNodeVolume reg id := by
  by_cases hid : id = nv.ID
  · rw [if_pos hid, hid]; exact get_put_same reg nv
  · rw [if_neg hid]; exact get_put_other reg nv id hid

theorem get_remove (reg : Registry) (v id : String) :
    GetNodeVolume (reg.filter (fun nv => !decide (nv.ID = v))) id
      = if id = v then none else GetNodeVolume reg id := by
  by_cases hid : id = v
  · rw [if_pos hid, hid]; exact get_after_remove reg v
  · rw [if_neg hid]; exact get_after_remove_other reg v id hid

/-- C11, as stated, fails: after a dynamic Stage and Publish of `v`,
`NodeUnpublishVolume` returns success and the entry that remains for `v` still
has `MountPath = "/t"`. -/
theorem mount_path_cleared_counterexample :
    (serveAll plainDriver idealHost
        [.Stage ⟨"v", "/s", some mountCap, dynamicContext, []⟩,
         .Publish ⟨"v", "/t", "/s", some mountCap, false, dynamicContext, []⟩,
         .Unpublish ⟨"v", "/t"⟩] [] ⟨[], []⟩).map
        (fun o => (o.err, GetNodeVolume o.nodeVolumes "v"))
      = [(none, some ⟨"v", "/s", "", true, true⟩),
         (none, some ⟨"v", "/s", "/t", true, true⟩),
         (none, some ⟨"v", "/s", "/t", true, true⟩)] := by
  decide

/-- C11, amended: an entry's `MountPath` becomes non-empty only through a
successful `NodePublishVolume` of its id, which sets it to the target path:
after any call, an entry found for an id with a non-empty `MountPath` is either
the entry found for that id before the call, or the call is a successful
`NodePublishVolume` for that id and that target path.  `NodeUnpublishVolume`
does not clear it: an entry that remains for the request's volume id after the
call is the entry held before the call, `MountPath` included, and for a
non-empty id it has `StageVolume = true`. -/
theorem mount_path_set_only_by_publish :
    (∀ (d : Driver) (h : Host) (rq : NodeRequest) (reg : Registry) (w : World) (id : String)
        (e : NodeVolume),
        GetNodeVolume (serve d h rq reg w).nodeVolumes id = some e → e.MountPath ≠ "" →
        GetNodeVolume reg id = some e
        ∨ ∃ req, rq = .Publish req ∧ req.VolumeId = id ∧ req.TargetPath = e.MountPath
            ∧ (serve d h rq reg w).err = none)
    ∧ (∀ (h : Host) (req : NodeUnpublishVolumeRequest) (reg : Registry) (w : World)
        (e : NodeVolume),
        GetNodeVolume (NodeUnpublishVolume h req reg w).nodeVolumes req.VolumeId = some e →
        GetNodeVolume reg req.VolumeId = some e
        ∧ (req.VolumeId ≠ "" → e.StageVolume = true)) := by
  constructor
  · intro d h rq reg w id e hget hmp
    cases rq with
    | Stage req =>
      change GetNodeVolume (NodeStageVolume d h req reg w).nodeVolumes id = some e at hget
      rcases stage_registry_cases d h req reg w with hr | ⟨nv, hr, -, hnomp, -, -⟩
      · rw [hr] at hget; exact Or.inl hget
      · rw [hr, get_put] at hget
        split at hget
        · injection hget with hget
          subst hget
          exact absurd hnomp hmp
        · exact Or.inl hget
    | Publish req =>
      change GetNodeVolume (NodePublishVolume d h req reg w).nodeVolumes id = some e at hget
      rcases publish_registry_cases d h req reg w with hr | ⟨herr, ⟨e0, hg, hr⟩ | hr⟩
      · rw [hr] at hget; exact Or.inl hget
      · have hid0 : e0.ID = req.VolumeId := get_some_id reg _ e0 hg
        rw [hr, get_put, get_remove] at hget
        by_cases hid : id = req.VolumeId
        · rw [if_pos (hid.trans hid0.symm)] at hget
          injection hget with hget
          subst hget
          exact Or.inr ⟨req, rfl, hid.symm, rfl, herr⟩
        · rw [if_neg (fun hh => hid (hh.trans hid0)), if_neg hid] at hget
          exact Or.inl hget
      · rw [hr, get_put, get_remove] at hget
        by_cases hid : id = req.VolumeId
        · rw [if_pos hid] at hget
          injection hget with hget
          subst hget
          exact Or.inr ⟨req, rfl, hid.symm, rfl, herr⟩
        · rw [if_neg hid, if_neg hid] at hget
          exact Or.inl hget
    | Unpublish req =>
      change GetNodeVolume (NodeUnpublishVolume h req reg w).nodeVolumes id = some e at hget
      rcases unpublish_registry_cases h req reg w with hr | hr
      · rw [hr] at hget; exact Or.inl hget
      · rw [hr, get_remove] at hget
        split at hget
        · cases hget
        · exact Or.inl hget
    | Unstage req =>
      change GetNodeVolume (NodeUnstageVolume h req reg w).nodeVolumes id = some e at hget
      rcases unstage_registry_cases h req reg w with hr | hr
      · rw [hr] at hget; exact Or.inl hget
      · rw [hr, get_remove] at hget
        split at hget
        · cases hget
        · exact Or.inl hget
  · intro h req reg w e hget
    by_cases hv : req.VolumeId = ""
    · have hr : (NodeUnpublishVolume h req reg w).nodeVolumes = reg := by
        unfold NodeUnpublishVolume
        simp only [hv, if_true]
      rw [hr] at hget
      exact ⟨hget, fun hne => absurd hv hne⟩
    · rw [unpublish_nodeVolumes h req reg w hv] at hget
      unfold unpublishRegistry at hget
      cases hg : GetNodeVolume reg req.VolumeId with
      | none =>
        rw [hg] at hget
        simp only at hget
        rw [hg] at hget
        cases hget
      | some e0 =>
        rw [hg] at hget
        simp only at hget
        cases hs : e0.StageVolume with
        | false =>
          simp only [hs, Bool.not_false, if_true, PopNodeVolume, get_after_remove] at hget
          cases hget
        | true =>
          simp only [hs, Bool.not_true, Bool.false_eq_true, if_false] at hget
          rw [hg] at hget
          injection hget with hget
          subst hget
          exact ⟨rfl, fun _ => hs⟩

/-- Witness for C11 (amended): the published entry of `v` after a dynamic
Publish, and the entry that remains after Unpublish. -/
theorem mount_path_set_only_by_publish_witness :
    (GetNodeVolume [⟨"v", "/s", "", true, true⟩] "v" = some ⟨"v", "/s", "/t", true, true⟩
      ∨ ∃ req, NodeRequest.Publish ⟨"v", "/t", "/s", some mountCap, false, dynamicContext, []⟩
            = .Publish req ∧ req.VolumeId = "v"
          ∧ req.TargetPath = (⟨"v", "/s", "/t", true, true⟩ : NodeVolume).MountPath
          ∧ (serve plainDriver idealHost
              (.Publish ⟨"v", "/t", "/s", some mountCap, false, dynamicContext, []⟩)
              [⟨"v", "/s", "", true, true⟩]
              ⟨["/s"], [⟨"http://x", "/s", "davfs", []⟩]⟩).err = none)
    ∧ (GetNodeVolume [⟨"v", "/s", "/t", true, true⟩] "v" = some ⟨"v", "/s", "/t", true, true⟩
      ∧ ("v" ≠ "" → (⟨"v", "/s", "/t", true, true⟩ : NodeVolume).StageVolume = true)) :=
  ⟨mount_path_set_only_by_publish.1 plainDriver idealHost
      (.Publish ⟨"v", "/t", "/s", some mountCap, false, dynamicContext, []⟩)
      [⟨"v", "/s", "", true, true⟩] ⟨["/s"], [⟨"http://x", "/s", "davfs", []⟩]⟩ "v"
      ⟨"v", "/s", "/t", true, true⟩ (by decide) (by decide),
   mount_path_set_only_by_publish.2 idealHost ⟨"v", "/t"⟩ [⟨"v", "/s", "/t", true, true⟩]
      ⟨["/s", "/t"], [⟨"http://x", "/s", "davfs", []⟩, ⟨"/s", "/t", "", ["bind"]⟩]⟩
      ⟨"v", "/s", "/t", true, true⟩ (by decide)⟩

/-! ## Dynamic `NodePublishVolume` without a registry entry -/

theorem ensureDir_calls_cases (h : Host) (w w1 : World) (p : String) (e : Option Status)
    (calls1 : List Call) (hE : ensureDir h w p = (e, w1, calls1)) :
    calls1 = [.PathExists p] ∨ calls1 = [.PathExists p, .MakeDir p] := by
  unfold ensureDir at hE
  split at hE
  · simp only [Prod.mk.injEq] at hE
    exact Or.inl hE.2.2.symm
  · split at hE
    · split at hE
      · simp only [Prod.mk.injEq] at hE
        exact Or.inr hE.2.2.symm
      · simp only [Prod.mk.injEq] at hE
        exact Or.inr hE.2.2.symm
    · simp only [Prod.mk.injEq] at hE
      exact Or.inl hE.2.2.symm

theorem publish_dynamic_orphan_outcome (d : Driver) (h : Host) (req : NodePublishVolumeRequest)
    (reg : Registry) (w w1 : World) (volCap : VolumeCapability) (calls1 : List Call)
    (hv : req.VolumeId ≠ "") (hp : req.TargetPath ≠ "") (hs : req.StagingTargetPath ≠ "")
    (hdyn : isDynamicVolumeProvisioningMode h.ToLower req.VolumeContext = true)
    (hc : req.VolumeCapability = some volCap) (hvalid : d.isValidVolumeCapabilities [volCap] = true)
    (hE : ensureDir h w req.TargetPath = (none, w1, calls1))
    (hN : h.IsLikelyNotMountPoint w1 req.TargetPath = .ok true)
    (hM : h.MountSensitive2 w1 ⟨req.StagingTargetPath, req.StagingTargetPath, req.TargetPath, "",
      publishMountOptions req.Readonly volCap ++ ["bind"], [], []⟩ = none)
    (hg : GetNodeVolume reg req.VolumeId = none) :
    NodePublishVolume d h req reg w
      = ⟨some ⟨.InvalidArgument, .format "Unable to find node volume %s" [req.VolumeId]⟩,
          reg.filter (fun nv => !decide (nv.ID = req.VolumeId)),
          { w1 with mounts := w1.mounts ++ [⟨req.StagingTargetPath, req.TargetPath, "",
              publishMountOptions req.Readonly volCap ++ ["bind"]⟩] },
          calls1 ++ [.IsLikelyNotMountPoint req.TargetPath] ++
            [.MountSensitive2 ⟨req.StagingTargetPath, req.StagingTargetPath, req.TargetPath, "",
              publishMountOptions req.Readonly volCap ++ ["bind"], [], []⟩]⟩ := by
  unfold NodePublishVolume
  simp only [hv, hp, hs, if_false, hdyn, hc, hvalid, Bool.not_true, Bool.false_eq_true, hE,
    checkNotMountPoint_of_ok h w1 _ hN, if_true, mountBind, doMount, List.nil_append, hM,
    PopNodeVolume, hg]

/-- C21, as stated, fails: the registry has no entry for `v`, nothing is
mounted at `/t`, the Mounter reports `/t` as not a mount point and its mounts
succeed, yet the dynamic `NodePublishVolume` returns Internal, not
InvalidArgument, and performs no bind mount, because the target directory is
missing and cannot be created. -/
theorem publish_orphan_counterexample :
    GetNodeVolume [] "v" = none
    ∧ readOnlyHost.IsLikelyNotMountPoint ⟨["/s"], [⟨"http://x", "/s", "davfs", []⟩]⟩ "/t"
        = .ok true
    ∧ readOnlyHost.MountSensitive2 ⟨["/s"], [⟨"http://x", "/s", "davfs", []⟩]⟩
        ⟨"/s", "/s", "/t", "", ["bind"], [], []⟩ = none
    ∧ (NodePublishVolume plainDriver readOnlyHost
        ⟨"v", "/t", "/s", some mountCap, false, dynamicContext, []⟩
        [] ⟨["/s"], [⟨"http://x", "/s", "davfs", []⟩]⟩).err
      = some ⟨.Internal, .format "Could not create dir %q: %v"
          ["/t", "read-only file system"]⟩
    ∧ (NodePublishVolume plainDriver readOnlyHost
        ⟨"v", "/t", "/s", some mountCap, false, dynamicContext, []⟩
        [] ⟨["/s"], [⟨"http://x", "/s", "davfs", []⟩]⟩).world.mounted "/t" = false := by
  decide

/-- C21, amended: for a dynamic-mode `NodePublishVolume` request with
non-empty volume id, target path and staging path and a supported capability,
issued when the registry has no entry for the volume id, the directory check
succeeds (`PathExists` and, for a missing directory, `MakeDir` return no
error), `IsLikelyNotMountPoint` reports the target as not a mount point and the
bind mount succeeds: the call returns InvalidArgument ("Unable to find node
volume"), the registry is unchanged and still has no entry for the id, but the
bind mount at the target path has been performed and is left in place: the
target is mounted and its directory exists afterwards, and the call made no
unmount and no directory removal. -/
theorem publish_without_entry_leaves_mount (d : Driver) (h : Host)
    (req : NodePublishVolumeRequest) (reg : Registry) (w w1 : World)
    (volCap : VolumeCapability) (calls1 : List Call)
    (hv : req.VolumeId ≠ "") (hp : req.TargetPath ≠ "") (hs : req.StagingTargetPath ≠ "")
    (hdyn : isDynamicVolumeProvisioningMode h.ToLower req.VolumeContext = true)
    (hc : req.VolumeCapability = some volCap) (hvalid : d.isValidVolumeCapabilities [volCap] = true)
    (hg : GetNodeVolume reg req.VolumeId = none)
    (hE : ensureDir h w req.TargetPath = (none, w1, calls1))
    (hN : h.IsLikelyNotMountPoint w1 req.TargetPath = .ok true)
    (hM : h.MountSensitive2 w1 ⟨req.StagingTargetPath, req.StagingTargetPath, req.TargetPath, "",
      publishMountOptions req.Readonly volCap ++ ["bind"], [], []⟩ = none) :
    (NodePublishVolume d h req reg w).err
        = some ⟨.InvalidArgument, .format "Unable to find node volume %s" [req.VolumeId]⟩
    ∧ (NodePublishVolume d h req reg w).nodeVolumes = reg
    ∧ GetNodeVolume (NodePublishVolume d h req reg w).nodeVolumes req.VolumeId = none
    ∧ (NodePublishVolume d h req reg w).world.mounts
        = w1.mounts ++ [⟨req.StagingTargetPath, req.TargetPath, "",
            publishMountOptions req.Readonly volCap ++ ["bind"]⟩]
    ∧ (NodePublishVolume d h req reg w).world.mounted req.TargetPath = true
    ∧ req.TargetPath ∈ (NodePublishVolume d h req reg w).world.dirs
    ∧ (NodePublishVolume d h req reg w).calls.filter Call.isMountOrUnmount
        = [.MountSensitive2 ⟨req.StagingTargetPath, req.StagingTargetPath, req.TargetPath, "",
            publishMountOptions req.Readonly volCap ++ ["bind"], [], []⟩]
    ∧ (NodePublishVolume d h req reg w).calls.filter Call.isUnmountOrRemove = [] := by
  have hin := ensureDir_exists h w w1 _ calls1 hE
  have hcalls := ensureDir_calls_cases h w w1 _ none calls1 hE
  rw [publish_dynamic_orphan_outcome d h req reg w w1 volCap calls1 hv hp hs hdyn hc hvalid hE hN
    hM hg]
  refine ⟨rfl, remove_of_get_none reg _ hg, ?_, rfl, ?_, hin, ?_, ?_⟩
  · show GetNodeVolume (reg.filter (fun nv => !decide (nv.ID = req.VolumeId))) req.VolumeId = none
    exact get_after_remove reg _
  · exact mounted_of_mem _ _ ⟨req.StagingTargetPath, req.TargetPath, "",
      publishMountOptions req.Readonly volCap ++ ["bind"]⟩ (by simp) rfl
  · simp [List.filter_append, ensureDir_calls_filter h w w1 _ calls1 hE, List.filter_cons,
      Call.isMountOrUnmount]
  · rcases hcalls with hc1 | hc1 <;> rw [hc1] <;> rfl

/-- Witness for C21 (amended): a dynamic Publish for a volume that was never
staged on this node. -/
theorem publish_without_entry_leaves_mount_witness :
    (NodePublishVolume plainDriver idealHost
        ⟨"v", "/t", "/s", some mountCap, false, dynamicContext, []⟩ []
        ⟨["/s"], [⟨"http://x", "/s", "davfs", []⟩]⟩).err
      = some ⟨.InvalidArgument, .format "Unable to find node volume %s" ["v"]⟩
    ∧ (NodePublishVolume plainDriver idealHost
        ⟨"v", "/t", "/s", some mountCap, false, dynamicContext, []⟩ []
        ⟨["/s"], [⟨"http://x", "/s", "davfs", []⟩]⟩).nodeVolumes = []
    ∧ (NodePublishVolume plainDriver idealHost
        ⟨"v", "/t", "/s", some mountCap, false, dynamicContext, []⟩ []
        ⟨["/s"], [⟨"http://x", "/s", "davfs", []⟩]⟩).world.mounted "/t" = true :=
  have hw := publish_without_entry_leaves_mount plainDriver idealHost
    ⟨"v", "/t", "/s", some mountCap, false, dynamicContext, []⟩ []
    ⟨["/s"], [⟨"http://x", "/s", "davfs", []⟩]⟩
    ⟨["/s", "/t"], [⟨"http://x", "/s", "davfs", []⟩]⟩ mountCap
    [.PathExists "/t", .MakeDir "/t"]
    (by decide) (by decide) (by decide) (by decide) rfl rfl (by decide) (by decide) (by decide)
    rfl
  ⟨hw.1, hw.2.1, hw.2.2.2.2.1⟩

end WebdavCsi
